import Mathlib

/-!
# Rover teleoperation control layer: unit translator and homing planner

A shallow embedding of

* `Source/Control/manual_keyboard_control/src/arduino_command_translator.cpp`
  (the translator stage: semantic commands to PWM pulses), and
* `Source/RoboOps_ControllerCode/manual_keyboard_control/src/manual_keyboard_control.cpp`
  (the operator-input stage: key states to semantic commands, arm homing).

Machine integers are embedded as `Int` with explicit reductions
(`toUInt16`, `toInt16`) at every place where the C++ code stores into a
16-bit variable.  `int` is 32 bits and `long` is 64 bits (LP64), so the
products and sums formed in `long` from `int` operands cannot overflow and
are embedded as plain `Int` arithmetic.

The C++ `double` operations are embedded on `ℚ`: every operation computes
the exact rational result and rounds it with `toDouble` (IEEE-754 binary64,
round to nearest, ties to even).  A conversion from `double` to `uint16_t`
truncates toward zero and is undefined when the truncated value does not fit
the destination type; it is embedded as an `Option`.
-/

namespace Rover

/-! ## Machine arithmetic -/

/-- Conversion of an integer value to `uint16_t`: reduction modulo `2^16`. -/
def toUInt16 (x : Int) : Int := x % 65536

/-- Conversion of an integer value to `int16_t`: two's complement wrap. -/
def toInt16 (x : Int) : Int := (x + 32768) % 65536 - 32768

/-- Membership in the value range of `int16_t`. -/
def isInt16 (x : Int) : Prop := -32768 ≤ x ∧ x ≤ 32767

instance (x : Int) : Decidable (isInt16 x) := by unfold isInt16; infer_instance

/-- Membership in the value range of a 32-bit `int`. -/
def isInt32 (x : Int) : Prop := -2147483648 ≤ x ∧ x ≤ 2147483647

instance (x : Int) : Decidable (isInt32 x) := by unfold isInt32; infer_instance

/-- Round a rational to the nearest integer, ties going to the even neighbour. -/
def roundNearestEven (q : ℚ) : ℤ :=
  if q - ⌊q⌋ < 1 / 2 then ⌊q⌋
  else if 1 / 2 < q - ⌊q⌋ then ⌊q⌋ + 1
  else if ⌊q⌋ % 2 = 0 then ⌊q⌋ else ⌊q⌋ + 1

/-- The `double` nearest to the rational `q`: with `2^e ≤ |q| < 2^(e+1)` the
spacing of doubles around `q` is `2^(e-52)` (53-bit significand), and `q` is
rounded to the nearest multiple of it, ties to even.  The exponent is left
unbounded: every magnitude that occurs below lies between `2^-11` and `2^37`,
far from the subnormal and overflow thresholds of binary64. -/
def toDouble (q : ℚ) : ℚ :=
  if q = 0 then 0
  else (roundNearestEven (q / (2 : ℚ) ^ (Int.log 2 |q| - 52)) : ℚ) * (2 : ℚ) ^ (Int.log 2 |q| - 52)

/-- Truncation of a `double` value toward zero (the integral part). -/
def truncQ (q : ℚ) : ℤ := if 0 ≤ q then ⌊q⌋ else ⌈q⌉

/-- Conversion `(uint16_t) d` of a `double`: the value truncated toward zero
when that fits `uint16_t`; otherwise the conversion is undefined. -/
def doubleToUInt16 (q : ℚ) : Option Int :=
  if 0 ≤ truncQ q ∧ truncQ q ≤ 65535 then some (truncQ q) else none

/-! ## Calibration constants (arduino_command_translator.cpp, lines 56-95) -/

def ARM_PWM_MIN : Int := 126
def ARM_PWM_MAX : Int := 504
def ARM_PWM_NEUTRAL : Int := 315
def ARM_PWM_360_DEGREES : Int := 216

def STEER_PWM_MIN : Int := 105
def STEER_PWM_MAX : Int := 495
def STEER_PWM_NEUTRAL : Int := 295
def STEER_PWM_360_DEGREES : Int := 720

def GRIPPER_ROTATE_PWM_MIN : Int := 105
def GRIPPER_ROTATE_PWM_MAX : Int := 495
def GRIPPER_ROTATE_PWM_NEUTRAL : Int := 295
def GRIPPER_ROTATE_PWM_360_DEGREES : Int := 720

def GRIPPER_CLAW_CONSTANT : ℚ := 100
def GRIPPER_CLAW_PWM_CLOSED : Int := 276
def GRIPPER_CLAW_PWM_OPEN : Int := 355

def MAX_FORWARD_SPEED_PWM : Int := 345
def MAX_REVERSE_SPEED_PWM : Int := 248
def NEUTRAL_SPEED_PWM : Int := 292

def MAST_SERVO_PWM_MAX : Int := 315
def MAST_SERVO_PWM_MIN : Int := 305
def MAST_SERVO_PWM_IMMOBILE : Int := 310

/-! ## Translators (arduino_command_translator.cpp, lines 176-230) -/

/-- Embedding of `angle_to_pulse`: the angle goes through a `double` and back
to `long`, the pulse is formed in `long` with truncating division, stored
into a `uint16_t`, and only then compared with the limits. -/
def angle_to_pulse (int_angle servo_neutral servo_full_turn servo_min servo_max : Int) : Int :=
  let angle : ℚ := toDouble ((int_angle : ℚ) * 1)
  let pulse : Int := toUInt16 (servo_neutral + Int.tdiv (truncQ angle * servo_full_turn) 360)
  if pulse < servo_min then toUInt16 servo_min
  else if pulse > servo_max then toUInt16 servo_max
  else pulse

def arm_angle_to_pulse (int_angle : Int) : Int :=
  angle_to_pulse int_angle ARM_PWM_NEUTRAL ARM_PWM_360_DEGREES ARM_PWM_MIN ARM_PWM_MAX

def steer_angle_to_pulse (int_angle : Int) : Int :=
  angle_to_pulse int_angle STEER_PWM_NEUTRAL STEER_PWM_360_DEGREES STEER_PWM_MIN STEER_PWM_MAX

def gripper_angle_to_pulse (int_angle : Int) : Int :=
  angle_to_pulse int_angle GRIPPER_ROTATE_PWM_NEUTRAL GRIPPER_ROTATE_PWM_360_DEGREES
    GRIPPER_ROTATE_PWM_MIN GRIPPER_ROTATE_PWM_MAX

/-- Embedding of `gripper_claw_to_pulse`: computed in `double`, converted to
`uint16_t` by the `return`; there is no range check. -/
def gripper_claw_to_pulse (int_claw : Int) : Option Int :=
  let ratio : ℚ := toDouble (toDouble ((int_claw : ℚ) * 1) / GRIPPER_CLAW_CONSTANT)
  let scaled : ℚ := toDouble (ratio * ((GRIPPER_CLAW_PWM_OPEN - GRIPPER_CLAW_PWM_CLOSED : Int) : ℚ))
  doubleToUInt16 (toDouble ((GRIPPER_CLAW_PWM_OPEN : ℚ) - scaled))

/-- Embedding of `drive_speed_to_pulse`: the three-way branch on the sign of
the speed, each arm computed in `double`, then the conversion to `uint16_t`. -/
def drive_speed_to_pulse (int_speed : Int) : Option Int :=
  let speed : ℚ := toDouble ((int_speed : ℚ) * 1)
  let speed : ℚ :=
    if int_speed < 0 then
      toDouble ((NEUTRAL_SPEED_PWM : ℚ) +
        toDouble (toDouble (speed / 2000) * ((NEUTRAL_SPEED_PWM - MAX_REVERSE_SPEED_PWM : Int) : ℚ)))
    else if int_speed > 0 then
      toDouble ((NEUTRAL_SPEED_PWM : ℚ) +
        toDouble (toDouble (speed / 2000) * ((MAX_FORWARD_SPEED_PWM - NEUTRAL_SPEED_PWM : Int) : ℚ)))
    else (NEUTRAL_SPEED_PWM : ℚ)
  doubleToUInt16 speed

/-- Closed form of `drive_speed_to_pulse` in integer arithmetic; the theorem
`drive_speed_to_pulse_eq` proves that the `double` computation yields it. -/
def drivePulseInt (s : Int) : Int :=
  if s < 0 then Int.tdiv (584000 + 44 * s) 2000
  else if s > 0 then Int.tdiv (584000 + 53 * s) 2000
  else 292

/-- Closed form of `gripper_claw_to_pulse` in integer arithmetic; the theorem
`gripper_claw_to_pulse_eq` proves that the `double` computation yields it. -/
def clawPulseInt (p : Int) : Int := Int.tdiv (35500 - 79 * p) 100

/-- The body of `angle_to_pulse` once the angle has gone through `double`
unchanged; the theorem `angle_to_pulse_eq` proves the two agree on every
32-bit angle. -/
def anglePulseInt (int_angle servo_neutral servo_full_turn servo_min servo_max : Int) : Int :=
  if toUInt16 (servo_neutral + Int.tdiv (int_angle * servo_full_turn) 360) < servo_min then
    toUInt16 servo_min
  else if toUInt16 (servo_neutral + Int.tdiv (int_angle * servo_full_turn) 360) > servo_max then
    toUInt16 servo_max
  else toUInt16 (servo_neutral + Int.tdiv (int_angle * servo_full_turn) 360)

/-- The saturating clamp of the spec: `neutral + angle * span / 360` limited
to `[min, max]` with no intermediate 16-bit store. -/
def saturatingAnglePulse (angle neutral span lo hi : Int) : Int :=
  if neutral + Int.tdiv (angle * span) 360 < lo then lo
  else if neutral + Int.tdiv (angle * span) 360 > hi then hi
  else neutral + Int.tdiv (angle * span) 360

/-! ## Translator state and callbacks (arduino_command_translator.cpp, lines 157-351) -/

/-- The globals of the translator stage: the 15-element hardware command
array and the dirty flag. -/
structure TranslatorState where
  command_message_array : List Int
  UPDATE_NEEDED : Bool
deriving DecidableEq

/-- Embedding of `arm_cmd_manual_callback`.  A read past the end of the
incoming array is undefined and yields `none`. -/
def arm_cmd_manual_callback (cmd_msg : List Int) (st : TranslatorState) :
    Option TranslatorState := do
  let data := st.command_message_array
  let newAngle := toInt16 (← cmd_msg[0]?)
  let data := data.set 0 (arm_angle_to_pulse newAngle)
  let newAngle := toInt16 (← cmd_msg[1]?)
  let data := data.set 1 (arm_angle_to_pulse newAngle)
  let newAngle := toInt16 (← cmd_msg[2]?)
  let data := data.set 2 (arm_angle_to_pulse newAngle)
  let newAngle := toInt16 (← cmd_msg[3]?)
  let data := data.set 3 (arm_angle_to_pulse newAngle)
  let newAngle := toInt16 (← cmd_msg[4]?)
  let data := data.set 12 (gripper_angle_to_pulse newAngle)
  let newAngle := toInt16 (← cmd_msg[5]?)
  let newPulse ← gripper_claw_to_pulse newAngle
  let data := data.set 13 newPulse
  some { command_message_array := data, UPDATE_NEEDED := true }

/-- Embedding of `steer_cmd_manual_callback`; the rear angle is negated. -/
def steer_cmd_manual_callback (cmd_msg : List Int) (st : TranslatorState) :
    Option TranslatorState := do
  let data := st.command_message_array
  let newAngle := toInt16 (-(toInt16 (← cmd_msg[0]?)))
  let data := data.set 4 (steer_angle_to_pulse newAngle)
  let newAngle := toInt16 (← cmd_msg[1]?)
  let data := data.set 5 (steer_angle_to_pulse newAngle)
  let newAngle := toInt16 (← cmd_msg[2]?)
  let data := data.set 6 (steer_angle_to_pulse newAngle)
  some { command_message_array := data, UPDATE_NEEDED := true }

/-- Embedding of `drive_cmd_manual_callback`; the rear speed is negated. -/
def drive_cmd_manual_callback (cmd_msg : List Int) (st : TranslatorState) :
    Option TranslatorState := do
  let data := st.command_message_array
  let newSpeed := toInt16 (-(toInt16 (← cmd_msg[0]?)))
  let newPulse ← drive_speed_to_pulse newSpeed
  let data := data.set 7 newPulse
  let newSpeed := toInt16 (← cmd_msg[1]?)
  let newPulse ← drive_speed_to_pulse newSpeed
  let data := data.set 8 newPulse
  let newSpeed := toInt16 (← cmd_msg[2]?)
  let newPulse ← drive_speed_to_pulse newSpeed
  let data := data.set 9 newPulse
  let newSpeed := toInt16 (← cmd_msg[3]?)
  let newPulse ← drive_speed_to_pulse newSpeed
  let data := data.set 10 newPulse
  let newSpeed := toInt16 (← cmd_msg[4]?)
  let newPulse ← drive_speed_to_pulse newSpeed
  let data := data.set 11 newPulse
  some { command_message_array := data, UPDATE_NEEDED := true }

/-- Embedding of `mast_cmd_manual_callback`: the sum is formed in `int` and
stored into the `uint16_t` slot without a range check. -/
def mast_cmd_manual_callback (cmd_msg : Int) (st : TranslatorState) : TranslatorState :=
  let newSpeed := toInt16 cmd_msg
  { command_message_array :=
      st.command_message_array.set 14 (toUInt16 (MAST_SERVO_PWM_IMMOBILE + newSpeed)),
    UPDATE_NEEDED := true }

/-- Embedding of `initialize_command_message_array`: the array is cleared,
refilled with fifteen zeros, and every slot is set to its default. -/
def initialize_command_message_array (st : TranslatorState) : TranslatorState :=
  let data : List Int := List.replicate 15 0
  let data := data.set 0 ARM_PWM_NEUTRAL
  let data := data.set 1 ARM_PWM_NEUTRAL
  let data := data.set 2 ARM_PWM_NEUTRAL
  let data := data.set 3 ARM_PWM_NEUTRAL
  let data := data.set 4 STEER_PWM_NEUTRAL
  let data := data.set 5 STEER_PWM_NEUTRAL
  let data := data.set 6 STEER_PWM_NEUTRAL
  let data := data.set 7 NEUTRAL_SPEED_PWM
  let data := data.set 8 NEUTRAL_SPEED_PWM
  let data := data.set 9 NEUTRAL_SPEED_PWM
  let data := data.set 10 NEUTRAL_SPEED_PWM
  let data := data.set 11 NEUTRAL_SPEED_PWM
  let data := data.set 12 GRIPPER_ROTATE_PWM_NEUTRAL
  let data := data.set 13 GRIPPER_CLAW_PWM_OPEN
  let data := data.set 14 MAST_SERVO_PWM_IMMOBILE
  { command_message_array := data, UPDATE_NEEDED := st.UPDATE_NEEDED }

/-- The translator's globals at program start: an empty array, flag clear. -/
def translatorStart : TranslatorState := { command_message_array := [], UPDATE_NEEDED := false }

/-- A message delivered to one of the four subscriptions of the translator. -/
inductive Command where
  | arm (data : List Int)
  | steer (data : List Int)
  | drive (data : List Int)
  | mast (data : Int)

/-- The message carries 16-bit signed values only (`Int16MultiArray`, `Int16`). -/
def Command.wellFormed : Command → Prop
  | Command.arm d => ∀ x ∈ d, isInt16 x
  | Command.steer d => ∀ x ∈ d, isInt16 x
  | Command.drive d => ∀ x ∈ d, isInt16 x
  | Command.mast v => isInt16 v

/-- Delivery of one message to its callback. -/
def dispatch (c : Command) (st : TranslatorState) : Option TranslatorState :=
  match c with
  | Command.arm d => arm_cmd_manual_callback d st
  | Command.steer d => steer_cmd_manual_callback d st
  | Command.drive d => drive_cmd_manual_callback d st
  | Command.mast v => some (mast_cmd_manual_callback v st)

/-- Delivery of a sequence of messages, oldest first. -/
def runCallbacks : List Command → TranslatorState → Option TranslatorState
  | [], st => some st
  | c :: cs, st => (dispatch c st).bind (runCallbacks cs)

/-- Slot `i` of the hardware array (0 when the array is shorter). -/
def slot (st : TranslatorState) (i : Nat) : Int := st.command_message_array.getD i 0

/-- The pulse limits of the claim: every slot within its channel's limits. -/
def allSlotsInLimits (st : TranslatorState) : Prop :=
  (∀ i, i < 4 → ARM_PWM_MIN ≤ slot st i ∧ slot st i ≤ ARM_PWM_MAX) ∧
  (∀ i, 4 ≤ i → i < 7 → STEER_PWM_MIN ≤ slot st i ∧ slot st i ≤ STEER_PWM_MAX) ∧
  (∀ i, 7 ≤ i → i < 12 → MAX_REVERSE_SPEED_PWM ≤ slot st i ∧ slot st i ≤ MAX_FORWARD_SPEED_PWM) ∧
  (GRIPPER_ROTATE_PWM_MIN ≤ slot st 12 ∧ slot st 12 ≤ GRIPPER_ROTATE_PWM_MAX) ∧
  (GRIPPER_CLAW_PWM_CLOSED ≤ slot st 13 ∧ slot st 13 ≤ GRIPPER_CLAW_PWM_OPEN) ∧
  (MAST_SERVO_PWM_MIN ≤ slot st 14 ∧ slot st 14 ≤ MAST_SERVO_PWM_MAX)

/-- The limits that the clamping translators enforce: the arm, steer and
gripper-rotate slots within their channel's limits, in a 15-element array of
16-bit values. -/
def servoSlotsInLimits (st : TranslatorState) : Prop :=
  st.command_message_array.length = 15 ∧
  (∀ i, i < 15 → 0 ≤ slot st i ∧ slot st i ≤ 65535) ∧
  (∀ i, i < 4 → ARM_PWM_MIN ≤ slot st i ∧ slot st i ≤ ARM_PWM_MAX) ∧
  (∀ i, 4 ≤ i → i < 7 → STEER_PWM_MIN ≤ slot st i ∧ slot st i ≤ STEER_PWM_MAX) ∧
  (GRIPPER_ROTATE_PWM_MIN ≤ slot st 12 ∧ slot st 12 ≤ GRIPPER_ROTATE_PWM_MAX)

/-! ## Arm homing (manual_keyboard_control.cpp, lines 229-286) -/

/-- The array `arm_servo[4]`: base, shoulder, elbow, wrist (indices 0-3). -/
structure ArmServo where
  base : Int
  shoulder : Int
  elbow : Int
  wrist : Int
deriving DecidableEq

/-- Read of `arm_servo[i]`. -/
def ArmServo.get (a : ArmServo) (i : Nat) : Int :=
  match i with
  | 0 => a.base
  | 1 => a.shoulder
  | 2 => a.elbow
  | _ => a.wrist

/-- Store into `arm_servo[i]`. -/
def ArmServo.set (a : ArmServo) (i : Nat) (v : Int) : ArmServo :=
  match i with
  | 0 => { a with base := v }
  | 1 => { a with shoulder := v }
  | 2 => { a with elbow := v }
  | _ => { a with wrist := v }

/-- Every joint holds an `int16_t` value. -/
def ArmServo.wellFormed (a : ArmServo) : Prop :=
  isInt16 a.base ∧ isInt16 a.shoulder ∧ isInt16 a.elbow ∧ isInt16 a.wrist

/-- The body of the `for` loop of the arm-home branch for joint `i`: skip
rule, target selection, unit step, doubling for base and wrist, and the
store back into the 16-bit array. -/
def home_joint (i : Nat) (a : ArmServo) : ArmServo :=
  if a.shoulder > 55 ∧ a.wrist ≠ -40 ∧ i ≠ 3 then a
  else
    let target_angle : Int :=
      if i = 0 ∧ a.base ≠ 0 ∧ a.shoulder = 30 then 0
      else if i = 1 ∧ a.base ≠ 0 then 30
      else if i = 2 ∧ (a.base ≠ 0 ∨ a.shoulder > 20) then a.elbow + 30
      else if i = 3 ∧ a.shoulder > 50 then -40
      else 0
    let angle_delta : Int :=
      if a.get i < target_angle then 1
      else if a.get i > target_angle then -1
      else 0
    let angle_delta : Int :=
      if i = 0 ∨ i = 3 then
        if a.get i - 1 ≠ 0 ∧ a.get i + 1 ≠ 0 then angle_delta * 2 else angle_delta
      else angle_delta
    a.set i (toInt16 (a.get i + angle_delta))

/-- One control tick with only the home key held: the loop over the four
joints in index order, each reading the values left by the previous ones. -/
def home_tick (a : ArmServo) : ArmServo :=
  home_joint 3 (home_joint 2 (home_joint 1 (home_joint 0 a)))

/-- The all-zero home pose. -/
def homePose : ArmServo := { base := 0, shoulder := 0, elbow := 0, wrist := 0 }

/-! ## Callbacks, statement by statement -/

/-- Outcome of running a callback body statement by statement: either it runs
to its end, or it reaches an undefined operation (a read past the end of the
incoming array, a conversion whose value does not fit) with the hardware
array as written so far. -/
inductive Outcome where
  | completed (st : TranslatorState)
  | undefinedIn (st : TranslatorState)
deriving DecidableEq

/-- Sequencing of statements: the rest of the body runs only if no undefined
operation has been reached. -/
def Outcome.andThen (r : Outcome) (k : TranslatorState → Outcome) : Outcome :=
  match r with
  | Outcome.completed st => k st
  | Outcome.undefinedIn st => Outcome.undefinedIn st

/-- One group "read element `i`, translate it with `f`, store into slot `o`"
of a callback body. -/
def translateInto (cmd_msg : List Int) (i : Nat) (f : Int → Option Int) (o : Nat)
    (st : TranslatorState) : Outcome :=
  match cmd_msg[i]? with
  | none => Outcome.undefinedIn st
  | some x =>
    match f x with
    | none => Outcome.undefinedIn st
    | some p =>
      Outcome.completed { st with command_message_array := st.command_message_array.set o p }

/-- The body of `arm_cmd_manual_callback`, keeping the state reached when an
undefined operation stops it. -/
def arm_cmd_manual_callback_trace (cmd_msg : List Int) (st : TranslatorState) : Outcome :=
  (translateInto cmd_msg 0 (fun x => some (arm_angle_to_pulse (toInt16 x))) 0 st).andThen fun st =>
  (translateInto cmd_msg 1 (fun x => some (arm_angle_to_pulse (toInt16 x))) 1 st).andThen fun st =>
  (translateInto cmd_msg 2 (fun x => some (arm_angle_to_pulse (toInt16 x))) 2 st).andThen fun st =>
  (translateInto cmd_msg 3 (fun x => some (arm_angle_to_pulse (toInt16 x))) 3 st).andThen fun st =>
  (translateInto cmd_msg 4 (fun x => some (gripper_angle_to_pulse (toInt16 x))) 12 st).andThen
    fun st =>
  (translateInto cmd_msg 5 (fun x => gripper_claw_to_pulse (toInt16 x)) 13 st).andThen fun st =>
  Outcome.completed { st with UPDATE_NEEDED := true }

/-- The body of `steer_cmd_manual_callback`, keeping the state reached when an
undefined operation stops it. -/
def steer_cmd_manual_callback_trace (cmd_msg : List Int) (st : TranslatorState) : Outcome :=
  (translateInto cmd_msg 0 (fun x => some (steer_angle_to_pulse (toInt16 (-(toInt16 x))))) 4
    st).andThen fun st =>
  (translateInto cmd_msg 1 (fun x => some (steer_angle_to_pulse (toInt16 x))) 5 st).andThen
    fun st =>
  (translateInto cmd_msg 2 (fun x => some (steer_angle_to_pulse (toInt16 x))) 6 st).andThen
    fun st =>
  Outcome.completed { st with UPDATE_NEEDED := true }

/-- The body of `drive_cmd_manual_callback`, keeping the state reached when an
undefined operation stops it. -/
def drive_cmd_manual_callback_trace (cmd_msg : List Int) (st : TranslatorState) : Outcome :=
  (translateInto cmd_msg 0 (fun x => drive_speed_to_pulse (toInt16 (-(toInt16 x)))) 7
    st).andThen fun st =>
  (translateInto cmd_msg 1 (fun x => drive_speed_to_pulse (toInt16 x)) 8 st).andThen fun st =>
  (translateInto cmd_msg 2 (fun x => drive_speed_to_pulse (toInt16 x)) 9 st).andThen fun st =>
  (translateInto cmd_msg 3 (fun x => drive_speed_to_pulse (toInt16 x)) 10 st).andThen fun st =>
  (translateInto cmd_msg 4 (fun x => drive_speed_to_pulse (toInt16 x)) 11 st).andThen fun st =>
  Outcome.completed { st with UPDATE_NEEDED := true }

/-- The state of a completed run; nothing when the run was stopped. -/
def Outcome.result (r : Outcome) : Option TranslatorState :=
  match r with
  | Outcome.completed st => some st
  | Outcome.undefinedIn _ => none

/-! ## Operator-input stage (manual_keyboard_control.cpp) -/

/-- The key codes the control loop looks up in `keys`, and any other code. -/
inductive Key where
  | KEY_n | KEY_m | KEY_u | KEY_j | KEY_i | KEY_k | KEY_o | KEY_l | KEY_p | KEY_b
  | KEY_q | KEY_e | KEY_r | KEY_w | KEY_s | KEY_x | KEY_a | KEY_d | KEY_f
  | other (code : Nat)
deriving DecidableEq

/-- The array `steer_servo[3]`: back, front right, front left (indices 0-2). -/
structure SteerServo where
  back : Int
  front_right : Int
  front_left : Int
deriving DecidableEq

/-- The elements 0-4 of `drive_motors[8]`: rear, side right, side left, front
right, front left; the elements 5-7 are never accessed. -/
structure DriveMotors where
  rear : Int
  side_right : Int
  side_left : Int
  front_right : Int
  front_left : Int
deriving DecidableEq

/-- A message handed to one of the three publishers, with its `data` array. -/
inductive Publication where
  | arm_cmd_manual (data : List Int)
  | steer_cmd_manual (data : List Int)
  | drive_cmd_manual (data : List Int)
deriving DecidableEq

/-- The globals of the operator-input stage, and the messages published so
far (oldest first). -/
structure ControllerState where
  keys : Key → Bool
  CURRENT_VACUUM_STATE : Bool
  arm_servo : ArmServo
  arm_servo_message : List Int
  steer_servo : SteerServo
  steer_servo_message : List Int
  drive_motors : DriveMotors
  drive_motor_message : List Int
  published : List Publication

/-- The globals at program start: zero-initialised arrays, empty messages,
an empty key map (every lookup gives `false`). -/
def controllerStart : ControllerState :=
  { keys := fun _ => false
    CURRENT_VACUUM_STATE := false
    arm_servo := { base := 0, shoulder := 0, elbow := 0, wrist := 0 }
    arm_servo_message := []
    steer_servo := { back := 0, front_right := 0, front_left := 0 }
    steer_servo_message := []
    drive_motors := { rear := 0, side_right := 0, side_left := 0, front_right := 0, front_left := 0 }
    drive_motor_message := []
    published := [] }

/-- Store `data[i] = v` into a message array; a store past the end of the
array is undefined and yields `none`. -/
def writeAt (data : List Int) (i : Nat) (v : Int) : Option (List Int) :=
  if i < data.length then some (data.set i v) else none

/-- Embedding of `keyDown`. -/
def keyDown (key : Key) (s : ControllerState) : ControllerState :=
  { s with keys := fun k => if k = key then true else s.keys k }

/-- Embedding of `keyUp`. -/
def keyUp (key : Key) (s : ControllerState) : ControllerState :=
  { s with keys := fun k => if k = key then false else s.keys k }

/-- Embedding of `publish_arm_servo_update`.  The source writes
`arm_servo_message[i]`; the message has the single array member `data`, which
the two sibling functions name, and the store is embedded as
`arm_servo_message.data[i]`. -/
def publish_arm_servo_update (s : ControllerState) : Option ControllerState := do
  let data ← writeAt s.arm_servo_message 0 s.arm_servo.base
  let data ← writeAt data 1 s.arm_servo.shoulder
  let data ← writeAt data 2 s.arm_servo.elbow
  let data ← writeAt data 3 s.arm_servo.wrist
  some { s with arm_servo_message := data,
                published := s.published ++ [Publication.arm_cmd_manual data] }

/-- Embedding of `publish_steer_servo_update`. -/
def publish_steer_servo_update (s : ControllerState) : Option ControllerState := do
  let data ← writeAt s.steer_servo_message 0 s.steer_servo.back
  let data ← writeAt data 1 s.steer_servo.front_right
  let data ← writeAt data 2 s.steer_servo.front_left
  some { s with steer_servo_message := data,
                published := s.published ++ [Publication.steer_cmd_manual data] }

/-- Embedding of `publish_drive_motor_update`. -/
def publish_drive_motor_update (s : ControllerState) : Option ControllerState := do
  let data ← writeAt s.drive_motor_message 0 s.drive_motors.rear
  let data ← writeAt data 1 s.drive_motors.side_right
  let data ← writeAt data 2 s.drive_motors.side_left
  let data ← writeAt data 3 s.drive_motors.front_right
  let data ← writeAt data 4 s.drive_motors.front_left
  some { s with drive_motor_message := data,
                published := s.published ++ [Publication.drive_cmd_manual data] }

/-- Embedding of `initialize_servos`, statement by statement.  The block
commented "Initialize steer servo update message array" clears and fills
`drive_motor_message`; the array `steer_servo_message.data` is not touched. -/
def initialize_servos (s : ControllerState) : ControllerState :=
  let s := { s with arm_servo := { base := 0, shoulder := 0, elbow := 0, wrist := 0 } }
  let s := { s with arm_servo_message := [] }
  let s := { s with arm_servo_message := s.arm_servo_message ++ [0] }
  let s := { s with arm_servo_message := s.arm_servo_message ++ [0] }
  let s := { s with arm_servo_message := s.arm_servo_message ++ [0] }
  let s := { s with arm_servo_message := s.arm_servo_message ++ [0] }
  let s := { s with steer_servo := { back := 0, front_right := 0, front_left := 0 } }
  let s := { s with drive_motor_message := [] }
  let s := { s with drive_motor_message := s.drive_motor_message ++ [0] }
  let s := { s with drive_motor_message := s.drive_motor_message ++ [0] }
  let s := { s with drive_motor_message := s.drive_motor_message ++ [0] }
  let s := { s with drive_motors :=
    { rear := 0, side_right := 0, side_left := 0, front_right := 0, front_left := 0 } }
  let s := { s with drive_motor_message := [] }
  let s := { s with drive_motor_message := s.drive_motor_message ++ [0] }
  let s := { s with drive_motor_message := s.drive_motor_message ++ [0] }
  let s := { s with drive_motor_message := s.drive_motor_message ++ [0] }
  let s := { s with drive_motor_message := s.drive_motor_message ++ [0] }
  let s := { s with drive_motor_message := s.drive_motor_message ++ [0] }
  s

/-- Embedding of `initialize_key_states`: sixteen keys set to `false`. -/
def initialize_key_states (s : ControllerState) : ControllerState :=
  { s with keys := fun k =>
      if k = Key.KEY_n ∨ k = Key.KEY_m ∨ k = Key.KEY_u ∨ k = Key.KEY_j ∨ k = Key.KEY_i ∨
         k = Key.KEY_k ∨ k = Key.KEY_o ∨ k = Key.KEY_l ∨ k = Key.KEY_p ∨ k = Key.KEY_b ∨
         k = Key.KEY_q ∨ k = Key.KEY_e ∨ k = Key.KEY_r ∨ k = Key.KEY_w ∨ k = Key.KEY_s ∨
         k = Key.KEY_x then false
      else s.keys k }

/-- The state in which `main` enters its loop. -/
def controllerInit : ControllerState := initialize_key_states (initialize_servos controllerStart)

/-- Loop body, "Arm home (p)": the homing pass over the four joints, then one
publish. -/
def main_arm_home (s : ControllerState) : Option ControllerState :=
  if s.keys Key.KEY_p then
    publish_arm_servo_update { s with arm_servo := home_tick s.arm_servo }
  else some s

/-- Loop body, "Arm base (m and n)". -/
def main_arm_base (s : ControllerState) : Option ControllerState :=
  if s.keys Key.KEY_n then
    publish_arm_servo_update
      { s with arm_servo := { s.arm_servo with base := toInt16 (s.arm_servo.base + 1) } }
  else if s.keys Key.KEY_m then
    publish_arm_servo_update
      { s with arm_servo := { s.arm_servo with base := toInt16 (s.arm_servo.base - 1) } }
  else some s

/-- Loop body, "Arm shoulder (j and u)". -/
def main_arm_shoulder (s : ControllerState) : Option ControllerState :=
  if s.keys Key.KEY_j then
    publish_arm_servo_update
      { s with arm_servo := { s.arm_servo with shoulder := toInt16 (s.arm_servo.shoulder + 1) } }
  else if s.keys Key.KEY_u then
    publish_arm_servo_update
      { s with arm_servo := { s.arm_servo with shoulder := toInt16 (s.arm_servo.shoulder - 1) } }
  else some s

/-- Loop body, "Arm elbow (i and k)". -/
def main_arm_elbow (s : ControllerState) : Option ControllerState :=
  if s.keys Key.KEY_i then
    publish_arm_servo_update
      { s with arm_servo := { s.arm_servo with elbow := toInt16 (s.arm_servo.elbow + 1) } }
  else if s.keys Key.KEY_k then
    publish_arm_servo_update
      { s with arm_servo := { s.arm_servo with elbow := toInt16 (s.arm_servo.elbow - 1) } }
  else some s

/-- Loop body, "Arm wrist (o and l)". -/
def main_arm_wrist (s : ControllerState) : Option ControllerState :=
  if s.keys Key.KEY_o then
    publish_arm_servo_update
      { s with arm_servo := { s.arm_servo with wrist := toInt16 (s.arm_servo.wrist + 1) } }
  else if s.keys Key.KEY_l then
    publish_arm_servo_update
      { s with arm_servo := { s.arm_servo with wrist := toInt16 (s.arm_servo.wrist - 1) } }
  else some s

/-- Loop body, "Arm gripper (b)": the vacuum state is toggled, the key is
marked released, elements 0 and 1 of the arm message are overwritten with 4
and the vacuum state, and the message is published. -/
def main_arm_gripper (s : ControllerState) : Option ControllerState :=
  if s.keys Key.KEY_b then do
    let vacuum := !s.CURRENT_VACUUM_STATE
    let data ← writeAt s.arm_servo_message 0 4
    let data ← writeAt data 1 (if vacuum then 1 else 0)
    some { s with CURRENT_VACUUM_STATE := vacuum,
                  keys := fun k => if k = Key.KEY_b then false else s.keys k,
                  arm_servo_message := data,
                  published := s.published ++ [Publication.arm_cmd_manual data] }
  else some s

/-- Loop body, "Steering (a and d and f)", first statement. -/
def main_steering (s : ControllerState) : Option ControllerState :=
  if s.keys Key.KEY_a then
    publish_steer_servo_update
      { s with steer_servo :=
          { back := toInt16 (s.steer_servo.back + 3),
            front_right := toInt16 (s.steer_servo.front_right + 3),
            front_left := toInt16 (s.steer_servo.front_left + 3) } }
  else if s.keys Key.KEY_d then
    publish_steer_servo_update
      { s with steer_servo :=
          { back := toInt16 (s.steer_servo.back - 3),
            front_right := toInt16 (s.steer_servo.front_right - 3),
            front_left := toInt16 (s.steer_servo.front_left - 3) } }
  else some s

/-- Loop body, steering reset (f). -/
def main_steering_reset (s : ControllerState) : Option ControllerState :=
  if s.keys Key.KEY_f then
    publish_steer_servo_update
      { s with steer_servo := { back := 0, front_right := 0, front_left := 0 } }
  else some s

/-- Loop body, "Drive motors (w and s and x)", first statement.  The five
conditional updates run in order; the test of the front-right update reads
element `STEER_FRONT_RIGHT = 1`, the side-right value just written. -/
def main_drive (s : ControllerState) : Option ControllerState :=
  if s.keys Key.KEY_w then
    let d := s.drive_motors
    let d := { d with rear := if d.rear < 2000 then toInt16 (d.rear + 100) else 2000 }
    let d := { d with side_right :=
      if d.side_right < 2000 then toInt16 (d.side_right + 100) else 2000 }
    let d := { d with side_left :=
      if d.side_left < 2000 then toInt16 (d.side_left + 100) else 2000 }
    let d := { d with front_right :=
      if d.side_right < 2000 then toInt16 (d.front_right + 100) else 2000 }
    let d := { d with front_left :=
      if d.front_left < 2000 then toInt16 (d.front_left + 100) else 2000 }
    publish_drive_motor_update { s with drive_motors := d }
  else if s.keys Key.KEY_s then
    let d := s.drive_motors
    let d := { d with rear := if d.rear > -2000 then toInt16 (d.rear - 100) else -2000 }
    let d := { d with side_right :=
      if d.side_right > -2000 then toInt16 (d.side_right - 100) else -2000 }
    let d := { d with side_left :=
      if d.side_left > -2000 then toInt16 (d.side_left - 100) else -2000 }
    let d := { d with front_right :=
      if d.side_right > -2000 then toInt16 (d.front_right - 100) else -2000 }
    let d := { d with front_left :=
      if d.front_left > -2000 then toInt16 (d.front_left - 100) else -2000 }
    publish_drive_motor_update { s with drive_motors := d }
  else some s

/-- Loop body, drive stop (x). -/
def main_drive_stop (s : ControllerState) : Option ControllerState :=
  if s.keys Key.KEY_x then
    publish_drive_motor_update
      { s with drive_motors :=
          { rear := 0, side_right := 0, side_left := 0, front_right := 0, front_left := 0 } }
  else some s

/-- One iteration of the `while` loop of `main`, up to `ros::spinOnce()`. -/
def main_loop_body (s : ControllerState) : Option ControllerState := do
  let s ← main_arm_home s
  let s ← main_arm_base s
  let s ← main_arm_shoulder s
  let s ← main_arm_elbow s
  let s ← main_arm_wrist s
  let s ← main_arm_gripper s
  let s ← main_steering s
  let s ← main_steering_reset s
  let s ← main_drive s
  main_drive_stop s

/-- What happens between two visits of the loop head: a key notification
delivered by `ros::spinOnce()`, or one iteration of the loop body. -/
inductive Event where
  | keyDown (key : Key)
  | keyUp (key : Key)
  | tick

/-- Effect of one event. -/
def step (e : Event) (s : ControllerState) : Option ControllerState :=
  match e with
  | Event.keyDown key => some (keyDown key s)
  | Event.keyUp key => some (keyUp key s)
  | Event.tick => main_loop_body s

/-- Effect of a sequence of events, oldest first. -/
def runEvents : List Event → ControllerState → Option ControllerState
  | [], s => some s
  | e :: es, s => (step e s).bind (runEvents es)

/-- Repetition of the loop body with no key notification in between. -/
def runTicks : Nat → ControllerState → Option ControllerState
  | 0, s => some s
  | n + 1, s => (main_loop_body s).bind (runTicks n)

/-- The arm message array has `n` elements, and so has every arm message
published so far. -/
def armMessagesHaveLength (n : Nat) (s : ControllerState) : Prop :=
  s.arm_servo_message.length = n ∧
    ∀ d, Publication.arm_cmd_manual d ∈ s.published → d.length = n

/-- No key is held. -/
def noKeyHeld (s : ControllerState) : Prop := ∀ k, s.keys k = false

/-- Exactly the key `key` is held. -/
def onlyKeyHeld (key : Key) (s : ControllerState) : Prop := ∀ k, s.keys k = decide (k = key)

/-! ## Operator-input stage: publishing groups and the drive invariant -/

/-- The publication is an arm command. -/
def Publication.isArm : Publication → Bool
  | Publication.arm_cmd_manual _ => true
  | _ => false

/-- The publication is a steer command. -/
def Publication.isSteer : Publication → Bool
  | Publication.steer_cmd_manual _ => true
  | _ => false

/-- The publication is a drive command. -/
def Publication.isDrive : Publication → Bool
  | Publication.drive_cmd_manual _ => true
  | _ => false

/-- One of the keys of the arm branches of the loop body is held: p (home),
n, m (base), j, u (shoulder), i, k (elbow), o, l (wrist), b (gripper). -/
def armKeyHeld (s : ControllerState) : Bool :=
  s.keys Key.KEY_p || s.keys Key.KEY_n || s.keys Key.KEY_m || s.keys Key.KEY_j ||
  s.keys Key.KEY_u || s.keys Key.KEY_i || s.keys Key.KEY_k || s.keys Key.KEY_o ||
  s.keys Key.KEY_l || s.keys Key.KEY_b

/-- One of the keys of the steering branches is held: a, d, f. -/
def steerKeyHeld (s : ControllerState) : Bool :=
  s.keys Key.KEY_a || s.keys Key.KEY_d || s.keys Key.KEY_f

/-- One of the keys of the drive branches is held: w, s, x. -/
def driveKeyHeld (s : ControllerState) : Bool :=
  s.keys Key.KEY_w || s.keys Key.KEY_s || s.keys Key.KEY_x

/-- The list `pub'` of published messages extends `pub` by exactly `n`
messages, all of one group. -/
def groupEffect (isG : Publication → Bool) (n : Nat)
    (pub pub' : List Publication) : Prop :=
  ∃ l, pub' = pub ++ l ∧ (∀ p ∈ l, isG p = true) ∧ l.length = n

/-- Number of arm branches of the loop body whose key test succeeds: home (p),
base (n or m), shoulder (j or u), elbow (i or k), wrist (o or l), gripper (b). -/
def armBranchesActive (s : ControllerState) : Nat :=
  (s.keys Key.KEY_p).toNat + (s.keys Key.KEY_n || s.keys Key.KEY_m).toNat +
  (s.keys Key.KEY_j || s.keys Key.KEY_u).toNat + (s.keys Key.KEY_i || s.keys Key.KEY_k).toNat +
  (s.keys Key.KEY_o || s.keys Key.KEY_l).toNat + (s.keys Key.KEY_b).toNat

/-- Number of steering branches whose key test succeeds: a or d, and f. -/
def steerBranchesActive (s : ControllerState) : Nat :=
  (s.keys Key.KEY_a || s.keys Key.KEY_d).toNat + (s.keys Key.KEY_f).toNat

/-- Number of drive branches whose key test succeeds: w or s, and x. -/
def driveBranchesActive (s : ControllerState) : Nat :=
  (s.keys Key.KEY_w || s.keys Key.KEY_s).toNat + (s.keys Key.KEY_x).toNat

/-- The three message arrays have the same lengths in both states. -/
def sameMessageLengths (s s' : ControllerState) : Prop :=
  s'.arm_servo_message.length = s.arm_servo_message.length ∧
  s'.steer_servo_message.length = s.steer_servo_message.length ∧
  s'.drive_motor_message.length = s.drive_motor_message.length

/-- The lengths `initialize_servos` leaves the message arrays with: arm 4,
steer 0, drive 5. -/
def messageLengths (s : ControllerState) : Prop :=
  s.arm_servo_message.length = 4 ∧ s.steer_servo_message.length = 0 ∧
  s.drive_motor_message.length = 5

/-- The five drive motor values are equal, a multiple of 100, and within
[-2000, 2000]. -/
def driveInvariant (d : DriveMotors) : Prop :=
  d.side_right = d.rear ∧ d.side_left = d.rear ∧ d.front_right = d.rear ∧
  d.front_left = d.rear ∧ d.rear % 100 = 0 ∧ -2000 ≤ d.rear ∧ d.rear ≤ 2000

instance (d : DriveMotors) : Decidable (driveInvariant d) := by
  unfold driveInvariant; infer_instance

/-- The key is one of the drive keys w, s, x. -/
def Key.isDriveKey (k : Key) : Bool :=
  decide (k = Key.KEY_w) || decide (k = Key.KEY_s) || decide (k = Key.KEY_x)

/-- The event is a control tick, or the press or release of a drive key. -/
def Event.isDriveEvent : Event → Bool
  | Event.keyDown key => key.isDriveKey
  | Event.keyUp key => key.isDriveKey
  | Event.tick => true

/-- Only drive keys are held, and the drive message array has five elements. -/
def driveOnlyState (s : ControllerState) : Prop :=
  (∀ k : Key, k.isDriveKey = false → s.keys k = false) ∧ s.drive_motor_message.length = 5

/-! ## Homing: closed forms of the joint steps -/

/-- Step of the base on a homing pass that does not skip it (target 0,
doubled except next to zero); `home_tick_not_skipped` proves it is what the
loop body computes. -/
def baseDelta (base : Int) : Int :=
  if 2 ≤ base then -2 else if base ≤ -2 then 2 else -base

/-- Step of the shoulder on a homing pass that does not skip it: one unit
toward 30 while the base is not at 0, toward 0 otherwise. -/
def shoulderDelta (base shoulder : Int) : Int :=
  if base ≠ 0 then (if shoulder < 30 then 1 else if shoulder > 30 then -1 else 0)
  else (if shoulder < 0 then 1 else if shoulder > 0 then -1 else 0)

/-- Step of the elbow on a homing pass that does not skip it: one unit up
while the base is not at 0 or the shoulder is above 20, toward 0 otherwise. -/
def elbowDelta (base shoulder elbow : Int) : Int :=
  if base ≠ 0 ∨ shoulder > 20 then 1
  else if elbow < 0 then 1 else if elbow > 0 then -1 else 0

/-- Step of the wrist on a homing pass: toward -40 while the shoulder is above
50, toward 0 otherwise, doubled unless the wrist is at 1 or -1. -/
def wristDelta (shoulder wrist : Int) : Int :=
  if shoulder > 50 then
    (if wrist < -40 then 2
     else if wrist > -40 then (if wrist = 1 ∨ wrist = -1 then -1 else -2) else 0)
  else
    (if wrist < 0 then (if wrist = -1 then 1 else 2)
     else if wrist > 0 then (if wrist = 1 then -1 else -2) else 0)

/-- A measure of the distance from the home pose that every homing tick
decreases while the skip rule is not engaged. -/
def homingPotential (a : ArmServo) : Nat :=
  4 * a.base.natAbs + 4 * a.shoulder.natAbs + a.elbow.natAbs + a.wrist.natAbs

/-- The loop body of the arm-home branch with the base rule
(`i == ARM_BASE && base != 0 && shoulder == 30`) taken out of the target
selection; everything else as in `home_joint`. -/
def home_joint_without_base_rule (i : Nat) (a : ArmServo) : ArmServo :=
  if a.shoulder > 55 ∧ a.wrist ≠ -40 ∧ i ≠ 3 then a
  else
    let target_angle : Int :=
      if i = 1 ∧ a.base ≠ 0 then 30
      else if i = 2 ∧ (a.base ≠ 0 ∨ a.shoulder > 20) then a.elbow + 30
      else if i = 3 ∧ a.shoulder > 50 then -40
      else 0
    let angle_delta : Int :=
      if a.get i < target_angle then 1
      else if a.get i > target_angle then -1
      else 0
    let angle_delta : Int :=
      if i = 0 ∨ i = 3 then
        if a.get i - 1 ≠ 0 ∧ a.get i + 1 ≠ 0 then angle_delta * 2 else angle_delta
      else angle_delta
    a.set i (toInt16 (a.get i + angle_delta))

/-- The homing tick built from `home_joint_without_base_rule`. -/
def home_tick_without_base_rule (a : ArmServo) : ArmServo :=
  home_joint_without_base_rule 3 (home_joint_without_base_rule 2
    (home_joint_without_base_rule 1 (home_joint_without_base_rule 0 a)))

/-! ## Properties of the rounding model -/

theorem roundNearestEven_intCast (n : ℤ) : roundNearestEven (n : ℚ) = n := by
  simp [roundNearestEven]

theorem roundNearestEven_err (q : ℚ) : |(roundNearestEven q : ℚ) - q| ≤ 1 / 2 := by
  have h1 : (⌊q⌋ : ℚ) ≤ q := Int.floor_le q
  have h2 : q < (⌊q⌋ : ℚ) + 1 := Int.lt_floor_add_one q
  unfold roundNearestEven
  rw [abs_le]
  split_ifs with a b c
  · constructor <;> linarith
  · push_cast; constructor <;> linarith
  · constructor <;> linarith
  · push_cast; constructor <;> linarith

/-- Rounding to `double` has relative error at most `2^-53`. -/
theorem toDouble_err (q : ℚ) : |toDouble q - q| ≤ |q| / 2 ^ 53 := by
  unfold toDouble
  split_ifs with h0
  · simp [h0]
  · have hq : 0 < |q| := abs_pos.mpr h0
    have hu : (0 : ℚ) < (2 : ℚ) ^ (Int.log 2 |q| - 52) := by positivity
    have hle : ((2 : ℕ) : ℚ) ^ Int.log 2 |q| ≤ |q| := Int.zpow_log_le_self (by norm_num) hq
    have hsub : (2 : ℚ) ^ (Int.log 2 |q| - 52) = (2 : ℚ) ^ Int.log 2 |q| / 2 ^ 52 := by
      rw [zpow_sub₀ (by norm_num)]; norm_num
    have hr := roundNearestEven_err (q / (2 : ℚ) ^ (Int.log 2 |q| - 52))
    generalize (2 : ℚ) ^ (Int.log 2 |q| - 52) = u at *
    generalize (roundNearestEven (q / u) : ℚ) = r at *
    have e1 : r * u - q = (r - q / u) * u := by field_simp
    rw [e1, abs_mul, abs_of_pos hu]
    have hu2 : u ≤ |q| / 2 ^ 52 := by
      rw [hsub]; push_cast at hle
      exact div_le_div_of_nonneg_right hle (by positivity)
    calc |r - q / u| * u ≤ 1 / 2 * u := by
          exact mul_le_mul_of_nonneg_right hr hu.le
      _ ≤ 1 / 2 * (|q| / 2 ^ 52) := by
          exact mul_le_mul_of_nonneg_left hu2 (by norm_num)
      _ = |q| / 2 ^ 53 := by ring

/-- A dyadic rational with a significand below `2^53` is a `double`. -/
theorem toDouble_exact (n : ℤ) (j : ℕ) (h : |n| < 2 ^ 53) :
    toDouble ((n : ℚ) / 2 ^ j) = (n : ℚ) / 2 ^ j := by
  unfold toDouble
  split_ifs with h0
  · exact h0.symm
  · have hq : 0 < |(n : ℚ) / 2 ^ j| := abs_pos.mpr h0
    have hle : ((2 : ℕ) : ℚ) ^ Int.log 2 |(n : ℚ) / 2 ^ j| ≤ |(n : ℚ) / 2 ^ j| :=
      Int.zpow_log_le_self (by norm_num) hq
    have hlt : |(n : ℚ) / 2 ^ j| < (2 : ℚ) ^ ((53 : ℤ) - j) := by
      rw [zpow_sub₀ (by norm_num), abs_div, abs_of_pos (by positivity : (0 : ℚ) < 2 ^ j)]
      have : |(n : ℚ)| < 2 ^ 53 := by exact_mod_cast h
      simp only [zpow_natCast]
      exact div_lt_div_of_pos_right (by exact_mod_cast this) (by positivity)
    generalize Int.log 2 |(n : ℚ) / 2 ^ j| = e at *
    push_cast at hle
    have he : e < 53 - j := by
      have := lt_of_le_of_lt hle hlt
      exact (zpow_lt_zpow_iff_right₀ (by norm_num)).mp this
    obtain ⟨m, hm⟩ : ∃ m : ℕ, (m : ℤ) = 52 - e - j := ⟨(52 - e - j).toNat, by omega⟩
    have hpow : (2 : ℚ) ^ (e - 52) = ((2 : ℚ) ^ j * 2 ^ m)⁻¹ := by
      rw [← zpow_natCast, ← zpow_natCast, ← zpow_add₀ (by norm_num), ← zpow_neg]
      congr 1; omega
    have hdiv : (n : ℚ) / 2 ^ j / (2 : ℚ) ^ (e - 52) = ((n * 2 ^ m : ℤ) : ℚ) := by
      rw [hpow]; push_cast; field_simp; ring
    rw [hdiv, roundNearestEven_intCast, hpow]
    push_cast; field_simp; ring

theorem toDouble_intCast (n : ℤ) (h : |n| < 2 ^ 53) : toDouble (n : ℚ) = n := by
  have := toDouble_exact n 0 h
  simpa using this

theorem toDouble_int32 (n : ℤ) (h : isInt32 n) : toDouble ((n : ℚ) * 1) = n := by
  rw [mul_one]
  apply toDouble_intCast
  unfold isInt32 at h
  rw [abs_lt]; constructor <;> omega

theorem truncQ_intCast (z : ℤ) : truncQ (z : ℚ) = z := by
  unfold truncQ
  split_ifs <;> simp

theorem tdiv_of_pos (M D : ℤ) (hD : 0 < D) :
    Int.tdiv M D = if 0 ≤ M then M / D else -((-M) / D) := by
  split_ifs with h
  · exact Int.tdiv_eq_ediv h hD.le
  · have h2 : Int.tdiv (-M) D = (-M) / D := Int.tdiv_eq_ediv (by omega) hD.le
    rw [← h2, Int.neg_tdiv, neg_neg]

/-- A value within `1/D` of `M/D`, where `M/D` is not an integer, truncates
toward zero to the same integer as `M/D`. -/
theorem truncQ_near (M D : ℤ) (hD : 0 < D) (d : ℚ) (h : |d - (M : ℚ) / D| < 1 / D)
    (hne : M % D ≠ 0) : truncQ d = Int.tdiv M D := by
  have hDq : (0 : ℚ) < (D : ℚ) := by exact_mod_cast hD
  have hr0 : 0 ≤ M % D := Int.emod_nonneg M hD.ne'
  have hr9 : M % D < D := Int.emod_lt_of_pos M hD
  have hsum : D * (M / D) + M % D = M := Int.ediv_add_emod M D
  have hMq : (M : ℚ) / D = ((M / D : ℤ) : ℚ) + ((M % D : ℤ) : ℚ) / D := by
    have : (M : ℚ) = (D : ℚ) * ((M / D : ℤ) : ℚ) + ((M % D : ℤ) : ℚ) := by exact_mod_cast hsum.symm
    field_simp; linarith
  have hr1 : (1 : ℚ) / D ≤ ((M % D : ℤ) : ℚ) / D := by
    have : (1 : ℚ) ≤ ((M % D : ℤ) : ℚ) := by
      have : 1 ≤ M % D := by omega
      exact_mod_cast this
    exact div_le_div_of_nonneg_right this hDq.le
  have hr2 : ((M % D : ℤ) : ℚ) / D ≤ 1 - 1 / D := by
    have : ((M % D : ℤ) : ℚ) ≤ (D : ℚ) - 1 := by
      have : M % D ≤ D - 1 := by omega
      exact_mod_cast this
    rw [div_le_iff₀ hDq]
    have e : (1 - 1 / (D : ℚ)) * D = D - 1 := by field_simp
    rw [e]; exact this
  rw [abs_sub_lt_iff] at h
  obtain ⟨ha, hb⟩ := h
  have lo : ((M / D : ℤ) : ℚ) < d := by linarith
  have hi : d < ((M / D : ℤ) : ℚ) + 1 := by linarith
  rw [tdiv_of_pos M D hD]
  unfold truncQ
  by_cases hpos : 0 ≤ M
  · have hN : 0 ≤ M / D := Int.ediv_nonneg hpos hD.le
    have hNq : (0 : ℚ) ≤ ((M / D : ℤ) : ℚ) := by exact_mod_cast hN
    rw [if_pos (by linarith : (0 : ℚ) ≤ d), if_pos hpos]
    exact Int.floor_eq_iff.mpr ⟨lo.le, hi⟩
  · have hN : M / D < 0 := Int.ediv_neg' (by omega) hD
    have hNq : ((M / D : ℤ) : ℚ) + 1 ≤ 0 := by
      have : M / D + 1 ≤ 0 := by omega
      exact_mod_cast this
    rw [if_neg (by linarith : ¬ (0 : ℚ) ≤ d), if_neg hpos]
    have e : -(-M / D) = M / D + 1 := by
      have := (Int.ediv_emod_unique (a := -M) (q := -(M / D) - 1) (r := D - M % D) hD).mpr
        ⟨by linarith, by omega, by omega⟩
      omega
    rw [e]
    exact Int.ceil_eq_iff.mpr ⟨by push_cast; linarith, by push_cast; linarith⟩

/-- Rounding error of the product `(x / D) * c` evaluated in `double`, for a
quotient of magnitude at most `2^25` and a scale of magnitude at most `2^7`. -/
theorem scaled_double_near (a c : ℚ) (ha : |a| ≤ 2 ^ 25) (hc : |c| ≤ 2 ^ 7) :
    |toDouble (toDouble a * c) - a * c| ≤ 2 ^ 34 / 2 ^ 53 ∧
      |toDouble (toDouble a * c)| ≤ 2 ^ 33 + 1 := by
  have e1 := toDouble_err a
  generalize toDouble a = d1 at *
  have e1b : |d1 - a| ≤ 2 ^ 25 / 2 ^ 53 :=
    e1.trans (div_le_div_of_nonneg_right ha (by positivity))
  have hd1 : |d1| ≤ 2 ^ 25 + 1 := by
    have := abs_sub_abs_le_abs_sub d1 a
    norm_num at e1b ⊢; linarith
  have hb : |d1 * c| ≤ 2 ^ 33 := by
    rw [abs_mul]
    calc |d1| * |c| ≤ (2 ^ 25 + 1) * 2 ^ 7 := mul_le_mul hd1 hc (abs_nonneg _) (by positivity)
      _ ≤ 2 ^ 33 := by norm_num
  have hac : |d1 * c - a * c| ≤ 2 ^ 7 * (2 ^ 25 / 2 ^ 53) := by
    rw [← sub_mul, abs_mul, mul_comm]
    exact mul_le_mul hc e1b (abs_nonneg _) (by norm_num)
  have e2 := toDouble_err (d1 * c)
  generalize toDouble (d1 * c) = d2 at *
  have e2b : |d2 - d1 * c| ≤ 2 ^ 33 / 2 ^ 53 :=
    e2.trans (div_le_div_of_nonneg_right hb (by positivity))
  constructor
  · have := abs_sub_le d2 (d1 * c) (a * c)
    norm_num at e2b hac ⊢; linarith
  · have := abs_sub_abs_le_abs_sub d2 (d1 * c)
    norm_num at e2b hb ⊢; linarith

/-- Rounding error of `n + (x / D) * c` evaluated in `double`. -/
theorem offset_double_near (n a c : ℚ) (hn : |n| ≤ 2 ^ 9) (ha : |a| ≤ 2 ^ 25) (hc : |c| ≤ 2 ^ 7) :
    |toDouble (n + toDouble (toDouble a * c)) - (n + a * c)| < 1 / 2000 := by
  obtain ⟨h1, h2⟩ := scaled_double_near a c ha hc
  generalize toDouble (toDouble a * c) = d2 at *
  have hy : |n + d2| ≤ 2 ^ 34 := by
    have := abs_add n d2
    norm_num at hn h2 ⊢; linarith
  have e3 := (toDouble_err (n + d2)).trans (div_le_div_of_nonneg_right hy (by positivity))
  generalize toDouble (n + d2) = d3 at *
  rw [abs_sub_le_iff] at e3 h1
  rw [abs_sub_lt_iff]
  norm_num at e3 h1 ⊢
  constructor <;> linarith

/-- Rounding error of `n - (x / D) * c` evaluated in `double`. -/
theorem offset_sub_double_near (n a c : ℚ) (hn : |n| ≤ 2 ^ 9) (ha : |a| ≤ 2 ^ 25)
    (hc : |c| ≤ 2 ^ 7) :
    |toDouble (n - toDouble (toDouble a * c)) - (n - a * c)| < 1 / 2000 := by
  obtain ⟨h1, h2⟩ := scaled_double_near a c ha hc
  generalize toDouble (toDouble a * c) = d2 at *
  have hy : |n - d2| ≤ 2 ^ 34 := by
    have := abs_sub n d2
    norm_num at hn h2 ⊢; linarith
  have e3 := (toDouble_err (n - d2)).trans (div_le_div_of_nonneg_right hy (by positivity))
  generalize toDouble (n - d2) = d3 at *
  rw [abs_sub_le_iff] at e3 h1
  rw [abs_sub_lt_iff]
  norm_num at e3 h1 ⊢
  constructor <;> linarith

/-! ## The translators in integer arithmetic -/

theorem angle_to_pulse_eq (a n f lo hi : ℤ) (ha : isInt32 a) :
    angle_to_pulse a n f lo hi = anglePulseInt a n f lo hi := by
  unfold angle_to_pulse anglePulseInt
  simp only [toDouble_int32 a ha, truncQ_intCast]

theorem drive_trunc (s c : ℤ) (hs : isInt32 s) (hc : c = 44 ∨ c = 53) :
    truncQ (toDouble (292 + toDouble (toDouble ((s : ℚ) / 2000) * (c : ℚ))))
      = Int.tdiv (584000 + c * s) 2000 := by
  unfold isInt32 at hs
  by_cases hmod : (584000 + c * s) % 2000 = 0
  · rcases hc with rfl | rfl
    · obtain ⟨k, rfl⟩ : ∃ k, s = 500 * k := ⟨s / 500, by omega⟩
      have hk : |k| < 2 ^ 53 := by rw [abs_lt]; constructor <;> omega
      have hk2 : |11 * k| < 2 ^ 53 := by rw [abs_lt]; constructor <;> omega
      have hk3 : |292 + 11 * k| < 2 ^ 53 := by rw [abs_lt]; constructor <;> omega
      have e1 : ((500 * k : ℤ) : ℚ) / 2000 = (k : ℚ) / 2 ^ 2 := by push_cast; ring
      have e2 : (k : ℚ) / 2 ^ 2 * ((44 : ℤ) : ℚ) = ((11 * k : ℤ) : ℚ) := by push_cast; ring
      have e3 : (292 : ℚ) + ((11 * k : ℤ) : ℚ) = ((292 + 11 * k : ℤ) : ℚ) := by push_cast; ring
      rw [e1, toDouble_exact k 2 hk, e2, toDouble_intCast _ hk2, e3, toDouble_intCast _ hk3,
        truncQ_intCast, tdiv_of_pos _ _ (by norm_num)]
      split_ifs <;> omega
    · obtain ⟨k, rfl⟩ : ∃ k, s = 2000 * k := ⟨s / 2000, by omega⟩
      have hk : |k| < 2 ^ 53 := by rw [abs_lt]; constructor <;> omega
      have hk2 : |53 * k| < 2 ^ 53 := by rw [abs_lt]; constructor <;> omega
      have hk3 : |292 + 53 * k| < 2 ^ 53 := by rw [abs_lt]; constructor <;> omega
      have e1 : ((2000 * k : ℤ) : ℚ) / 2000 = (k : ℚ) / 2 ^ 0 := by push_cast; ring
      have e2 : (k : ℚ) / 2 ^ 0 * ((53 : ℤ) : ℚ) = ((53 * k : ℤ) : ℚ) := by push_cast; ring
      have e3 : (292 : ℚ) + ((53 * k : ℤ) : ℚ) = ((292 + 53 * k : ℤ) : ℚ) := by push_cast; ring
      rw [e1, toDouble_exact k 0 hk, e2, toDouble_intCast _ hk2, e3, toDouble_intCast _ hk3,
        truncQ_intCast, tdiv_of_pos _ _ (by norm_num)]
      split_ifs <;> omega
  · apply truncQ_near _ 2000 (by norm_num) _ _ hmod
    have hsq : |(s : ℚ) / 2000| ≤ 2 ^ 25 := by
      rw [abs_div, abs_of_pos (by norm_num : (0 : ℚ) < 2000), div_le_iff₀ (by norm_num), abs_le]
      constructor
      · have : (-2147483648 : ℚ) ≤ (s : ℚ) := by exact_mod_cast hs.1
        linarith
      · have : (s : ℚ) ≤ 2147483647 := by exact_mod_cast hs.2
        linarith
    have hc1 : |(c : ℚ)| ≤ 2 ^ 7 := by rcases hc with rfl | rfl <;> norm_num [abs_le]
    have := offset_double_near 292 ((s : ℚ) / 2000) (c : ℚ) (by norm_num [abs_le]) hsq hc1
    have e : (((584000 + c * s : ℤ)) : ℚ) / ((2000 : ℤ) : ℚ) = 292 + (s : ℚ) / 2000 * (c : ℚ) := by
      push_cast; ring
    rw [e]; norm_num at this ⊢; exact this

/-- On every 32-bit speed the `double` computation of `drive_speed_to_pulse`
yields the exactly computed pulse `drivePulseInt`, defined when it fits
`uint16_t`. -/
theorem drive_speed_to_pulse_eq (s : ℤ) (hs : isInt32 s) :
    drive_speed_to_pulse s =
      if 0 ≤ drivePulseInt s ∧ drivePulseInt s ≤ 65535 then some (drivePulseInt s) else none := by
  unfold drive_speed_to_pulse drivePulseInt doubleToUInt16
  simp only [toDouble_int32 s hs, NEUTRAL_SPEED_PWM, MAX_REVERSE_SPEED_PWM,
    MAX_FORWARD_SPEED_PWM]
  by_cases h1 : s < 0
  · have := drive_trunc s 44 hs (Or.inl rfl)
    norm_num at this
    simp only [h1, if_true]
    norm_num
    rw [this]
  · by_cases h2 : s > 0
    · have := drive_trunc s 53 hs (Or.inr rfl)
      norm_num at this
      simp only [h1, h2, if_true, if_false]
      norm_num
      rw [this]
    · simp only [h1, h2, if_false]
      have : truncQ ((292 : ℤ) : ℚ) = 292 := truncQ_intCast 292
      norm_num at this
      norm_num [this]

theorem claw_trunc (p : ℤ) (hp : isInt32 p) :
    truncQ (toDouble (355 - toDouble (toDouble ((p : ℚ) / 100) * 79)))
      = Int.tdiv (35500 - 79 * p) 100 := by
  unfold isInt32 at hp
  by_cases hmod : (35500 - 79 * p) % 100 = 0
  · obtain ⟨k, rfl⟩ : ∃ k, p = 100 * k := ⟨p / 100, by omega⟩
    have hk : |k| < 2 ^ 53 := by rw [abs_lt]; constructor <;> omega
    have hk2 : |79 * k| < 2 ^ 53 := by rw [abs_lt]; constructor <;> omega
    have hk3 : |355 - 79 * k| < 2 ^ 53 := by rw [abs_lt]; constructor <;> omega
    have e1 : ((100 * k : ℤ) : ℚ) / 100 = (k : ℚ) / 2 ^ 0 := by push_cast; ring
    have e2 : (k : ℚ) / 2 ^ 0 * 79 = ((79 * k : ℤ) : ℚ) := by push_cast; ring
    have e3 : (355 : ℚ) - ((79 * k : ℤ) : ℚ) = ((355 - 79 * k : ℤ) : ℚ) := by push_cast; ring
    rw [e1, toDouble_exact k 0 hk, e2, toDouble_intCast _ hk2, e3, toDouble_intCast _ hk3,
      truncQ_intCast, tdiv_of_pos _ _ (by norm_num)]
    split_ifs <;> omega
  · apply truncQ_near _ 100 (by norm_num) _ _ hmod
    have hpq : |(p : ℚ) / 100| ≤ 2 ^ 25 := by
      rw [abs_div, abs_of_pos (by norm_num : (0 : ℚ) < 100), div_le_iff₀ (by norm_num), abs_le]
      constructor
      · have : (-2147483648 : ℚ) ≤ (p : ℚ) := by exact_mod_cast hp.1
        linarith
      · have : (p : ℚ) ≤ 2147483647 := by exact_mod_cast hp.2
        linarith
    have := offset_sub_double_near 355 ((p : ℚ) / 100) 79 (by norm_num [abs_le]) hpq
      (by norm_num [abs_le])
    have e : (((35500 - 79 * p : ℤ)) : ℚ) / ((100 : ℤ) : ℚ) = 355 - (p : ℚ) / 100 * 79 := by
      push_cast; ring
    rw [e]; norm_num at this ⊢; linarith

/-- On every 32-bit percentage the `double` computation of
`gripper_claw_to_pulse` yields `clawPulseInt`, defined when it fits
`uint16_t`. -/
theorem gripper_claw_to_pulse_eq (p : ℤ) (hp : isInt32 p) :
    gripper_claw_to_pulse p =
      if 0 ≤ clawPulseInt p ∧ clawPulseInt p ≤ 65535 then some (clawPulseInt p) else none := by
  unfold gripper_claw_to_pulse clawPulseInt doubleToUInt16
  simp only [toDouble_int32 p hp, GRIPPER_CLAW_CONSTANT, GRIPPER_CLAW_PWM_OPEN,
    GRIPPER_CLAW_PWM_CLOSED]
  have := claw_trunc p hp
  norm_num at this ⊢
  rw [this]

/-- Where the unclamped pulse is a 16-bit value, `angle_to_pulse` is the
saturating clamp. -/
theorem angle_to_pulse_eq_saturating (a n f lo hi : ℤ) (ha : isInt32 a)
    (hlo : 0 ≤ lo) (hlh : lo ≤ hi) (hhi : hi ≤ 65535)
    (h0 : 0 ≤ n + Int.tdiv (a * f) 360) (h1 : n + Int.tdiv (a * f) 360 ≤ 65535) :
    angle_to_pulse a n f lo hi = saturatingAnglePulse a n f lo hi := by
  rw [angle_to_pulse_eq a n f lo hi ha]
  unfold anglePulseInt saturatingAnglePulse toUInt16
  generalize n + Int.tdiv (a * f) 360 = x at *
  have hx : x % 65536 = x := Int.emod_eq_of_lt h0 (by omega)
  rw [hx]
  split_ifs <;> omega

/-- Where both pulses are defined, `drive_speed_to_pulse` is non-decreasing. -/
theorem drive_speed_to_pulse_mono_where_defined (a b x y : ℤ) (ha : isInt32 a) (hb : isInt32 b)
    (hab : a ≤ b) (hx : drive_speed_to_pulse a = some x) (hy : drive_speed_to_pulse b = some y) :
    x ≤ y := by
  rw [drive_speed_to_pulse_eq a ha] at hx
  rw [drive_speed_to_pulse_eq b hb] at hy
  unfold drivePulseInt at hx hy
  simp only [tdiv_of_pos _ 2000 (by norm_num)] at hx hy
  unfold isInt32 at ha hb
  split_ifs at hx hy <;> simp only [Option.some.injEq, reduceCtorEq] at hx hy <;> omega

theorem list_length_15 (l : List Int) (h : l.length = 15) :
    ∃ a0 a1 a2 a3 a4 a5 a6 a7 a8 a9 a10 a11 a12 a13 a14 : Int,
      l = [a0, a1, a2, a3, a4, a5, a6, a7, a8, a9, a10, a11, a12, a13, a14] := by
  rcases l with _ | ⟨a0, _ | ⟨a1, _ | ⟨a2, _ | ⟨a3, _ | ⟨a4, _ | ⟨a5, _ | ⟨a6, _ | ⟨a7,
    _ | ⟨a8, _ | ⟨a9, _ | ⟨a10, _ | ⟨a11, _ | ⟨a12, _ | ⟨a13, _ | ⟨a14, _ | ⟨a15, l⟩⟩⟩⟩⟩⟩⟩⟩⟩⟩⟩⟩⟩⟩⟩⟩
  all_goals first
    | exact ⟨_, _, _, _, _, _, _, _, _, _, _, _, _, _, _, rfl⟩
    | (simp at h)

theorem angle_to_pulse_bounds (a n f lo hi : Int) (h0 : 0 ≤ lo) (h1 : lo ≤ hi)
    (h2 : hi ≤ 65535) :
    lo ≤ angle_to_pulse a n f lo hi ∧ angle_to_pulse a n f lo hi ≤ hi := by
  unfold angle_to_pulse toUInt16
  simp only []
  generalize n + Int.tdiv (truncQ (toDouble ((a : ℚ) * 1)) * f) 360 = x
  split_ifs <;> omega

theorem arm_angle_to_pulse_bounds (a : Int) :
    126 ≤ arm_angle_to_pulse a ∧ arm_angle_to_pulse a ≤ 504 :=
  angle_to_pulse_bounds a _ _ _ _ (by decide) (by decide) (by decide)

theorem steer_angle_to_pulse_bounds (a : Int) :
    105 ≤ steer_angle_to_pulse a ∧ steer_angle_to_pulse a ≤ 495 :=
  angle_to_pulse_bounds a _ _ _ _ (by decide) (by decide) (by decide)

theorem gripper_angle_to_pulse_bounds (a : Int) :
    105 ≤ gripper_angle_to_pulse a ∧ gripper_angle_to_pulse a ≤ 495 :=
  angle_to_pulse_bounds a _ _ _ _ (by decide) (by decide) (by decide)

theorem doubleToUInt16_bounds (q : ℚ) (x : Int) (h : doubleToUInt16 q = some x) :
    0 ≤ x ∧ x ≤ 65535 := by
  unfold doubleToUInt16 at h
  split_ifs at h with hc
  simp only [Option.some.injEq] at h
  subst h; exact hc

theorem toUInt16_bounds (x : Int) : 0 ≤ toUInt16 x ∧ toUInt16 x ≤ 65535 := by
  unfold toUInt16; omega

theorem initialize_command_message_array_data (st : TranslatorState) :
    (initialize_command_message_array st).command_message_array =
      [315, 315, 315, 315, 295, 295, 295, 292, 292, 292, 292, 292, 295, 355, 310] := rfl

theorem initialize_servoSlotsInLimits (st : TranslatorState) :
    servoSlotsInLimits (initialize_command_message_array st) := by
  unfold servoSlotsInLimits slot
  rw [initialize_command_message_array_data]
  refine ⟨by decide, ?_, ?_, ?_, by decide⟩
  · intro i hi; interval_cases i <;> decide
  · intro i hi; interval_cases i <;> decide
  · intro i h4 hi; interval_cases i <;> decide

theorem dispatch_servoSlotsInLimits (c : Command) (st st' : TranslatorState)
    (hinv : servoSlotsInLimits st) (h : dispatch c st = some st') : servoSlotsInLimits st' := by
  obtain ⟨cma, upd⟩ := st
  obtain ⟨hlen, h16, harm, hsteer, hrot⟩ := hinv
  obtain ⟨a0, a1, a2, a3, a4, a5, a6, a7, a8, a9, a10, a11, a12, a13, a14, rfl⟩ :=
    list_length_15 cma hlen
  have b0 := h16 0 (by decide); have b1 := h16 1 (by decide); have b2 := h16 2 (by decide)
  have b3 := h16 3 (by decide); have b4 := h16 4 (by decide); have b5 := h16 5 (by decide)
  have b6 := h16 6 (by decide); have b7 := h16 7 (by decide); have b8 := h16 8 (by decide)
  have b9 := h16 9 (by decide); have b10 := h16 10 (by decide); have b11 := h16 11 (by decide)
  have b12 := h16 12 (by decide); have b13 := h16 13 (by decide); have b14 := h16 14 (by decide)
  have r0 := harm 0 (by decide); have r1 := harm 1 (by decide); have r2 := harm 2 (by decide)
  have r3 := harm 3 (by decide)
  have s4 := hsteer 4 (by decide) (by decide); have s5 := hsteer 5 (by decide) (by decide)
  have s6 := hsteer 6 (by decide) (by decide)
  simp only [slot, List.getD_cons_zero, List.getD_cons_succ] at b0 b1 b2 b3 b4 b5 b6 b7 b8 b9 b10 b11 b12 b13 b14 r0 r1 r2 r3 s4 s5 s6 hrot
  cases c with
  | arm d =>
    simp only [dispatch, arm_cmd_manual_callback, Option.bind_eq_bind, Option.bind_eq_some,
      Option.some.injEq, List.set] at h
    obtain ⟨x0, -, x1, -, x2, -, x3, -, x4, -, x5, -, p, hp, rfl⟩ := h
    have hp := doubleToUInt16_bounds _ _ hp
    have q0 := arm_angle_to_pulse_bounds (toInt16 x0)
    have q1 := arm_angle_to_pulse_bounds (toInt16 x1)
    have q2 := arm_angle_to_pulse_bounds (toInt16 x2)
    have q3 := arm_angle_to_pulse_bounds (toInt16 x3)
    have q4 := gripper_angle_to_pulse_bounds (toInt16 x4)
    unfold servoSlotsInLimits slot
    simp only [ARM_PWM_MIN, ARM_PWM_MAX, STEER_PWM_MIN, STEER_PWM_MAX, GRIPPER_ROTATE_PWM_MIN,
      GRIPPER_ROTATE_PWM_MAX] at *
    refine ⟨by simp, ?_, ?_, ?_, ?_⟩
    · intro i hi; interval_cases i <;> simp <;> omega
    · intro i hi; interval_cases i <;> simp <;> omega
    · intro i h4 hi; interval_cases i <;> simp <;> omega
    · simp; omega
  | steer d =>
    simp only [dispatch, steer_cmd_manual_callback, Option.bind_eq_bind, Option.bind_eq_some,
      Option.some.injEq, List.set] at h
    obtain ⟨x0, -, x1, -, x2, -, rfl⟩ := h
    have q0 := steer_angle_to_pulse_bounds (toInt16 (-toInt16 x0))
    have q1 := steer_angle_to_pulse_bounds (toInt16 x1)
    have q2 := steer_angle_to_pulse_bounds (toInt16 x2)
    unfold servoSlotsInLimits slot
    simp only [ARM_PWM_MIN, ARM_PWM_MAX, STEER_PWM_MIN, STEER_PWM_MAX, GRIPPER_ROTATE_PWM_MIN,
      GRIPPER_ROTATE_PWM_MAX] at *
    refine ⟨by simp, ?_, ?_, ?_, ?_⟩
    · intro i hi; interval_cases i <;> simp <;> omega
    · intro i hi; interval_cases i <;> simp <;> omega
    · intro i h4 hi; interval_cases i <;> simp <;> omega
    · simp; omega
  | drive d =>
    simp only [dispatch, drive_cmd_manual_callback, Option.bind_eq_bind, Option.bind_eq_some,
      Option.some.injEq, List.set] at h
    obtain ⟨x0, -, p0, hp0, x1, -, p1, hp1, x2, -, p2, hp2, x3, -, p3, hp3, x4, -, p4, hp4, rfl⟩ := h
    have hp0 := doubleToUInt16_bounds _ _ hp0
    have hp1 := doubleToUInt16_bounds _ _ hp1
    have hp2 := doubleToUInt16_bounds _ _ hp2
    have hp3 := doubleToUInt16_bounds _ _ hp3
    have hp4 := doubleToUInt16_bounds _ _ hp4
    unfold servoSlotsInLimits slot
    simp only [ARM_PWM_MIN, ARM_PWM_MAX, STEER_PWM_MIN, STEER_PWM_MAX, GRIPPER_ROTATE_PWM_MIN,
      GRIPPER_ROTATE_PWM_MAX] at *
    refine ⟨by simp, ?_, ?_, ?_, ?_⟩
    · intro i hi; interval_cases i <;> simp <;> omega
    · intro i hi; interval_cases i <;> simp <;> omega
    · intro i h4 hi; interval_cases i <;> simp <;> omega
    · simp; omega
  | mast v =>
    simp only [dispatch, mast_cmd_manual_callback, Option.some.injEq, List.set] at h
    subst h
    have q := toUInt16_bounds (MAST_SERVO_PWM_IMMOBILE + toInt16 v)
    unfold servoSlotsInLimits slot
    simp only [ARM_PWM_MIN, ARM_PWM_MAX, STEER_PWM_MIN, STEER_PWM_MAX, GRIPPER_ROTATE_PWM_MIN,
      GRIPPER_ROTATE_PWM_MAX] at *
    refine ⟨by simp, ?_, ?_, ?_, ?_⟩
    · intro i hi; interval_cases i <;> simp <;> omega
    · intro i hi; interval_cases i <;> simp <;> omega
    · intro i h4 hi; interval_cases i <;> simp <;> omega
    · simp; omega

theorem runCallbacks_servoSlotsInLimits (cmds : List Command) :
    ∀ st st' : TranslatorState, servoSlotsInLimits st → runCallbacks cmds st = some st' →
      servoSlotsInLimits st' := by
  induction cmds with
  | nil =>
    intro st st' hinv h
    simp only [runCallbacks, Option.some.injEq] at h
    subst h; exact hinv
  | cons c cs ih =>
    intro st st' hinv h
    simp only [runCallbacks, Option.bind_eq_some] at h
    obtain ⟨mid, hmid, hrest⟩ := h
    exact ih mid st' (dispatch_servoSlotsInLimits c st mid hinv hmid) hrest

theorem toInt16_isInt32 (x : Int) : isInt32 (toInt16 x) := by
  unfold isInt32 toInt16; omega

/-! ## Claims on the unit translator -/

/-- C1, evaluated at the failing inputs: for the arm channel at angle -1000
the unclamped pulse 315 + (-1000 * 216) / 360 = -285 lies below the minimum,
the store into `uint16_t` wraps it to 65251, and `angle_to_pulse` returns the
maximum pulse 504 where the saturating clamp gives the minimum 126; the same
happens on the steer channel from angle -148 on (495 instead of 105). -/
theorem angle_to_pulse_wraps_below_zero :
    arm_angle_to_pulse (-1000) = ARM_PWM_MAX ∧
    saturatingAnglePulse (-1000) ARM_PWM_NEUTRAL ARM_PWM_360_DEGREES ARM_PWM_MIN ARM_PWM_MAX
      = ARM_PWM_MIN ∧
    steer_angle_to_pulse (-148) = STEER_PWM_MAX ∧
    saturatingAnglePulse (-148) STEER_PWM_NEUTRAL STEER_PWM_360_DEGREES STEER_PWM_MIN STEER_PWM_MAX
      = STEER_PWM_MIN ∧
    gripper_angle_to_pulse (-148) = GRIPPER_ROTATE_PWM_MAX := by
  unfold arm_angle_to_pulse steer_angle_to_pulse gripper_angle_to_pulse
  rw [angle_to_pulse_eq _ _ _ _ _ (by unfold isInt32; decide),
    angle_to_pulse_eq _ _ _ _ _ (by unfold isInt32; decide),
    angle_to_pulse_eq _ _ _ _ _ (by unfold isInt32; decide)]
  decide

/-- C2: for every integer angle and every calibration with
`0 ≤ servo_min ≤ servo_max ≤ 65535`, `angle_to_pulse` returns a pulse in
`[servo_min, servo_max]`; the arm pulse is in [126, 504], the steer pulse in
[105, 495] and the gripper-rotate pulse in [105, 495]. -/
theorem angle_to_pulse_within_limits
    (int_angle servo_neutral servo_full_turn servo_min servo_max : Int)
    (h0 : 0 ≤ servo_min) (h1 : servo_min ≤ servo_max) (h2 : servo_max ≤ 65535) :
    (servo_min ≤ angle_to_pulse int_angle servo_neutral servo_full_turn servo_min servo_max ∧
      angle_to_pulse int_angle servo_neutral servo_full_turn servo_min servo_max ≤ servo_max) ∧
    (126 ≤ arm_angle_to_pulse int_angle ∧ arm_angle_to_pulse int_angle ≤ 504) ∧
    (105 ≤ steer_angle_to_pulse int_angle ∧ steer_angle_to_pulse int_angle ≤ 495) ∧
    (105 ≤ gripper_angle_to_pulse int_angle ∧ gripper_angle_to_pulse int_angle ≤ 495) := by
  exact ⟨angle_to_pulse_bounds _ _ _ _ _ h0 h1 h2, arm_angle_to_pulse_bounds _,
    steer_angle_to_pulse_bounds _, gripper_angle_to_pulse_bounds _⟩

/-- The C2 bounds at angle -1000 with the arm calibration. -/
theorem angle_to_pulse_within_limits_witness :
    ((0 : Int) ≤ 126 ∧ (126 : Int) ≤ 504 ∧ (504 : Int) ≤ 65535) ∧
    ((126 ≤ angle_to_pulse (-1000) 315 216 126 504 ∧
      angle_to_pulse (-1000) 315 216 126 504 ≤ 504) ∧
    (126 ≤ arm_angle_to_pulse (-1000) ∧ arm_angle_to_pulse (-1000) ≤ 504) ∧
    (105 ≤ steer_angle_to_pulse (-1000) ∧ steer_angle_to_pulse (-1000) ≤ 495) ∧
    (105 ≤ gripper_angle_to_pulse (-1000) ∧ gripper_angle_to_pulse (-1000) ≤ 495)) :=
  ⟨by decide,
    angle_to_pulse_within_limits (-1000) 315 216 126 504 (by decide) (by decide) (by decide)⟩

/-- C4, refuted as stated: speed 1 is not zero and still yields the neutral
pulse 292 (292 + 53/2000 truncates to 292). -/
theorem drive_neutral_at_speed_one :
    ¬ (drive_speed_to_pulse 1 = some NEUTRAL_SPEED_PWM ↔ (1 : Int) = 0) := by
  rw [drive_speed_to_pulse_eq _ (by unfold isInt32; decide)]
  decide

/-- C4 as amended: on every 32-bit speed, `drive_speed_to_pulse` returns the
neutral pulse 292 exactly for the speeds 0 to 37. -/
theorem drive_neutral_iff (speed : Int) (h : isInt32 speed) :
    drive_speed_to_pulse speed = some NEUTRAL_SPEED_PWM ↔ 0 ≤ speed ∧ speed ≤ 37 := by
  rw [drive_speed_to_pulse_eq speed h]
  unfold drivePulseInt NEUTRAL_SPEED_PWM
  simp only [tdiv_of_pos _ 2000 (by norm_num)]
  unfold isInt32 at h
  split_ifs <;> simp only [Option.some.injEq, reduceCtorEq, false_iff, true_iff] <;> omega

/-- The amended C4 statement at speed 20, inside the 32-bit range. -/
theorem drive_neutral_iff_witness :
    isInt32 20 ∧ (drive_speed_to_pulse 20 = some NEUTRAL_SPEED_PWM ↔ (0 : Int) ≤ 20 ∧ (20 : Int) ≤ 37) :=
  ⟨by unfold isInt32; decide, drive_neutral_iff 20 (by unfold isInt32; decide)⟩

/-- C5, evaluated at failing inputs: speeds beyond the calibrated range are
extrapolated, not clamped: 4000 yields 398 (above the maximum forward pulse
345), -4000 yields 204 and -2001 yields 247 (below the maximum reverse pulse
248), and at -32768 the value -428.896 does not fit `uint16_t`. -/
theorem drive_speed_beyond_scale_not_clamped :
    drive_speed_to_pulse 4000 = some 398 ∧
    drive_speed_to_pulse (-4000) = some 204 ∧
    drive_speed_to_pulse (-2001) = some 247 ∧
    drive_speed_to_pulse (-32768) = none := by
  rw [drive_speed_to_pulse_eq _ (by unfold isInt32; decide),
    drive_speed_to_pulse_eq _ (by unfold isInt32; decide),
    drive_speed_to_pulse_eq _ (by unfold isInt32; decide),
    drive_speed_to_pulse_eq _ (by unfold isInt32; decide)]
  decide

/-- C6: speed 2000 maps to the maximum forward pulse 345 and speed -2000 to
the maximum reverse pulse 248. -/
theorem drive_speed_at_full_scale :
    drive_speed_to_pulse 2000 = some MAX_FORWARD_SPEED_PWM ∧
    drive_speed_to_pulse (-2000) = some MAX_REVERSE_SPEED_PWM := by
  rw [drive_speed_to_pulse_eq _ (by unfold isInt32; decide),
    drive_speed_to_pulse_eq _ (by unfold isInt32; decide)]
  decide

/-- C7, evaluated at the failing input: at the 16-bit speed -13319 the
`double` value is 292 - 13319 * 44 / 2000 = -1.018, which no longer converts
to `uint16_t`, while the next speed -13318 yields pulse 0 and speed 0 yields
292; so the function has no pulse to compare on the lower part of the 16-bit
range. -/
theorem drive_speed_undefined_on_low_speeds :
    drive_speed_to_pulse (-13319) = none ∧
    drive_speed_to_pulse (-32768) = none ∧
    drive_speed_to_pulse (-13318) = some 0 ∧
    drive_speed_to_pulse 0 = some 292 := by
  rw [drive_speed_to_pulse_eq _ (by unfold isInt32; decide),
    drive_speed_to_pulse_eq _ (by unfold isInt32; decide),
    drive_speed_to_pulse_eq _ (by unfold isInt32; decide),
    drive_speed_to_pulse_eq _ (by unfold isInt32; decide)]
  decide

/-- C8, refuted as stated: with neutral 70000, limits 0 and 100000, the
condition `min ≤ neutral ≤ max` holds and `angle_to_pulse` at angle 0 returns
70000 mod 65536 = 4464, not the neutral value. -/
theorem angle_to_pulse_zero_wraps_wide_neutral :
    ¬ ((0 : Int) ≤ 70000 → (70000 : Int) ≤ 100000 →
      angle_to_pulse 0 70000 216 0 100000 = 70000) := by
  rw [angle_to_pulse_eq _ _ _ _ _ (by unfold isInt32; decide)]
  decide

/-- C8 as amended: a zero command maps to the neutral pulse on the arm (315),
steer (295), gripper-rotate (295) and drive (292) channels, and in general
`angle_to_pulse 0 neutral span min max = neutral` whenever
`min ≤ neutral ≤ max` and the neutral pulse is a 16-bit value. -/
theorem zero_command_is_neutral (servo_neutral servo_full_turn servo_min servo_max : Int)
    (h0 : 0 ≤ servo_neutral) (h1 : servo_neutral ≤ 65535)
    (hlo : servo_min ≤ servo_neutral) (hhi : servo_neutral ≤ servo_max) :
    angle_to_pulse 0 servo_neutral servo_full_turn servo_min servo_max = servo_neutral ∧
    arm_angle_to_pulse 0 = ARM_PWM_NEUTRAL ∧
    steer_angle_to_pulse 0 = STEER_PWM_NEUTRAL ∧
    gripper_angle_to_pulse 0 = GRIPPER_ROTATE_PWM_NEUTRAL ∧
    drive_speed_to_pulse 0 = some NEUTRAL_SPEED_PWM := by
  have key : ∀ n f lo hi : Int, 0 ≤ n → n ≤ 65535 → lo ≤ n → n ≤ hi →
      angle_to_pulse 0 n f lo hi = n := by
    intro n f lo hi a b c d
    rw [angle_to_pulse_eq _ _ _ _ _ (by unfold isInt32; decide)]
    unfold anglePulseInt toUInt16
    simp only [zero_mul, Int.zero_tdiv, add_zero]
    have hx : n % 65536 = n := Int.emod_eq_of_lt a (by omega)
    rw [hx]
    split_ifs <;> omega
  refine ⟨key _ _ _ _ h0 h1 hlo hhi, ?_, ?_, ?_, ?_⟩
  · exact key _ _ _ _ (by decide) (by decide) (by decide) (by decide)
  · exact key _ _ _ _ (by decide) (by decide) (by decide) (by decide)
  · exact key _ _ _ _ (by decide) (by decide) (by decide) (by decide)
  · rw [drive_speed_to_pulse_eq _ (by unfold isInt32; decide)]
    decide

/-- The amended C8 statement at the arm calibration. -/
theorem zero_command_is_neutral_witness :
    ((0 : Int) ≤ 315 ∧ (315 : Int) ≤ 65535 ∧ (126 : Int) ≤ 315 ∧ (315 : Int) ≤ 504) ∧
    (angle_to_pulse 0 315 216 126 504 = 315 ∧
    arm_angle_to_pulse 0 = ARM_PWM_NEUTRAL ∧
    steer_angle_to_pulse 0 = STEER_PWM_NEUTRAL ∧
    gripper_angle_to_pulse 0 = GRIPPER_ROTATE_PWM_NEUTRAL ∧
    drive_speed_to_pulse 0 = some NEUTRAL_SPEED_PWM) :=
  ⟨by decide,
    zero_command_is_neutral 315 216 126 504 (by decide) (by decide) (by decide) (by decide)⟩

/-! ## Claims on the hardware array -/

/-- C3, refuted as stated: after initialisation, the well-formed arm command
with claw percentage 200, drive command with side-right speed 4000 and mast
command 100 leave 197 in the claw slot 13 (limits [276, 355]), 398 in the
drive slot 8 (limits [248, 345]) and 410 in the mast slot 14 (limits
[305, 315]); the reached state violates the claimed limits. -/
theorem reachable_slot_outside_limits :
    (∀ c ∈ [Command.arm [0, 0, 0, 0, 0, 200], Command.drive [0, 4000, 0, 0, 0],
        Command.mast 100], c.wellFormed) ∧
    runCallbacks [Command.arm [0, 0, 0, 0, 0, 200], Command.drive [0, 4000, 0, 0, 0],
        Command.mast 100] (initialize_command_message_array translatorStart)
      = some (TranslatorState.mk
          [315, 315, 315, 315, 295, 295, 295, 292, 398, 292, 292, 292, 295, 197, 410] true) ∧
    ¬ allSlotsInLimits (TranslatorState.mk
          [315, 315, 315, 315, 295, 295, 295, 292, 398, 292, 292, 292, 295, 197, 410] true) := by
  refine ⟨?_, ?_, ?_⟩
  · intro c hc
    simp only [List.mem_cons, List.mem_singleton, List.not_mem_nil, or_false] at hc
    rcases hc with rfl | rfl | rfl <;> simp only [Command.wellFormed, isInt16] <;> decide
  · simp only [runCallbacks, dispatch, arm_cmd_manual_callback, drive_cmd_manual_callback,
      mast_cmd_manual_callback, arm_angle_to_pulse, gripper_angle_to_pulse,
      angle_to_pulse_eq _ _ _ _ _ (toInt16_isInt32 _),
      drive_speed_to_pulse_eq _ (toInt16_isInt32 _),
      gripper_claw_to_pulse_eq _ (toInt16_isInt32 _)]
    decide
  · intro h
    have h14 := h.2.2.2.2.2
    revert h14
    decide

/-- C3 as amended: in every state of the hardware array reachable from
`initialize_command_message_array` by any sequence of arm, steer, drive and
mast callbacks, the array has 15 elements, each a 16-bit value, the arm slots
0-3 lie in [126, 504], and the steer slots 4-6 and the gripper-rotate slot 12
lie in [105, 495]. -/
theorem reachable_servo_slots_within_limits (cmds : List Command) (st : TranslatorState)
    (h : runCallbacks cmds (initialize_command_message_array translatorStart) = some st) :
    servoSlotsInLimits st :=
  runCallbacks_servoSlotsInLimits cmds _ st (initialize_servoSlotsInLimits translatorStart) h

/-- The amended C3 invariant on the state reached by one arm, one steer, one
drive and one mast command. -/
theorem reachable_servo_slots_within_limits_witness :
    runCallbacks [Command.arm [10, 20, -30, 40, 50, 60], Command.steer [3, -3, 200],
        Command.drive [100, 100, 100, -100, 2000], Command.mast (-3)]
        (initialize_command_message_array translatorStart)
      = some (TranslatorState.mk
          [321, 327, 297, 339, 289, 289, 495, 289, 294, 294, 289, 345, 395, 307, 307] true) ∧
    servoSlotsInLimits (TranslatorState.mk
          [321, 327, 297, 339, 289, 289, 495, 289, 294, 294, 289, 345, 395, 307, 307] true) :=
  have hrun : runCallbacks [Command.arm [10, 20, -30, 40, 50, 60], Command.steer [3, -3, 200],
        Command.drive [100, 100, 100, -100, 2000], Command.mast (-3)]
        (initialize_command_message_array translatorStart)
      = some (TranslatorState.mk
          [321, 327, 297, 339, 289, 289, 495, 289, 294, 294, 289, 345, 395, 307, 307] true) := by
    simp only [runCallbacks, dispatch, arm_cmd_manual_callback, steer_cmd_manual_callback,
      drive_cmd_manual_callback, mast_cmd_manual_callback, arm_angle_to_pulse,
      steer_angle_to_pulse, gripper_angle_to_pulse,
      angle_to_pulse_eq _ _ _ _ _ (toInt16_isInt32 _),
      drive_speed_to_pulse_eq _ (toInt16_isInt32 _),
      gripper_claw_to_pulse_eq _ (toInt16_isInt32 _)]
    decide
  ⟨hrun, reachable_servo_slots_within_limits _ _ hrun⟩

/-! ## Arm homing -/

/-- While the shoulder is above 55 and the wrist is not at -40, the tick
processes the wrist only. -/
theorem home_tick_skip (a : ArmServo) (hs : a.shoulder > 55) (hw : a.wrist ≠ -40) :
    home_tick a = { a with wrist := toInt16 (a.wrist +
      (if a.wrist - 1 ≠ 0 ∧ a.wrist + 1 ≠ 0 then (if a.wrist < -40 then 1 else -1) * 2
       else (if a.wrist < -40 then 1 else -1))) } := by
  have h0 : home_joint 0 a = a := by
    unfold home_joint; rw [if_pos ⟨hs, hw, by decide⟩]
  have h1 : home_joint 1 a = a := by
    unfold home_joint; rw [if_pos ⟨hs, hw, by decide⟩]
  have h2 : home_joint 2 a = a := by
    unfold home_joint; rw [if_pos ⟨hs, hw, by decide⟩]
  unfold home_tick
  rw [h0, h1, h2]
  unfold home_joint
  have h50 : a.shoulder > 50 := by omega
  simp only [ne_eq, not_true_eq_false, and_false, if_false, OfNat.ofNat_ne_zero,
    false_and, and_self, ArmServo.get, ArmServo.set, true_and, h50, if_true, or_true,
    Nat.reduceEqDiff, OfNat.ofNat_ne_one, OfNat.zero_ne_ofNat]
  congr 2
  split_ifs <;> omega

/-- C9: whenever the shoulder is above 55 and the wrist is not at -40, one
homing tick leaves base, shoulder and elbow unchanged and moves the wrist;
from shoulder 70 and wrist 0, with any base and elbow, the state after k ≤ 20
ticks has the initial base, shoulder and elbow and wrist -2k, so the wrist
reaches -40 at tick 20 and no other joint has moved before. -/
theorem home_tick_retracts_wrist_first :
    (∀ a : ArmServo, a.shoulder > 55 → a.wrist ≠ -40 →
        (home_tick a).base = a.base ∧ (home_tick a).shoulder = a.shoulder ∧
        (home_tick a).elbow = a.elbow ∧ (home_tick a).wrist ≠ a.wrist) ∧
    (∀ (b e : Int) (k : Nat), k ≤ 20 →
        home_tick^[k] (ArmServo.mk b 70 e 0) = ArmServo.mk b 70 e (-2 * (k : Int))) := by
  constructor
  · intro a hs hw
    rw [home_tick_skip a hs hw]
    refine ⟨rfl, rfl, rfl, ?_⟩
    simp only [toInt16]
    split_ifs <;> omega
  · intro b e k
    induction k with
    | zero => intro _; rfl
    | succ n ih =>
      intro hn
      rw [Function.iterate_succ_apply', ih (by omega)]
      rw [home_tick_skip _ (by simp) (by simp only [ne_eq]; omega)]
      simp only [toInt16]
      congr 1
      push_cast
      split_ifs <;> omega

/-- The C9 statement from base 5, shoulder 70, elbow 7, wrist 0: the first
tick and the state after twenty ticks. -/
theorem home_tick_retracts_wrist_first_witness :
    ((ArmServo.mk 5 70 7 0).shoulder > 55 ∧ (ArmServo.mk 5 70 7 0).wrist ≠ -40 ∧
      (home_tick (ArmServo.mk 5 70 7 0)).base = 5 ∧
      (home_tick (ArmServo.mk 5 70 7 0)).shoulder = 70 ∧
      (home_tick (ArmServo.mk 5 70 7 0)).elbow = 7 ∧
      (home_tick (ArmServo.mk 5 70 7 0)).wrist ≠ 0) ∧
    (20 ≤ 20 ∧ home_tick^[20] (ArmServo.mk 5 70 7 0) = ArmServo.mk 5 70 7 (-40)) :=
  ⟨⟨by decide, by decide,
      home_tick_retracts_wrist_first.1 (ArmServo.mk 5 70 7 0) (by decide) (by decide)⟩,
    ⟨le_refl _, home_tick_retracts_wrist_first.2 5 7 20 (le_refl _)⟩⟩

/-- C10, evaluated at the failing input: from base 0, shoulder 70, elbow 0,
wrist -39 the doubled wrist step jumps over -40; the wrist alternates between
-39 and -41 for ever, the skip rule keeps the other joints where they are,
and the home pose is never reached. -/
theorem home_tick_oscillates_around_retracted_wrist (n : Nat) :
    home_tick^[n] (ArmServo.mk 0 70 0 (-39))
      = ArmServo.mk 0 70 0 (if n % 2 = 0 then -39 else -41) ∧
    home_tick^[n] (ArmServo.mk 0 70 0 (-39)) ≠ homePose := by
  have key : home_tick^[n] (ArmServo.mk 0 70 0 (-39))
      = ArmServo.mk 0 70 0 (if n % 2 = 0 then -39 else -41) := by
    induction n with
    | zero => rfl
    | succ n ih =>
      rw [Function.iterate_succ_apply', ih]
      by_cases hp : n % 2 = 0
      · have h1 : (n + 1) % 2 ≠ 0 := by omega
        rw [if_pos hp, if_neg h1]; decide
      · have h1 : (n + 1) % 2 = 0 := by omega
        rw [if_neg hp, if_pos h1]; decide
  refine ⟨key, ?_⟩
  rw [key]
  intro h
  have := congrArg ArmServo.shoulder h
  simp [homePose] at this

/-! ## Operator-input stage: publishing -/

theorem writeAt_length (data data' : List Int) (i : Nat) (v : Int)
    (h : writeAt data i v = some data') : data'.length = data.length := by
  unfold writeAt at h
  split_ifs at h
  simp only [Option.some.injEq] at h
  subst h
  simp

theorem publish_arm_servo_update_shape (s s' : ControllerState)
    (h : publish_arm_servo_update s = some s') :
    ∃ d, d.length = s.arm_servo_message.length ∧
      s' = { s with arm_servo_message := d,
                    published := s.published ++ [Publication.arm_cmd_manual d] } := by
  simp only [publish_arm_servo_update, Option.bind_eq_bind, Option.bind_eq_some,
    Option.some.injEq] at h
  obtain ⟨d0, h0, d1, h1, d2, h2, d3, h3, rfl⟩ := h
  refine ⟨d3, ?_, rfl⟩
  rw [writeAt_length _ _ _ _ h3, writeAt_length _ _ _ _ h2, writeAt_length _ _ _ _ h1,
    writeAt_length _ _ _ _ h0]

theorem publish_steer_servo_update_shape (s s' : ControllerState)
    (h : publish_steer_servo_update s = some s') :
    ∃ d, d.length = s.steer_servo_message.length ∧
      s' = { s with steer_servo_message := d,
                    published := s.published ++ [Publication.steer_cmd_manual d] } := by
  simp only [publish_steer_servo_update, Option.bind_eq_bind, Option.bind_eq_some,
    Option.some.injEq] at h
  obtain ⟨d0, h0, d1, h1, d2, h2, rfl⟩ := h
  refine ⟨d2, ?_, rfl⟩
  rw [writeAt_length _ _ _ _ h2, writeAt_length _ _ _ _ h1, writeAt_length _ _ _ _ h0]

theorem publish_drive_motor_update_shape (s s' : ControllerState)
    (h : publish_drive_motor_update s = some s') :
    ∃ d, d.length = s.drive_motor_message.length ∧
      s' = { s with drive_motor_message := d,
                    published := s.published ++ [Publication.drive_cmd_manual d] } := by
  simp only [publish_drive_motor_update, Option.bind_eq_bind, Option.bind_eq_some,
    Option.some.injEq] at h
  obtain ⟨d0, h0, d1, h1, d2, h2, d3, h3, d4, h4, rfl⟩ := h
  refine ⟨d4, ?_, rfl⟩
  rw [writeAt_length _ _ _ _ h4, writeAt_length _ _ _ _ h3, writeAt_length _ _ _ _ h2,
    writeAt_length _ _ _ _ h1, writeAt_length _ _ _ _ h0]

/-- With a four-element arm message, `publish_arm_servo_update` publishes the
four current joint angles. -/
theorem publish_arm_servo_update_eq (s : ControllerState)
    (h : s.arm_servo_message.length = 4) :
    publish_arm_servo_update s = some
      { s with
        arm_servo_message :=
          [s.arm_servo.base, s.arm_servo.shoulder, s.arm_servo.elbow, s.arm_servo.wrist],
        published := s.published ++ [Publication.arm_cmd_manual
          [s.arm_servo.base, s.arm_servo.shoulder, s.arm_servo.elbow, s.arm_servo.wrist]] } := by
  obtain ⟨keys, vac, arm, msg, st, stm, dm, dmm, pub⟩ := s
  simp only at h
  rcases msg with _ | ⟨m0, _ | ⟨m1, _ | ⟨m2, _ | ⟨m3, _ | ⟨m4, rest⟩⟩⟩⟩⟩ <;>
    simp at h
  simp [publish_arm_servo_update, writeAt]

theorem armMessagesHaveLength_publish_arm (n : Nat) (s s' : ControllerState)
    (h : publish_arm_servo_update s = some s') (hinv : armMessagesHaveLength n s) :
    armMessagesHaveLength n s' := by
  obtain ⟨d, hd, rfl⟩ := publish_arm_servo_update_shape s s' h
  refine ⟨hd.trans hinv.1, ?_⟩
  intro d' hmem
  simp only [List.mem_append, List.mem_singleton, Publication.arm_cmd_manual.injEq] at hmem
  rcases hmem with hmem | rfl
  · exact hinv.2 d' hmem
  · exact hd.trans hinv.1

theorem armMessagesHaveLength_publish_steer (n : Nat) (s s' : ControllerState)
    (h : publish_steer_servo_update s = some s') (hinv : armMessagesHaveLength n s) :
    armMessagesHaveLength n s' := by
  obtain ⟨d, -, rfl⟩ := publish_steer_servo_update_shape s s' h
  refine ⟨hinv.1, ?_⟩
  intro d' hmem
  simp only [List.mem_append, List.mem_singleton, reduceCtorEq, or_false] at hmem
  exact hinv.2 d' hmem

theorem armMessagesHaveLength_publish_drive (n : Nat) (s s' : ControllerState)
    (h : publish_drive_motor_update s = some s') (hinv : armMessagesHaveLength n s) :
    armMessagesHaveLength n s' := by
  obtain ⟨d, -, rfl⟩ := publish_drive_motor_update_shape s s' h
  refine ⟨hinv.1, ?_⟩
  intro d' hmem
  simp only [List.mem_append, List.mem_singleton, reduceCtorEq, or_false] at hmem
  exact hinv.2 d' hmem

theorem armMessagesHaveLength_gripper (n : Nat) (s s' : ControllerState)
    (hinv : armMessagesHaveLength n s) (h : main_arm_gripper s = some s') :
    armMessagesHaveLength n s' := by
  unfold main_arm_gripper at h
  split_ifs at h
  · simp only [Option.bind_eq_bind, Option.bind_eq_some, Option.some.injEq] at h
    obtain ⟨d0, h0, d1, h1, rfl⟩ := h
    have hl : d1.length = n := by
      rw [writeAt_length _ _ _ _ h1, writeAt_length _ _ _ _ h0]; exact hinv.1
    refine ⟨hl, ?_⟩
    intro d' hmem
    simp only [List.mem_append, List.mem_singleton, Publication.arm_cmd_manual.injEq] at hmem
    rcases hmem with hmem | rfl
    · exact hinv.2 d' hmem
    · exact hl
  · simp only [Option.some.injEq] at h
    subst h; exact hinv

theorem armMessagesHaveLength_main_loop_body (n : Nat) (s s' : ControllerState)
    (hinv : armMessagesHaveLength n s) (h : main_loop_body s = some s') :
    armMessagesHaveLength n s' := by
  simp only [main_loop_body, Option.bind_eq_bind, Option.bind_eq_some] at h
  obtain ⟨s1, h1, s2, h2, s3, h3, s4, h4, s5, h5, s6, h6, s7, h7, s8, h8, s9, h9, h10⟩ := h
  have i1 : armMessagesHaveLength n s1 := by
    unfold main_arm_home at h1
    split_ifs at h1
    · exact armMessagesHaveLength_publish_arm n _ _ h1 hinv
    · simp only [Option.some.injEq] at h1; subst h1; exact hinv
  have i2 : armMessagesHaveLength n s2 := by
    unfold main_arm_base at h2
    split_ifs at h2
    · exact armMessagesHaveLength_publish_arm n _ _ h2 i1
    · exact armMessagesHaveLength_publish_arm n _ _ h2 i1
    · simp only [Option.some.injEq] at h2; subst h2; exact i1
  have i3 : armMessagesHaveLength n s3 := by
    unfold main_arm_shoulder at h3
    split_ifs at h3
    · exact armMessagesHaveLength_publish_arm n _ _ h3 i2
    · exact armMessagesHaveLength_publish_arm n _ _ h3 i2
    · simp only [Option.some.injEq] at h3; subst h3; exact i2
  have i4 : armMessagesHaveLength n s4 := by
    unfold main_arm_elbow at h4
    split_ifs at h4
    · exact armMessagesHaveLength_publish_arm n _ _ h4 i3
    · exact armMessagesHaveLength_publish_arm n _ _ h4 i3
    · simp only [Option.some.injEq] at h4; subst h4; exact i3
  have i5 : armMessagesHaveLength n s5 := by
    unfold main_arm_wrist at h5
    split_ifs at h5
    · exact armMessagesHaveLength_publish_arm n _ _ h5 i4
    · exact armMessagesHaveLength_publish_arm n _ _ h5 i4
    · simp only [Option.some.injEq] at h5; subst h5; exact i4
  have i6 : armMessagesHaveLength n s6 := armMessagesHaveLength_gripper n _ _ i5 h6
  have i7 : armMessagesHaveLength n s7 := by
    unfold main_steering at h7
    split_ifs at h7
    · exact armMessagesHaveLength_publish_steer n _ _ h7 i6
    · exact armMessagesHaveLength_publish_steer n _ _ h7 i6
    · simp only [Option.some.injEq] at h7; subst h7; exact i6
  have i8 : armMessagesHaveLength n s8 := by
    unfold main_steering_reset at h8
    split_ifs at h8
    · exact armMessagesHaveLength_publish_steer n _ _ h8 i7
    · simp only [Option.some.injEq] at h8; subst h8; exact i7
  have i9 : armMessagesHaveLength n s9 := by
    unfold main_drive at h9
    split_ifs at h9
    · exact armMessagesHaveLength_publish_drive n _ _ h9 i8
    · exact armMessagesHaveLength_publish_drive n _ _ h9 i8
    · simp only [Option.some.injEq] at h9; subst h9; exact i8
  unfold main_drive_stop at h10
  split_ifs at h10
  · exact armMessagesHaveLength_publish_drive n _ _ h10 i9
  · simp only [Option.some.injEq] at h10; subst h10; exact i9

theorem armMessagesHaveLength_runEvents (n : Nat) (evs : List Event) :
    ∀ s s' : ControllerState, armMessagesHaveLength n s → runEvents evs s = some s' →
      armMessagesHaveLength n s' := by
  induction evs with
  | nil =>
    intro s s' hinv h
    simp only [runEvents, Option.some.injEq] at h
    subst h; exact hinv
  | cons e es ih =>
    intro s s' hinv h
    simp only [runEvents, Option.bind_eq_some] at h
    obtain ⟨mid, hmid, hrest⟩ := h
    refine ih mid s' ?_ hrest
    cases e with
    | keyDown key =>
      simp only [step, Option.some.injEq] at hmid
      subst hmid; exact hinv
    | keyUp key =>
      simp only [step, Option.some.injEq] at hmid
      subst hmid; exact hinv
    | tick => exact armMessagesHaveLength_main_loop_body n s mid hinv hmid

theorem controllerInit_armMessagesHaveLength : armMessagesHaveLength 4 controllerInit := by
  refine ⟨rfl, ?_⟩
  intro d hmem
  simp [controllerInit, initialize_key_states, initialize_servos, controllerStart] at hmem

/-- A tick with only the home key held: the homing pass and one publish of
the four joint angles. -/
theorem main_loop_body_home_only (s : ControllerState) (hk : onlyKeyHeld Key.KEY_p s)
    (hl : s.arm_servo_message.length = 4) :
    main_loop_body s = some
      { s with
        arm_servo := home_tick s.arm_servo,
        arm_servo_message := [(home_tick s.arm_servo).base, (home_tick s.arm_servo).shoulder,
          (home_tick s.arm_servo).elbow, (home_tick s.arm_servo).wrist],
        published := s.published ++ [Publication.arm_cmd_manual
          [(home_tick s.arm_servo).base, (home_tick s.arm_servo).shoulder,
            (home_tick s.arm_servo).elbow, (home_tick s.arm_servo).wrist]] } := by
  unfold onlyKeyHeld at hk
  have hp := publish_arm_servo_update_eq { s with arm_servo := home_tick s.arm_servo } hl
  simp only [main_loop_body, main_arm_home, hk, decide_True, if_true, hp, Option.bind_eq_bind,
    Option.some_bind, main_arm_base, main_arm_shoulder, main_arm_elbow, main_arm_wrist,
    main_arm_gripper, main_steering, main_steering_reset, main_drive, main_drive_stop,
    reduceCtorEq, decide_False, Bool.false_eq_true, if_false]

theorem runTicks_home_only (n : Nat) :
    ∀ s : ControllerState, onlyKeyHeld Key.KEY_p s → s.arm_servo_message.length = 4 →
      ∃ s', runTicks n s = some s' ∧ s'.arm_servo = home_tick^[n] s.arm_servo := by
  induction n with
  | zero => intro s _ _; exact ⟨s, rfl, rfl⟩
  | succ n ih =>
    intro s hk hl
    simp only [runTicks, main_loop_body_home_only s hk hl, Option.some_bind]
    obtain ⟨s', h1, h2⟩ := ih _ (show onlyKeyHeld Key.KEY_p
      { s with
        arm_servo := home_tick s.arm_servo,
        arm_servo_message := [(home_tick s.arm_servo).base, (home_tick s.arm_servo).shoulder,
          (home_tick s.arm_servo).elbow, (home_tick s.arm_servo).wrist],
        published := s.published ++ [Publication.arm_cmd_manual
          [(home_tick s.arm_servo).base, (home_tick s.arm_servo).shoulder,
            (home_tick s.arm_servo).elbow, (home_tick s.arm_servo).wrist]] } from hk) rfl
    exact ⟨s', h1, by rw [h2, Function.iterate_succ_apply]⟩

theorem home_tick_homePose : home_tick homePose = homePose := by decide

/-- The gripper branch with the vacuum key marked held and an arm message of
at least two elements. -/
theorem main_arm_gripper_eq (s : ControllerState) (m0 m1 : Int) (rest : List Int)
    (hm : s.arm_servo_message = m0 :: m1 :: rest) (hb : s.keys Key.KEY_b = true) :
    main_arm_gripper s = some
      { s with
        CURRENT_VACUUM_STATE := !s.CURRENT_VACUUM_STATE,
        keys := fun k => if k = Key.KEY_b then false else s.keys k,
        arm_servo_message := 4 :: (if (!s.CURRENT_VACUUM_STATE) = true then 1 else 0) :: rest,
        published := s.published ++ [Publication.arm_cmd_manual
          (4 :: (if (!s.CURRENT_VACUUM_STATE) = true then 1 else 0) :: rest)] } := by
  simp [main_arm_gripper, hb, hm, writeAt]

/-- A tick with no key held changes nothing and publishes nothing. -/
theorem main_loop_body_idle (s : ControllerState) (hk : noKeyHeld s) :
    main_loop_body s = some s := by
  unfold noKeyHeld at hk
  simp [main_loop_body, main_arm_home, main_arm_base, main_arm_shoulder, main_arm_elbow,
    main_arm_wrist, main_arm_gripper, main_steering, main_steering_reset, main_drive,
    main_drive_stop, hk]

theorem runTicks_idle (n : Nat) (s : ControllerState) (hk : noKeyHeld s) :
    runTicks n s = some s := by
  induction n with
  | zero => rfl
  | succ n ih => simp only [runTicks, main_loop_body_idle s hk, Option.some_bind, ih]

/-- The first tick after a press of the vacuum key, no other key being held:
one toggle, one published message, and the key is marked released. -/
theorem main_loop_body_vacuum_press (s : ControllerState) (m0 m1 : Int) (rest : List Int)
    (hk : noKeyHeld s) (hm : s.arm_servo_message = m0 :: m1 :: rest) :
    main_loop_body (keyDown Key.KEY_b s) = some
      { s with
        CURRENT_VACUUM_STATE := !s.CURRENT_VACUUM_STATE,
        arm_servo_message := 4 :: (if (!s.CURRENT_VACUUM_STATE) = true then 1 else 0) :: rest,
        published := s.published ++ [Publication.arm_cmd_manual
          (4 :: (if (!s.CURRENT_VACUUM_STATE) = true then 1 else 0) :: rest)] } := by
  unfold noKeyHeld at hk
  have hg := main_arm_gripper_eq (keyDown Key.KEY_b s) m0 m1 rest hm (by simp [keyDown])
  have hkeys : (fun k => if k = Key.KEY_b then false else (keyDown Key.KEY_b s).keys k)
      = s.keys := by
    funext k
    by_cases h : k = Key.KEY_b
    · simp [h, hk]
    · simp [h, keyDown]
  rw [hkeys] at hg
  simp only [main_loop_body, main_arm_home, main_arm_base, main_arm_shoulder, main_arm_elbow,
    main_arm_wrist, keyDown, hk Key.KEY_p, hk Key.KEY_n, hk Key.KEY_m, hk Key.KEY_j,
    hk Key.KEY_u, hk Key.KEY_i, hk Key.KEY_k, hk Key.KEY_o, hk Key.KEY_l, reduceCtorEq,
    if_false, Bool.false_eq_true, Option.bind_eq_bind, Option.some_bind]
  simp only [keyDown] at hg
  rw [hg]
  simp [main_steering, main_steering_reset, main_drive, main_drive_stop, hk]

/-- Whatever keys are held, a tick leaves the vacuum state alone unless the
vacuum key is marked held, in which case it toggles it once; afterwards the
vacuum key is marked released and every other key is as before. -/
theorem main_loop_body_vacuum (s s' : ControllerState) (h : main_loop_body s = some s') :
    s'.CURRENT_VACUUM_STATE
      = (if s.keys Key.KEY_b = true then !s.CURRENT_VACUUM_STATE else s.CURRENT_VACUUM_STATE) ∧
    ∀ k, s'.keys k = (if k = Key.KEY_b then false else s.keys k) := by
  have harm : ∀ t t' : ControllerState, publish_arm_servo_update t = some t' →
      t'.CURRENT_VACUUM_STATE = t.CURRENT_VACUUM_STATE ∧ t'.keys = t.keys := by
    intro t t' ht
    obtain ⟨d, -, rfl⟩ := publish_arm_servo_update_shape t t' ht
    exact ⟨rfl, rfl⟩
  have hsteer : ∀ t t' : ControllerState, publish_steer_servo_update t = some t' →
      t'.CURRENT_VACUUM_STATE = t.CURRENT_VACUUM_STATE ∧ t'.keys = t.keys := by
    intro t t' ht
    obtain ⟨d, -, rfl⟩ := publish_steer_servo_update_shape t t' ht
    exact ⟨rfl, rfl⟩
  have hdrive : ∀ t t' : ControllerState, publish_drive_motor_update t = some t' →
      t'.CURRENT_VACUUM_STATE = t.CURRENT_VACUUM_STATE ∧ t'.keys = t.keys := by
    intro t t' ht
    obtain ⟨d, -, rfl⟩ := publish_drive_motor_update_shape t t' ht
    exact ⟨rfl, rfl⟩
  simp only [main_loop_body, Option.bind_eq_bind, Option.bind_eq_some] at h
  obtain ⟨s1, h1, s2, h2, s3, h3, s4, h4, s5, h5, s6, h6, s7, h7, s8, h8, s9, h9, h10⟩ := h
  have i1 : s1.CURRENT_VACUUM_STATE = s.CURRENT_VACUUM_STATE ∧ s1.keys = s.keys := by
    unfold main_arm_home at h1
    split_ifs at h1
    · exact (harm _ _ h1 :)
    · simp only [Option.some.injEq] at h1; subst h1; exact ⟨rfl, rfl⟩
  have i2 : s2.CURRENT_VACUUM_STATE = s1.CURRENT_VACUUM_STATE ∧ s2.keys = s1.keys := by
    unfold main_arm_base at h2
    split_ifs at h2
    · exact (harm _ _ h2 :)
    · exact (harm _ _ h2 :)
    · simp only [Option.some.injEq] at h2; subst h2; exact ⟨rfl, rfl⟩
  have i3 : s3.CURRENT_VACUUM_STATE = s2.CURRENT_VACUUM_STATE ∧ s3.keys = s2.keys := by
    unfold main_arm_shoulder at h3
    split_ifs at h3
    · exact (harm _ _ h3 :)
    · exact (harm _ _ h3 :)
    · simp only [Option.some.injEq] at h3; subst h3; exact ⟨rfl, rfl⟩
  have i4 : s4.CURRENT_VACUUM_STATE = s3.CURRENT_VACUUM_STATE ∧ s4.keys = s3.keys := by
    unfold main_arm_elbow at h4
    split_ifs at h4
    · exact (harm _ _ h4 :)
    · exact (harm _ _ h4 :)
    · simp only [Option.some.injEq] at h4; subst h4; exact ⟨rfl, rfl⟩
  have i5 : s5.CURRENT_VACUUM_STATE = s4.CURRENT_VACUUM_STATE ∧ s5.keys = s4.keys := by
    unfold main_arm_wrist at h5
    split_ifs at h5
    · exact (harm _ _ h5 :)
    · exact (harm _ _ h5 :)
    · simp only [Option.some.injEq] at h5; subst h5; exact ⟨rfl, rfl⟩
  have i6 : s6.CURRENT_VACUUM_STATE
        = (if s5.keys Key.KEY_b = true then !s5.CURRENT_VACUUM_STATE
            else s5.CURRENT_VACUUM_STATE) ∧
      ∀ k, s6.keys k = (if k = Key.KEY_b then false else s5.keys k) := by
    unfold main_arm_gripper at h6
    split_ifs at h6 with hb
    · simp only [Option.bind_eq_bind, Option.bind_eq_some, Option.some.injEq] at h6
      obtain ⟨d0, -, d1, -, rfl⟩ := h6
      exact ⟨by simp only [hb, if_true], fun k => rfl⟩
    · simp only [Option.some.injEq] at h6
      subst h6
      refine ⟨by simp [hb], ?_⟩
      intro k
      by_cases hk : k = Key.KEY_b
      · subst hk; simpa using hb
      · simp [hk]
  have i7 : s7.CURRENT_VACUUM_STATE = s6.CURRENT_VACUUM_STATE ∧ s7.keys = s6.keys := by
    unfold main_steering at h7
    split_ifs at h7
    · exact (hsteer _ _ h7 :)
    · exact (hsteer _ _ h7 :)
    · simp only [Option.some.injEq] at h7; subst h7; exact ⟨rfl, rfl⟩
  have i8 : s8.CURRENT_VACUUM_STATE = s7.CURRENT_VACUUM_STATE ∧ s8.keys = s7.keys := by
    unfold main_steering_reset at h8
    split_ifs at h8
    · exact (hsteer _ _ h8 :)
    · simp only [Option.some.injEq] at h8; subst h8; exact ⟨rfl, rfl⟩
  have i9 : s9.CURRENT_VACUUM_STATE = s8.CURRENT_VACUUM_STATE ∧ s9.keys = s8.keys := by
    unfold main_drive at h9
    split_ifs at h9
    · exact (hdrive _ _ h9 :)
    · exact (hdrive _ _ h9 :)
    · simp only [Option.some.injEq] at h9; subst h9; exact ⟨rfl, rfl⟩
  have i10 : s'.CURRENT_VACUUM_STATE = s9.CURRENT_VACUUM_STATE ∧ s'.keys = s9.keys := by
    unfold main_drive_stop at h10
    split_ifs at h10
    · exact (hdrive _ _ h10 :)
    · simp only [Option.some.injEq] at h10; subst h10; exact ⟨rfl, rfl⟩
  rw [i10.1, i9.1, i8.1, i7.1, i6.1, i5.1, i4.1, i3.1, i2.1, i1.1, i5.2, i4.2, i3.2, i2.2, i1.2,
    i10.2, i9.2, i8.2, i7.2]
  refine ⟨rfl, ?_⟩
  intro k
  rw [i6.2 k, i5.2, i4.2, i3.2, i2.2, i1.2]

/-- Ticks that start with the vacuum key marked released leave the vacuum
state as it is. -/
theorem runTicks_vacuum_released (n : Nat) :
    ∀ s s' : ControllerState, s.keys Key.KEY_b = false → runTicks n s = some s' →
      s'.CURRENT_VACUUM_STATE = s.CURRENT_VACUUM_STATE ∧ ∀ k, s'.keys k = s.keys k := by
  induction n with
  | zero =>
    intro s s' _ h
    simp only [runTicks, Option.some.injEq] at h
    subst h; exact ⟨rfl, fun _ => rfl⟩
  | succ n ih =>
    intro s s' hb h
    simp only [runTicks, Option.bind_eq_some] at h
    obtain ⟨mid, hmid, hrest⟩ := h
    obtain ⟨v1, k1⟩ := main_loop_body_vacuum s mid hmid
    have hb' : mid.keys Key.KEY_b = false := by rw [k1]; simp
    obtain ⟨v2, k2⟩ := ih mid s' hb' hrest
    refine ⟨?_, ?_⟩
    · rw [v2, v1, hb]; simp
    · intro k
      rw [k2, k1]
      by_cases hk : k = Key.KEY_b
      · subst hk; simp [hb]
      · simp [hk]

/-! ## Claims on the operator-input stage -/

/-- C11: from base 10, shoulder 0, elbow 0, wrist 0, after 8 homing ticks and
after every larger number of homing ticks all four joints are 0; the same
holds for the arm state of the control loop run with only the home key
held. -/
theorem home_converges_from_base_ten (n : Nat) (h : 8 ≤ n) :
    home_tick^[n] (ArmServo.mk 10 0 0 0) = homePose ∧
    (∀ s : ControllerState, onlyKeyHeld Key.KEY_p s → s.arm_servo_message.length = 4 →
      s.arm_servo = ArmServo.mk 10 0 0 0 →
      ∃ s', runTicks n s = some s' ∧ s'.arm_servo = homePose) := by
  have key : home_tick^[n] (ArmServo.mk 10 0 0 0) = homePose := by
    obtain ⟨k, rfl⟩ : ∃ k, n = k + 8 := ⟨n - 8, by omega⟩
    rw [Function.iterate_add_apply]
    have e1 : home_tick (ArmServo.mk 10 0 0 0) = ArmServo.mk 8 1 1 0 := by decide
    have e2 : home_tick (ArmServo.mk 8 1 1 0) = ArmServo.mk 6 2 2 0 := by decide
    have e3 : home_tick (ArmServo.mk 6 2 2 0) = ArmServo.mk 4 3 3 0 := by decide
    have e4 : home_tick (ArmServo.mk 4 3 3 0) = ArmServo.mk 2 4 4 0 := by decide
    have e5 : home_tick (ArmServo.mk 2 4 4 0) = ArmServo.mk 0 3 3 0 := by decide
    have e6 : home_tick (ArmServo.mk 0 3 3 0) = ArmServo.mk 0 2 2 0 := by decide
    have e7 : home_tick (ArmServo.mk 0 2 2 0) = ArmServo.mk 0 1 1 0 := by decide
    have e8 : home_tick (ArmServo.mk 0 1 1 0) = homePose := by decide
    have h8 : home_tick^[8] (ArmServo.mk 10 0 0 0) = homePose := by
      simp only [Function.iterate_succ_apply, Function.iterate_zero_apply, e1, e2, e3, e4, e5,
        e6, e7, e8]
    rw [h8]
    exact Function.iterate_fixed home_tick_homePose k
  refine ⟨key, ?_⟩
  intro s hk hl ha
  obtain ⟨s', h1, h2⟩ := runTicks_home_only n s hk hl
  exact ⟨s', h1, by rw [h2, ha, key]⟩

/-- The C11 statement at 8 ticks and at 100 ticks. -/
theorem home_converges_from_base_ten_witness :
    (8 ≤ 8 ∧ home_tick^[8] (ArmServo.mk 10 0 0 0) = homePose) ∧
    (8 ≤ 100 ∧ home_tick^[100] (ArmServo.mk 10 0 0 0) = homePose) :=
  ⟨⟨le_refl _, (home_converges_from_base_ten 8 (le_refl _)).1⟩,
    ⟨by decide, (home_converges_from_base_ten 100 (by decide)).1⟩⟩

/-- C13, evaluated on the code: after `initialize_servos` at program start
the arm message holds four zeros and the drive message five zeros, but the
steer message array is still empty (the block meant for it fills
`drive_motor_message`), so `publish_steer_servo_update` stores past the end
of it, and the first tick with a steering key held is undefined. -/
theorem initialize_servos_leaves_steer_message_empty :
    (initialize_servos controllerStart).arm_servo_message = [0, 0, 0, 0] ∧
    (initialize_servos controllerStart).drive_motor_message = [0, 0, 0, 0, 0] ∧
    (initialize_servos controllerStart).steer_servo_message = [] ∧
    (∀ s : ControllerState,
      (initialize_servos s).steer_servo_message = s.steer_servo_message) ∧
    publish_steer_servo_update (initialize_servos controllerStart) = none ∧
    runEvents [Event.keyDown Key.KEY_a, Event.tick] controllerInit = none := by
  refine ⟨rfl, rfl, rfl, fun _ => rfl, rfl, ?_⟩
  simp [runEvents, step, keyDown, main_loop_body, main_arm_home, main_arm_base,
    main_arm_shoulder, main_arm_elbow, main_arm_wrist, main_arm_gripper, main_steering,
    publish_steer_servo_update, writeAt, controllerInit, initialize_key_states,
    initialize_servos, controllerStart]

/-- C14: after one press of the vacuum key, for every number n ≥ 1 of ticks
without a further key notification: whatever other keys are held, if the
ticks are defined then `CURRENT_VACUUM_STATE` ends flipped once, the vacuum
key is marked released and the other keys are as before; and with no other
key held and an arm message of at least two elements the state is, for every
such n, the one left by the first tick: one flip and exactly one published
message, the gripper message. -/
theorem vacuum_toggles_once_per_press (s : ControllerState) (n : Nat) (hn : 1 ≤ n) :
    (∀ s', runTicks n (keyDown Key.KEY_b s) = some s' →
      s'.CURRENT_VACUUM_STATE = (!s.CURRENT_VACUUM_STATE) ∧ s'.keys Key.KEY_b = false ∧
      ∀ k, k ≠ Key.KEY_b → s'.keys k = s.keys k) ∧
    (∀ (m0 m1 : Int) (rest : List Int), noKeyHeld s → s.arm_servo_message = m0 :: m1 :: rest →
      runTicks n (keyDown Key.KEY_b s) = some
        { s with
          CURRENT_VACUUM_STATE := !s.CURRENT_VACUUM_STATE,
          arm_servo_message := 4 :: (if (!s.CURRENT_VACUUM_STATE) = true then 1 else 0) :: rest,
          published := s.published ++ [Publication.arm_cmd_manual
            (4 :: (if (!s.CURRENT_VACUUM_STATE) = true then 1 else 0) :: rest)] }) := by
  obtain ⟨k, rfl⟩ : ∃ k, n = k + 1 := ⟨n - 1, by omega⟩
  constructor
  · intro s' h
    simp only [runTicks, Option.bind_eq_some] at h
    obtain ⟨mid, hmid, hrest⟩ := h
    obtain ⟨v1, k1⟩ := main_loop_body_vacuum _ mid hmid
    have hb' : mid.keys Key.KEY_b = false := by rw [k1]; simp
    obtain ⟨v2, k2⟩ := runTicks_vacuum_released k mid s' hb' hrest
    refine ⟨?_, ?_, ?_⟩
    · rw [v2, v1]; simp [keyDown]
    · rw [k2, hb']
    · intro key hkey
      rw [k2, k1]; simp [hkey, keyDown]
  · intro m0 m1 rest hk hm
    simp only [runTicks, main_loop_body_vacuum_press s m0 m1 rest hk hm, Option.some_bind]
    exact runTicks_idle k _ hk

/-- The C14 statement from the initial state of the loop, for 5 ticks. -/
theorem vacuum_toggles_once_per_press_witness :
    noKeyHeld controllerInit ∧ controllerInit.arm_servo_message = [0, 0, 0, 0] ∧ 1 ≤ 5 ∧
    runTicks 5 (keyDown Key.KEY_b controllerInit) = some
      { controllerInit with
        CURRENT_VACUUM_STATE := true,
        arm_servo_message := [4, 1, 0, 0],
        published := [Publication.arm_cmd_manual [4, 1, 0, 0]] } :=
  have hk : noKeyHeld controllerInit := by
    intro k
    simp [controllerInit, initialize_key_states, initialize_servos, controllerStart]
  ⟨hk, rfl, by decide,
    (vacuum_toggles_once_per_press controllerInit 5 (by decide)).2 0 0 [0, 0] hk rfl⟩

/-! ## Callbacks: agreement of the two embeddings, frame -/

theorem translateInto_andThen_result (d : List Int) (i : Nat) (f : Int → Option Int) (o : Nat)
    (st : TranslatorState) (k : TranslatorState → Outcome) :
    ((translateInto d i f o st).andThen k).result =
      (d[i]?).bind fun x => (f x).bind fun p =>
        (k { st with command_message_array := st.command_message_array.set o p }).result := by
  unfold translateInto
  cases d[i]? with
  | none => rfl
  | some x =>
    cases h : f x with
    | none => simp [Outcome.andThen, Outcome.result, h]
    | some p => simp [Outcome.andThen, h]

theorem arm_cmd_manual_callback_trace_result (d : List Int) (st : TranslatorState) :
    (arm_cmd_manual_callback_trace d st).result = arm_cmd_manual_callback d st := by
  unfold arm_cmd_manual_callback_trace
  simp only [translateInto_andThen_result]
  simp only [arm_cmd_manual_callback, Option.bind_eq_bind, Option.some_bind, Outcome.result]

theorem steer_cmd_manual_callback_trace_result (d : List Int) (st : TranslatorState) :
    (steer_cmd_manual_callback_trace d st).result = steer_cmd_manual_callback d st := by
  unfold steer_cmd_manual_callback_trace
  simp only [translateInto_andThen_result]
  simp only [steer_cmd_manual_callback, Option.bind_eq_bind, Option.some_bind, Outcome.result]

theorem drive_cmd_manual_callback_trace_result (d : List Int) (st : TranslatorState) :
    (drive_cmd_manual_callback_trace d st).result = drive_cmd_manual_callback d st := by
  unfold drive_cmd_manual_callback_trace
  simp only [translateInto_andThen_result]
  simp only [drive_cmd_manual_callback, Option.bind_eq_bind, Option.some_bind, Outcome.result]

/-- A callback whose incoming array is too short has no defined result. -/
theorem arm_cmd_manual_callback_short (d : List Int) (st : TranslatorState)
    (h : d.length < 6) : arm_cmd_manual_callback d st = none := by
  rcases d with _ | ⟨x0, _ | ⟨x1, _ | ⟨x2, _ | ⟨x3, _ | ⟨x4, _ | ⟨x5, rest⟩⟩⟩⟩⟩⟩
  all_goals first
    | (simp only [List.length_cons] at h; omega)
    | simp [arm_cmd_manual_callback]

theorem steer_cmd_manual_callback_short (d : List Int) (st : TranslatorState)
    (h : d.length < 3) : steer_cmd_manual_callback d st = none := by
  rcases d with _ | ⟨x0, _ | ⟨x1, _ | ⟨x2, rest⟩⟩⟩
  all_goals first
    | (simp only [List.length_cons] at h; omega)
    | simp [steer_cmd_manual_callback]

theorem drive_cmd_manual_callback_short (d : List Int) (st : TranslatorState)
    (h : d.length < 5) : drive_cmd_manual_callback d st = none := by
  rcases d with _ | ⟨x0, _ | ⟨x1, _ | ⟨x2, _ | ⟨x3, _ | ⟨x4, rest⟩⟩⟩⟩⟩
  all_goals first
    | (simp only [List.length_cons] at h; omega)
    | simp [drive_cmd_manual_callback]

theorem arm_cmd_manual_callback_eq (a0 a1 a2 a3 a4 a5 a6 a7 a8 a9 a10 a11 a12 a13 a14 : Int)
    (upd : Bool) (x0 x1 x2 x3 x4 x5 : Int) (rest : List Int) (p : Int)
    (hp : gripper_claw_to_pulse (toInt16 x5) = some p) :
    arm_cmd_manual_callback (x0 :: x1 :: x2 :: x3 :: x4 :: x5 :: rest)
        (TranslatorState.mk [a0, a1, a2, a3, a4, a5, a6, a7, a8, a9, a10, a11, a12, a13, a14] upd)
      = some (TranslatorState.mk
          [arm_angle_to_pulse (toInt16 x0), arm_angle_to_pulse (toInt16 x1),
            arm_angle_to_pulse (toInt16 x2), arm_angle_to_pulse (toInt16 x3), a4, a5, a6, a7, a8,
            a9, a10, a11, gripper_angle_to_pulse (toInt16 x4), p, a14] true) := by
  simp only [arm_cmd_manual_callback, List.getElem?_cons_zero, List.getElem?_cons_succ,
    Option.bind_eq_bind, Option.some_bind, hp, List.set]

theorem steer_cmd_manual_callback_eq (a0 a1 a2 a3 a4 a5 a6 a7 a8 a9 a10 a11 a12 a13 a14 : Int)
    (upd : Bool) (x0 x1 x2 : Int) (rest : List Int) :
    steer_cmd_manual_callback (x0 :: x1 :: x2 :: rest)
        (TranslatorState.mk [a0, a1, a2, a3, a4, a5, a6, a7, a8, a9, a10, a11, a12, a13, a14] upd)
      = some (TranslatorState.mk
          [a0, a1, a2, a3, steer_angle_to_pulse (toInt16 (-(toInt16 x0))),
            steer_angle_to_pulse (toInt16 x1), steer_angle_to_pulse (toInt16 x2), a7, a8, a9,
            a10, a11, a12, a13, a14] true) := by
  simp only [steer_cmd_manual_callback, List.getElem?_cons_zero, List.getElem?_cons_succ,
    Option.bind_eq_bind, Option.some_bind, List.set]

theorem drive_cmd_manual_callback_eq (a0 a1 a2 a3 a4 a5 a6 a7 a8 a9 a10 a11 a12 a13 a14 : Int)
    (upd : Bool) (x0 x1 x2 x3 x4 : Int) (rest : List Int) (p0 p1 p2 p3 p4 : Int)
    (hp0 : drive_speed_to_pulse (toInt16 (-(toInt16 x0))) = some p0)
    (hp1 : drive_speed_to_pulse (toInt16 x1) = some p1)
    (hp2 : drive_speed_to_pulse (toInt16 x2) = some p2)
    (hp3 : drive_speed_to_pulse (toInt16 x3) = some p3)
    (hp4 : drive_speed_to_pulse (toInt16 x4) = some p4) :
    drive_cmd_manual_callback (x0 :: x1 :: x2 :: x3 :: x4 :: rest)
        (TranslatorState.mk [a0, a1, a2, a3, a4, a5, a6, a7, a8, a9, a10, a11, a12, a13, a14] upd)
      = some (TranslatorState.mk
          [a0, a1, a2, a3, a4, a5, a6, p0, p1, p2, p3, p4, a12, a13, a14] true) := by
  simp only [drive_cmd_manual_callback, List.getElem?_cons_zero, List.getElem?_cons_succ,
    Option.bind_eq_bind, Option.some_bind, hp0, hp1, hp2, hp3, hp4, List.set]

/-! ## Claims on the translator callbacks -/

/-- C15: on a 15-element hardware array each callback writes its own slots
and no other: the arm callback slots 0-3 (arm pulses of inputs 0-3), 12
(gripper-rotate pulse of input 4) and 13 (claw pulse of input 5); the steer
callback slots 4-6 from inputs 0-2; the drive callback slots 7-11 from inputs
0-4; the mast callback slot 14; only the rear steer input and the rear drive
input are negated (in 16 bits) before translation. -/
theorem callbacks_write_own_slots :
    (∀ (st : TranslatorState) (x0 x1 x2 x3 x4 x5 : Int) (rest : List Int) (p : Int),
      st.command_message_array.length = 15 → gripper_claw_to_pulse (toInt16 x5) = some p →
      ∃ st', arm_cmd_manual_callback (x0 :: x1 :: x2 :: x3 :: x4 :: x5 :: rest) st = some st' ∧
        st'.command_message_array.length = 15 ∧
        slot st' 0 = arm_angle_to_pulse (toInt16 x0) ∧
        slot st' 1 = arm_angle_to_pulse (toInt16 x1) ∧
        slot st' 2 = arm_angle_to_pulse (toInt16 x2) ∧
        slot st' 3 = arm_angle_to_pulse (toInt16 x3) ∧
        slot st' 12 = gripper_angle_to_pulse (toInt16 x4) ∧
        slot st' 13 = p ∧
        ∀ i, i < 15 → i ≠ 0 → i ≠ 1 → i ≠ 2 → i ≠ 3 → i ≠ 12 → i ≠ 13 →
          slot st' i = slot st i) ∧
    (∀ (st : TranslatorState) (x0 x1 x2 : Int) (rest : List Int),
      st.command_message_array.length = 15 →
      ∃ st', steer_cmd_manual_callback (x0 :: x1 :: x2 :: rest) st = some st' ∧
        st'.command_message_array.length = 15 ∧
        slot st' 4 = steer_angle_to_pulse (toInt16 (-(toInt16 x0))) ∧
        slot st' 5 = steer_angle_to_pulse (toInt16 x1) ∧
        slot st' 6 = steer_angle_to_pulse (toInt16 x2) ∧
        ∀ i, i < 15 → i ≠ 4 → i ≠ 5 → i ≠ 6 → slot st' i = slot st i) ∧
    (∀ (st : TranslatorState) (x0 x1 x2 x3 x4 : Int) (rest : List Int) (p0 p1 p2 p3 p4 : Int),
      st.command_message_array.length = 15 →
      drive_speed_to_pulse (toInt16 (-(toInt16 x0))) = some p0 →
      drive_speed_to_pulse (toInt16 x1) = some p1 →
      drive_speed_to_pulse (toInt16 x2) = some p2 →
      drive_speed_to_pulse (toInt16 x3) = some p3 →
      drive_speed_to_pulse (toInt16 x4) = some p4 →
      ∃ st', drive_cmd_manual_callback (x0 :: x1 :: x2 :: x3 :: x4 :: rest) st = some st' ∧
        st'.command_message_array.length = 15 ∧
        slot st' 7 = p0 ∧ slot st' 8 = p1 ∧ slot st' 9 = p2 ∧ slot st' 10 = p3 ∧
        slot st' 11 = p4 ∧
        ∀ i, i < 15 → i ≠ 7 → i ≠ 8 → i ≠ 9 → i ≠ 10 → i ≠ 11 → slot st' i = slot st i) ∧
    (∀ (st : TranslatorState) (v : Int), st.command_message_array.length = 15 →
      (mast_cmd_manual_callback v st).command_message_array.length = 15 ∧
      slot (mast_cmd_manual_callback v st) 14 = toUInt16 (MAST_SERVO_PWM_IMMOBILE + toInt16 v) ∧
      ∀ i, i < 14 → slot (mast_cmd_manual_callback v st) i = slot st i) ∧
    (∀ x : Int, isInt16 x → toInt16 x = x ∧ (x ≠ -32768 → toInt16 (-x) = -x)) := by
  refine ⟨?_, ?_, ?_, ?_, ?_⟩
  · intro st x0 x1 x2 x3 x4 x5 rest p hlen hp
    obtain ⟨cma, upd⟩ := st
    obtain ⟨a0, a1, a2, a3, a4, a5, a6, a7, a8, a9, a10, a11, a12, a13, a14, rfl⟩ :=
      list_length_15 cma hlen
    refine ⟨_, arm_cmd_manual_callback_eq _ _ _ _ _ _ _ _ _ _ _ _ _ _ _ _ _ _ _ _ _ _ _ p hp,
      rfl, rfl, rfl, rfl, rfl, rfl, rfl, ?_⟩
    intro i hi h0 h1 h2 h3 h12 h13
    interval_cases i <;> first | rfl | contradiction
  · intro st x0 x1 x2 rest hlen
    obtain ⟨cma, upd⟩ := st
    obtain ⟨a0, a1, a2, a3, a4, a5, a6, a7, a8, a9, a10, a11, a12, a13, a14, rfl⟩ :=
      list_length_15 cma hlen
    refine ⟨_, steer_cmd_manual_callback_eq _ _ _ _ _ _ _ _ _ _ _ _ _ _ _ _ _ _ _ _,
      rfl, rfl, rfl, rfl, ?_⟩
    intro i hi h4 h5 h6
    interval_cases i <;> first | rfl | contradiction
  · intro st x0 x1 x2 x3 x4 rest p0 p1 p2 p3 p4 hlen hp0 hp1 hp2 hp3 hp4
    obtain ⟨cma, upd⟩ := st
    obtain ⟨a0, a1, a2, a3, a4, a5, a6, a7, a8, a9, a10, a11, a12, a13, a14, rfl⟩ :=
      list_length_15 cma hlen
    refine ⟨_, drive_cmd_manual_callback_eq _ _ _ _ _ _ _ _ _ _ _ _ _ _ _ _ _ _ _ _ _ _
      p0 p1 p2 p3 p4 hp0 hp1 hp2 hp3 hp4, rfl, rfl, rfl, rfl, rfl, rfl, ?_⟩
    intro i hi h7 h8 h9 h10 h11
    interval_cases i <;> first | rfl | contradiction
  · intro st v hlen
    obtain ⟨cma, upd⟩ := st
    obtain ⟨a0, a1, a2, a3, a4, a5, a6, a7, a8, a9, a10, a11, a12, a13, a14, rfl⟩ :=
      list_length_15 cma hlen
    refine ⟨rfl, rfl, ?_⟩
    intro i hi
    interval_cases i <;> rfl
  · intro x hx
    unfold isInt16 at hx
    unfold toInt16
    constructor
    · omega
    · intro hne; omega

/-- The C15 statement for the steer callback on the initial array with the
command [3, -3, 200]. -/
theorem callbacks_write_own_slots_witness :
    (initialize_command_message_array translatorStart).command_message_array.length = 15 ∧
    ∃ st', steer_cmd_manual_callback [3, -3, 200]
        (initialize_command_message_array translatorStart) = some st' ∧
      slot st' 4 = steer_angle_to_pulse (toInt16 (-(toInt16 3))) ∧
      slot st' 5 = steer_angle_to_pulse (toInt16 (-3)) ∧
      slot st' 6 = steer_angle_to_pulse (toInt16 200) ∧
      slot st' 0 = slot (initialize_command_message_array translatorStart) 0 :=
  ⟨rfl,
    (callbacks_write_own_slots.2.1 (initialize_command_message_array translatorStart)
      3 (-3) 200 [] rfl).elim
      fun st' h => ⟨st', h.1, h.2.2.1, h.2.2.2.1, h.2.2.2.2.1,
        h.2.2.2.2.2 0 (by decide) (by decide) (by decide) (by decide)⟩⟩

/-- C16, refuted as stated: the 4-element arm command [10, 20, 30, 40] (the
length the operator-input stage publishes) is not rejected: the callback has
already overwritten slots 0-3 with 321, 327, 333 and 339 when it reads
element 4 past the end of the array, and from there on its behaviour is
undefined. -/
theorem short_arm_command_not_rejected :
    [(10 : Int), 20, 30, 40].length < 6 ∧
    arm_cmd_manual_callback_trace [10, 20, 30, 40]
        (initialize_command_message_array translatorStart)
      = Outcome.undefinedIn (TranslatorState.mk
          [321, 327, 333, 339, 295, 295, 295, 292, 292, 292, 292, 292, 295, 355, 310] false) ∧
    arm_cmd_manual_callback [10, 20, 30, 40]
        (initialize_command_message_array translatorStart)
      ≠ some (initialize_command_message_array translatorStart) := by
  refine ⟨by decide, ?_, ?_⟩
  · simp only [arm_cmd_manual_callback_trace, translateInto, Outcome.andThen,
      arm_angle_to_pulse, angle_to_pulse_eq _ _ _ _ _ (toInt16_isInt32 _)]
    decide
  · rw [arm_cmd_manual_callback_short _ _ (by decide)]
    exact fun h => Option.noConfusion h

/-- C16 as amended: a callback whose incoming array has fewer elements than
its group requires (6, 3, 5) has no length check and no defined result: it
reads past the end of the array; the run of its body stops at that undefined
read, in a state where `UPDATE_NEEDED` is as before and where, for the arm
callback given 4 elements, slots 0-3 already hold the new pulses. -/
theorem short_command_is_undefined :
    (∀ (d : List Int) (st : TranslatorState), d.length < 6 →
      arm_cmd_manual_callback d st = none ∧
      ∃ st', arm_cmd_manual_callback_trace d st = Outcome.undefinedIn st' ∧
        st'.UPDATE_NEEDED = st.UPDATE_NEEDED) ∧
    (∀ (d : List Int) (st : TranslatorState), d.length < 3 →
      steer_cmd_manual_callback d st = none ∧
      ∃ st', steer_cmd_manual_callback_trace d st = Outcome.undefinedIn st' ∧
        st'.UPDATE_NEEDED = st.UPDATE_NEEDED) ∧
    (∀ (d : List Int) (st : TranslatorState), d.length < 5 →
      drive_cmd_manual_callback d st = none ∧
      ∃ st', drive_cmd_manual_callback_trace d st = Outcome.undefinedIn st' ∧
        st'.UPDATE_NEEDED = st.UPDATE_NEEDED) ∧
    (∀ (st : TranslatorState) (x0 x1 x2 x3 : Int),
      arm_cmd_manual_callback_trace [x0, x1, x2, x3] st = Outcome.undefinedIn
        (TranslatorState.mk
          ((((st.command_message_array.set 0 (arm_angle_to_pulse (toInt16 x0))).set 1
            (arm_angle_to_pulse (toInt16 x1))).set 2 (arm_angle_to_pulse (toInt16 x2))).set 3
            (arm_angle_to_pulse (toInt16 x3)))
          st.UPDATE_NEEDED)) := by
  refine ⟨?_, ?_, ?_, ?_⟩
  · intro d st h
    refine ⟨arm_cmd_manual_callback_short d st h, ?_⟩
    rcases d with _ | ⟨x0, _ | ⟨x1, _ | ⟨x2, _ | ⟨x3, _ | ⟨x4, _ | ⟨x5, rest⟩⟩⟩⟩⟩⟩
    all_goals first
      | (simp only [List.length_cons] at h; omega)
      | exact ⟨_, rfl, rfl⟩
  · intro d st h
    refine ⟨steer_cmd_manual_callback_short d st h, ?_⟩
    rcases d with _ | ⟨x0, _ | ⟨x1, _ | ⟨x2, rest⟩⟩⟩
    all_goals first
      | (simp only [List.length_cons] at h; omega)
      | exact ⟨_, rfl, rfl⟩
  · intro d st h
    refine ⟨drive_cmd_manual_callback_short d st h, ?_⟩
    rcases d with _ | ⟨x0, _ | ⟨x1, _ | ⟨x2, _ | ⟨x3, _ | ⟨x4, rest⟩⟩⟩⟩⟩
    all_goals first
      | (simp only [List.length_cons] at h; omega)
      | (simp only [drive_cmd_manual_callback_trace, translateInto, List.getElem?_nil,
          List.getElem?_cons_zero, List.getElem?_cons_succ]
         repeat' split
         all_goals exact ⟨_, rfl, rfl⟩)
  · intro st x0 x1 x2 x3
    rfl

/-- The C16 statement for the arm callback on the 4-element command
[10, 20, 30, 40] and the initial array. -/
theorem short_command_is_undefined_witness :
    [(10 : Int), 20, 30, 40].length < 6 ∧
    arm_cmd_manual_callback [10, 20, 30, 40]
      (initialize_command_message_array translatorStart) = none :=
  ⟨by decide,
    (short_command_is_undefined.1 [10, 20, 30, 40]
      (initialize_command_message_array translatorStart) (by decide)).1⟩

/-- C17, refuted as stated: the percentage -1 lies outside 0..100 and yields
the pulse 355 (355.79 truncated), which is inside [276, 355]. -/
theorem claw_pulse_inside_limits_at_minus_one :
    ((-1 : Int) < 0 ∨ (100 : Int) < -1) ∧
    gripper_claw_to_pulse (-1) = some 355 ∧
    GRIPPER_CLAW_PWM_CLOSED ≤ 355 ∧ (355 : Int) ≤ GRIPPER_CLAW_PWM_OPEN := by
  rw [gripper_claw_to_pulse_eq _ (by unfold isInt32; decide)]
  decide

/-- C17 as amended: for every 32-bit percentage whose interpolated value
truncates into 0..65535, `gripper_claw_to_pulse` is 355 - 79 p / 100
truncated toward zero; 0 gives 355, 100 gives 276, 200 gives 197; the result
is not clamped: every percentage above 100 gives a pulse below 276 and every
percentage below -1 gives a pulse above 355, while percentages 0..100 give a
pulse in [276, 355]. -/
theorem claw_pulse_is_truncated_interpolation (p : Int) (hp : isInt32 p) :
    (0 ≤ Int.tdiv (35500 - 79 * p) 100 → Int.tdiv (35500 - 79 * p) 100 ≤ 65535 →
      gripper_claw_to_pulse p = some (Int.tdiv (35500 - 79 * p) 100)) ∧
    gripper_claw_to_pulse 0 = some GRIPPER_CLAW_PWM_OPEN ∧
    gripper_claw_to_pulse 100 = some GRIPPER_CLAW_PWM_CLOSED ∧
    gripper_claw_to_pulse 200 = some 197 ∧
    (∀ x, gripper_claw_to_pulse p = some x →
      (100 < p → x < GRIPPER_CLAW_PWM_CLOSED) ∧ (p < -1 → GRIPPER_CLAW_PWM_OPEN < x) ∧
      (0 ≤ p → p ≤ 100 → GRIPPER_CLAW_PWM_CLOSED ≤ x ∧ x ≤ GRIPPER_CLAW_PWM_OPEN)) := by
  refine ⟨?_, ?_, ?_, ?_, ?_⟩
  · intro h0 h1
    rw [gripper_claw_to_pulse_eq p hp]
    unfold clawPulseInt
    rw [if_pos ⟨h0, h1⟩]
  · rw [gripper_claw_to_pulse_eq _ (by unfold isInt32; decide)]; decide
  · rw [gripper_claw_to_pulse_eq _ (by unfold isInt32; decide)]; decide
  · rw [gripper_claw_to_pulse_eq _ (by unfold isInt32; decide)]; decide
  · intro x hx
    rw [gripper_claw_to_pulse_eq p hp] at hx
    unfold clawPulseInt at hx
    simp only [tdiv_of_pos _ 100 (by norm_num)] at hx
    unfold isInt32 at hp
    simp only [GRIPPER_CLAW_PWM_CLOSED, GRIPPER_CLAW_PWM_OPEN]
    split_ifs at hx <;> simp only [Option.some.injEq, reduceCtorEq] at hx <;>
      refine ⟨?_, ?_, ?_⟩ <;> intros <;> omega

/-- The amended C17 statement at the percentage 50. -/
theorem claw_pulse_is_truncated_interpolation_witness :
    isInt32 50 ∧ gripper_claw_to_pulse 200 = some 197 ∧
    gripper_claw_to_pulse 0 = some GRIPPER_CLAW_PWM_OPEN :=
  ⟨by unfold isInt32; decide,
    (claw_pulse_is_truncated_interpolation 50 (by unfold isInt32; decide)).2.2.2.1,
    (claw_pulse_is_truncated_interpolation 50 (by unfold isInt32; decide)).2.1⟩

/-- C18: `initialize_command_message_array` produces the 15-element array
with 315 in slots 0-3, 295 in slots 4-6, 292 in slots 7-11, 295 in slot 12,
355 in slot 13 and 310 in slot 14, and the arm, steer, drive and mast
callbacks applied with all-zero commands to any 15-element array produce
exactly this array. -/
theorem initial_array_is_zero_command_array :
    (∀ st : TranslatorState,
      (initialize_command_message_array st).command_message_array =
        [315, 315, 315, 315, 295, 295, 295, 292, 292, 292, 292, 292, 295, 355, 310]) ∧
    (∀ st : TranslatorState, st.command_message_array.length = 15 →
      (runCallbacks [Command.arm [0, 0, 0, 0, 0, 0], Command.steer [0, 0, 0],
          Command.drive [0, 0, 0, 0, 0], Command.mast 0] st).map
          (fun s => s.command_message_array)
        = some (initialize_command_message_array st).command_message_array) := by
  refine ⟨fun st => rfl, ?_⟩
  intro st hlen
  obtain ⟨cma, upd⟩ := st
  obtain ⟨a0, a1, a2, a3, a4, a5, a6, a7, a8, a9, a10, a11, a12, a13, a14, rfl⟩ :=
    list_length_15 cma hlen
  have hclaw : gripper_claw_to_pulse (toInt16 0) = some 355 := by
    rw [gripper_claw_to_pulse_eq _ (toInt16_isInt32 _)]; decide
  have hd0 : drive_speed_to_pulse (toInt16 (-(toInt16 0))) = some 292 := by
    rw [drive_speed_to_pulse_eq _ (toInt16_isInt32 _)]; decide
  have hd : drive_speed_to_pulse (toInt16 0) = some 292 := by
    rw [drive_speed_to_pulse_eq _ (toInt16_isInt32 _)]; decide
  have harm : arm_angle_to_pulse (toInt16 0) = 315 := by
    unfold arm_angle_to_pulse
    rw [angle_to_pulse_eq _ _ _ _ _ (toInt16_isInt32 _)]; decide
  have hgrip : gripper_angle_to_pulse (toInt16 0) = 295 := by
    unfold gripper_angle_to_pulse
    rw [angle_to_pulse_eq _ _ _ _ _ (toInt16_isInt32 _)]; decide
  have hst0 : steer_angle_to_pulse (toInt16 (-(toInt16 0))) = 295 := by
    unfold steer_angle_to_pulse
    rw [angle_to_pulse_eq _ _ _ _ _ (toInt16_isInt32 _)]; decide
  have hst : steer_angle_to_pulse (toInt16 0) = 295 := by
    unfold steer_angle_to_pulse
    rw [angle_to_pulse_eq _ _ _ _ _ (toInt16_isInt32 _)]; decide
  simp only [runCallbacks, dispatch,
    arm_cmd_manual_callback_eq _ _ _ _ _ _ _ _ _ _ _ _ _ _ _ _ _ _ _ _ _ _ _ 355 hclaw,
    steer_cmd_manual_callback_eq,
    drive_cmd_manual_callback_eq _ _ _ _ _ _ _ _ _ _ _ _ _ _ _ _ _ _ _ _ _ _ 292 292 292 292 292
      hd0 hd hd hd hd,
    Option.some_bind, harm, hgrip, hst0, hst, mast_cmd_manual_callback, List.set,
    Option.map_some', initialize_command_message_array_data]
  decide

/-- The C18 statement on the initial array itself. -/
theorem initial_array_is_zero_command_array_witness :
    (initialize_command_message_array translatorStart).command_message_array.length = 15 ∧
    (runCallbacks [Command.arm [0, 0, 0, 0, 0, 0], Command.steer [0, 0, 0],
        Command.drive [0, 0, 0, 0, 0], Command.mast 0]
        (initialize_command_message_array translatorStart)).map
        (fun s => s.command_message_array)
      = some (initialize_command_message_array
          (initialize_command_message_array translatorStart)).command_message_array :=
  ⟨rfl, initial_array_is_zero_command_array.2
    (initialize_command_message_array translatorStart) rfl⟩

/-! ## Claims on the homing step -/

/-- The base step of a homing pass in which the base is not skipped. -/
theorem home_joint_base (a : ArmServo) (hb : isInt16 a.base)
    (hskip : ¬ (a.shoulder > 55 ∧ a.wrist ≠ -40)) :
    home_joint 0 a = { a with base :=
      if 2 ≤ a.base then a.base - 2 else if a.base ≤ -2 then a.base + 2 else 0 } := by
  unfold isInt16 at hb
  unfold home_joint
  have hc : ¬ (a.shoulder > 55 ∧ a.wrist ≠ -40 ∧ 0 ≠ 3) := by
    intro h; exact hskip ⟨h.1, h.2.1⟩
  rw [if_neg hc]
  simp [ArmServo.get, ArmServo.set, toInt16]
  split_ifs <;> omega

/-- The wrist step of a homing pass while the shoulder is at most 50. -/
theorem home_joint_wrist (a : ArmServo) (hw : isInt16 a.wrist) (hs : a.shoulder ≤ 50) :
    home_joint 3 a = { a with wrist :=
      if 2 ≤ a.wrist then a.wrist - 2 else if a.wrist ≤ -2 then a.wrist + 2 else 0 } := by
  unfold isInt16 at hw
  unfold home_joint
  have hc : ¬ (a.shoulder > 55 ∧ a.wrist ≠ -40 ∧ 3 ≠ 3) := by
    intro h; exact h.2.2 rfl
  have h50 : ¬ (a.shoulder > 50) := by omega
  rw [if_neg hc]
  simp [ArmServo.get, ArmServo.set, toInt16, h50]
  split_ifs <;> omega

theorem step_toward_zero_props (v : Int) :
    (2 ≤ |v| → (if 2 ≤ v then v - 2 else if v ≤ -2 then v + 2 else 0) = v - 2 * Int.sign v) ∧
    (|v| ≤ 1 → (if 2 ≤ v then v - 2 else if v ≤ -2 then v + 2 else 0) = 0) ∧
    (v ≠ 0 → |if 2 ≤ v then v - 2 else if v ≤ -2 then v + 2 else 0| < |v|) ∧
    (0 ≤ v → 0 ≤ (if 2 ≤ v then v - 2 else if v ≤ -2 then v + 2 else 0)) ∧
    (v ≤ 0 → (if 2 ≤ v then v - 2 else if v ≤ -2 then v + 2 else 0) ≤ 0) := by
  rcases lt_trichotomy v 0 with h | h | h
  · have hs : Int.sign v = -1 := Int.sign_eq_neg_one_of_neg h
    rw [abs_of_neg h, hs]
    refine ⟨?_, ?_, ?_, ?_, ?_⟩ <;> intros <;> split_ifs <;>
      first | omega | (rw [abs_lt]; constructor <;> omega)
  · subst h
    simp
  · have hs : Int.sign v = 1 := Int.sign_eq_one_of_pos h
    rw [abs_of_pos h, hs]
    refine ⟨?_, ?_, ?_, ?_, ?_⟩ <;> intros <;> split_ifs <;>
      first | omega | (rw [abs_lt]; constructor <;> omega)

/-- The elbow step of a homing pass in which the elbow is not skipped. -/
theorem home_joint_elbow (a : ArmServo) (hskip : ¬ (a.shoulder > 55 ∧ a.wrist ≠ -40)) :
    home_joint 2 a = { a with elbow := toInt16 (a.elbow +
      (if a.base ≠ 0 ∨ a.shoulder > 20 then 1
       else if a.elbow < 0 then 1 else if a.elbow > 0 then -1 else 0)) } := by
  unfold home_joint
  have hc : ¬ (a.shoulder > 55 ∧ a.wrist ≠ -40 ∧ 2 ≠ 3) := by
    intro h; exact hskip ⟨h.1, h.2.1⟩
  rw [if_neg hc]
  simp [ArmServo.get, ArmServo.set]
  congr 2
  split_ifs <;> omega

theorem ArmServo.set_base_of_ne (x : ArmServo) (i : Nat) (v : Int) (hi : i ≠ 0) :
    (x.set i v).base = x.base := by
  rcases i with _ | _ | _ | i
  · exact absurd rfl hi
  · rfl
  · rfl
  · rfl

/-- The base is processed first and no later joint writes it. -/
theorem home_tick_base (a : ArmServo) : (home_tick a).base = (home_joint 0 a).base := by
  unfold home_tick
  have h : ∀ (i : Nat) (x : ArmServo), i ≠ 0 → (home_joint i x).base = x.base := by
    intro i x hi
    unfold home_joint
    split_ifs <;> first | rfl | exact ArmServo.set_base_of_ne x i _ hi
  rw [h 3 _ (by decide), h 2 _ (by decide), h 1 _ (by decide)]

/-- C19: on a homing tick where the base is not skipped, the base (target 0)
goes from v to v - 2 sign v when |v| ≥ 2 and to 0 when |v| ≤ 1; the wrist
does the same whenever the shoulder is at most 50 when the wrist is
processed; so the magnitude strictly decreases until it is 0 and the sign
never flips. -/
theorem base_and_wrist_step_without_crossing_zero (a : ArmServo) (hwf : a.wellFormed) :
    (¬ (a.shoulder > 55 ∧ a.wrist ≠ -40) →
      (2 ≤ |a.base| → (home_tick a).base = a.base - 2 * Int.sign a.base) ∧
      (|a.base| ≤ 1 → (home_tick a).base = 0) ∧
      (a.base ≠ 0 → |(home_tick a).base| < |a.base|) ∧
      (0 ≤ a.base → 0 ≤ (home_tick a).base) ∧
      (a.base ≤ 0 → (home_tick a).base ≤ 0) ∧
      (home_joint 0 a).shoulder = a.shoulder ∧ (home_joint 0 a).elbow = a.elbow ∧
      (home_joint 0 a).wrist = a.wrist) ∧
    (a.shoulder ≤ 50 →
      (2 ≤ |a.wrist| → (home_joint 3 a).wrist = a.wrist - 2 * Int.sign a.wrist) ∧
      (|a.wrist| ≤ 1 → (home_joint 3 a).wrist = 0) ∧
      (a.wrist ≠ 0 → |(home_joint 3 a).wrist| < |a.wrist|) ∧
      (0 ≤ a.wrist → 0 ≤ (home_joint 3 a).wrist) ∧
      (a.wrist ≤ 0 → (home_joint 3 a).wrist ≤ 0) ∧
      (home_joint 3 a).base = a.base ∧ (home_joint 3 a).shoulder = a.shoulder ∧
      (home_joint 3 a).elbow = a.elbow) := by
  obtain ⟨hb, -, -, hw⟩ := hwf
  constructor
  · intro hskip
    rw [home_tick_base, home_joint_base a hb hskip]
    obtain ⟨p1, p2, p3, p4, p5⟩ := step_toward_zero_props a.base
    exact ⟨p1, p2, p3, p4, p5, rfl, rfl, rfl⟩
  · intro hs
    rw [home_joint_wrist a hw hs]
    obtain ⟨p1, p2, p3, p4, p5⟩ := step_toward_zero_props a.wrist
    exact ⟨p1, p2, p3, p4, p5, rfl, rfl, rfl⟩

/-- The C19 statement at base 7, shoulder 30, elbow 0, wrist -1. -/
theorem base_and_wrist_step_without_crossing_zero_witness :
    (ArmServo.mk 7 30 0 (-1)).wellFormed ∧
    (home_tick (ArmServo.mk 7 30 0 (-1))).base = 7 - 2 * Int.sign 7 ∧
    (home_joint 3 (ArmServo.mk 7 30 0 (-1))).wrist = 0 :=
  have hwf : (ArmServo.mk 7 30 0 (-1)).wellFormed := by
    simp only [ArmServo.wellFormed, isInt16]; decide
  ⟨hwf,
    ((base_and_wrist_step_without_crossing_zero (ArmServo.mk 7 30 0 (-1)) hwf).1
      (by decide)).1 (by decide),
    ((base_and_wrist_step_without_crossing_zero (ArmServo.mk 7 30 0 (-1)) hwf).2
      (by decide)).2.1 (by decide)⟩

/-- C20, refuted as stated: at elbow 32767 with base 1 the elbow is not
skipped, its target is current + 30, and the 16-bit store of 32768 wraps: the
elbow becomes -32768 instead of increasing by 1. -/
theorem elbow_wraps_at_int16_max :
    (ArmServo.mk 1 0 32767 0).wellFormed ∧
    ¬ ((ArmServo.mk 1 0 32767 0).shoulder > 55 ∧ (ArmServo.mk 1 0 32767 0).wrist ≠ -40) ∧
    ((ArmServo.mk 1 0 32767 0).base ≠ 0 ∨ (ArmServo.mk 1 0 32767 0).shoulder > 20) ∧
    (home_joint 2 (ArmServo.mk 1 0 32767 0)).elbow = -32768 ∧
    (home_joint 2 (ArmServo.mk 1 0 32767 0)).elbow ≠ 32767 + 1 := by
  refine ⟨?_, by decide, by decide, by decide, by decide⟩
  simp only [ArmServo.wellFormed, isInt16]; decide

/-- C20 as amended: when the elbow is not skipped and, as it is processed,
base ≠ 0 or shoulder > 20, the elbow increases by exactly 1 from every value
below 32767 (the 16-bit maximum) and in every case changes, so it has no
fixed point while the condition lasts; when the condition is false the elbow
moves one unit toward 0 and stays at 0; no other joint is written. -/
theorem elbow_step (a : ArmServo) (hwf : a.wellFormed)
    (hskip : ¬ (a.shoulder > 55 ∧ a.wrist ≠ -40)) :
    ((a.base ≠ 0 ∨ a.shoulder > 20) →
      (a.elbow < 32767 → (home_joint 2 a).elbow = a.elbow + 1) ∧
      (home_joint 2 a).elbow ≠ a.elbow) ∧
    (¬ (a.base ≠ 0 ∨ a.shoulder > 20) →
      (0 < a.elbow → (home_joint 2 a).elbow = a.elbow - 1) ∧
      (a.elbow < 0 → (home_joint 2 a).elbow = a.elbow + 1) ∧
      (a.elbow = 0 → (home_joint 2 a).elbow = 0)) ∧
    (home_joint 2 a).base = a.base ∧ (home_joint 2 a).shoulder = a.shoulder ∧
    (home_joint 2 a).wrist = a.wrist := by
  obtain ⟨-, -, he, -⟩ := hwf
  unfold isInt16 at he
  rw [home_joint_elbow a hskip]
  refine ⟨?_, ?_, rfl, rfl, rfl⟩
  · intro hc
    simp only [if_pos hc, toInt16]
    constructor
    · intro h; omega
    · omega
  · intro hc
    simp only [if_neg hc, toInt16]
    refine ⟨?_, ?_, ?_⟩ <;> intro h <;> split_ifs <;> omega

/-- The amended C20 statement at base 1, shoulder 0, elbow 5, wrist 0. -/
theorem elbow_step_witness :
    (ArmServo.mk 1 0 5 0).wellFormed ∧
    ¬ ((ArmServo.mk 1 0 5 0).shoulder > 55 ∧ (ArmServo.mk 1 0 5 0).wrist ≠ -40) ∧
    (home_joint 2 (ArmServo.mk 1 0 5 0)).elbow = 5 + 1 :=
  have hwf : (ArmServo.mk 1 0 5 0).wellFormed := by
    simp only [ArmServo.wellFormed, isInt16]; decide
  ⟨hwf, by decide,
    ((elbow_step (ArmServo.mk 1 0 5 0) hwf (by decide)).1 (by decide)).1 (by decide)⟩

/-! ## Homing: the tick in closed form -/

theorem home_joint_zero_eq (a : ArmServo) (hskip : ¬ (a.shoulder > 55 ∧ a.wrist ≠ -40)) :
    home_joint 0 a = { a with base := toInt16 (a.base + baseDelta a.base) } := by
  unfold home_joint baseDelta
  have hc : ¬ (a.shoulder > 55 ∧ a.wrist ≠ -40 ∧ 0 ≠ 3) := by
    intro h; exact hskip ⟨h.1, h.2.1⟩
  rw [if_neg hc]
  simp [ArmServo.get, ArmServo.set]
  congr 2
  split_ifs <;> omega

theorem home_joint_one_eq (a : ArmServo) (hskip : ¬ (a.shoulder > 55 ∧ a.wrist ≠ -40)) :
    home_joint 1 a
      = { a with shoulder := toInt16 (a.shoulder + shoulderDelta a.base a.shoulder) } := by
  unfold home_joint shoulderDelta
  have hc : ¬ (a.shoulder > 55 ∧ a.wrist ≠ -40 ∧ 1 ≠ 3) := by
    intro h; exact hskip ⟨h.1, h.2.1⟩
  rw [if_neg hc]
  simp [ArmServo.get, ArmServo.set]
  congr 2
  split_ifs <;> omega

theorem home_joint_two_eq (a : ArmServo) (hskip : ¬ (a.shoulder > 55 ∧ a.wrist ≠ -40)) :
    home_joint 2 a
      = { a with elbow := toInt16 (a.elbow + elbowDelta a.base a.shoulder a.elbow) } := by
  unfold home_joint elbowDelta
  have hc : ¬ (a.shoulder > 55 ∧ a.wrist ≠ -40 ∧ 2 ≠ 3) := by
    intro h; exact hskip ⟨h.1, h.2.1⟩
  rw [if_neg hc]
  simp [ArmServo.get, ArmServo.set]
  congr 2
  split_ifs <;> omega

theorem home_joint_three_eq (a : ArmServo) :
    home_joint 3 a = { a with wrist := toInt16 (a.wrist + wristDelta a.shoulder a.wrist) } := by
  unfold home_joint wristDelta
  have hc : ¬ (a.shoulder > 55 ∧ a.wrist ≠ -40 ∧ 3 ≠ 3) := by
    intro h; exact h.2.2 rfl
  rw [if_neg hc]
  simp [ArmServo.get, ArmServo.set]
  congr 2
  split_ifs <;> omega

theorem home_joint_skipped (i : Nat) (a : ArmServo) (hi : i ≠ 3)
    (hskip : a.shoulder > 55 ∧ a.wrist ≠ -40) : home_joint i a = a := by
  unfold home_joint
  rw [if_pos ⟨hskip.1, hskip.2, hi⟩]

/-- A homing tick that starts with the skip rule not engaged, joint by joint:
the shoulder sees the new base, the elbow the new base and shoulder, the wrist
the new shoulder; the elbow is passed over if the new shoulder engages the
skip rule. -/
theorem home_tick_not_skipped (a : ArmServo) (hskip : ¬ (a.shoulder > 55 ∧ a.wrist ≠ -40)) :
    ∃ b' s' e' w' : Int, home_tick a = ArmServo.mk b' s' e' w' ∧
      b' = toInt16 (a.base + baseDelta a.base) ∧
      s' = toInt16 (a.shoulder + shoulderDelta b' a.shoulder) ∧
      e' = (if s' > 55 ∧ a.wrist ≠ -40 then a.elbow
            else toInt16 (a.elbow + elbowDelta b' s' a.elbow)) ∧
      w' = toInt16 (a.wrist + wristDelta s' a.wrist) := by
  refine ⟨toInt16 (a.base + baseDelta a.base),
    toInt16 (a.shoulder + shoulderDelta (toInt16 (a.base + baseDelta a.base)) a.shoulder),
    _, _, ?_, rfl, rfl, rfl, rfl⟩
  unfold home_tick
  rw [home_joint_zero_eq a hskip]
  rw [home_joint_one_eq
    (ArmServo.mk (toInt16 (a.base + baseDelta a.base)) a.shoulder a.elbow a.wrist) hskip]
  by_cases h2 : toInt16 (a.shoulder + shoulderDelta (toInt16 (a.base + baseDelta a.base))
      a.shoulder) > 55 ∧ a.wrist ≠ -40
  · rw [home_joint_skipped 2 _ (by decide) h2, home_joint_three_eq, if_pos h2]
  · rw [home_joint_two_eq _ h2, home_joint_three_eq, if_neg h2]

/-- In 16-bit states with the shoulder at most 55 the skip rule stays
disengaged through the tick and nothing wraps below the 16-bit maximum of
the elbow. -/
theorem home_tick_low_shoulder (a : ArmServo) (hwf : a.wellFormed) (hs : a.shoulder ≤ 55) :
    ∃ b' s' e' w' : Int, home_tick a = ArmServo.mk b' s' e' w' ∧
      b' = a.base + baseDelta a.base ∧
      s' = a.shoulder + shoulderDelta b' a.shoulder ∧
      e' = toInt16 (a.elbow + elbowDelta b' s' a.elbow) ∧
      w' = a.wrist + wristDelta s' a.wrist ∧
      s' ≤ max a.shoulder 30 := by
  obtain ⟨b', s', e', w', h, hb, hs', he, hw⟩ :=
    home_tick_not_skipped a (by intro h; omega)
  obtain ⟨w1, w2, w3, w4⟩ := hwf
  unfold isInt16 at w1 w2 w3 w4
  have hb2 : b' = a.base + baseDelta a.base := by
    rw [hb]; unfold toInt16 baseDelta; split_ifs <;> omega
  have hs2 : s' = a.shoulder + shoulderDelta b' a.shoulder := by
    rw [hs']; unfold toInt16 shoulderDelta; split_ifs <;> omega
  have hs3 : s' ≤ max a.shoulder 30 := by
    rw [hs2]; unfold shoulderDelta; split_ifs <;> omega
  have he2 : e' = toInt16 (a.elbow + elbowDelta b' s' a.elbow) := by
    rw [he, if_neg (by intro h; omega)]
  have hw2 : w' = a.wrist + wristDelta s' a.wrist := by
    rw [hw]; unfold toInt16 wristDelta; split_ifs <;> omega
  exact ⟨b', s', e', w', h, hb2, hs2, he2, hw2, hs3⟩

/-! ## Claims on the homing tick as a whole -/

/-- C22, refuted as stated: from base 10, shoulder 0, elbow 32767, wrist 0 one
homing tick gives base 8, shoulder 1, elbow -32768, wrist 0: the elbow target
is current + 30, the step is +1, and the 16-bit store wraps, a change of
65535. -/
theorem home_tick_elbow_wraps :
    (ArmServo.mk 10 0 32767 0).wellFormed ∧
    home_tick (ArmServo.mk 10 0 32767 0) = ArmServo.mk 8 1 (-32768) 0 ∧
    ¬ (((home_tick (ArmServo.mk 10 0 32767 0)).elbow - 32767).natAbs ≤ 1) := by
  refine ⟨?_, by decide, by decide⟩
  simp only [ArmServo.wellFormed, isInt16]; decide

/-- C22 as amended: for every 16-bit arm state, one homing tick changes the
base and the wrist by at most 2 each and the shoulder by at most 1; it changes
the elbow by at most 1 except in exactly one case: the elbow is at 32767, is
not skipped, and is stepped up because the base just stepped is not 0 or the
shoulder just stepped is above 20; there the 16-bit store wraps the elbow to
-32768. -/
theorem home_tick_step_bounds (a : ArmServo) (hwf : a.wellFormed) :
    ((home_tick a).base - a.base).natAbs ≤ 2 ∧
    ((home_tick a).wrist - a.wrist).natAbs ≤ 2 ∧
    ((home_tick a).shoulder - a.shoulder).natAbs ≤ 1 ∧
    (((home_tick a).elbow - a.elbow).natAbs ≤ 1 ↔
      ¬ (a.elbow = 32767 ∧ ¬ (a.shoulder > 55 ∧ a.wrist ≠ -40) ∧
        ((home_tick a).base ≠ 0 ∨ (home_tick a).shoulder > 20))) ∧
    (a.elbow = 32767 → ¬ (a.shoulder > 55 ∧ a.wrist ≠ -40) →
      ((home_tick a).base ≠ 0 ∨ (home_tick a).shoulder > 20) →
      (home_tick a).elbow = -32768) := by
  obtain ⟨w1, w2, w3, w4⟩ := hwf
  unfold isInt16 at w1 w2 w3 w4
  by_cases hskip : a.shoulder > 55 ∧ a.wrist ≠ -40
  · rw [home_tick_skip a hskip.1 hskip.2]
    simp only [toInt16]
    refine ⟨by omega, ?_, by omega, ?_, ?_⟩
    · split_ifs <;> omega
    · constructor
      · intro _ h
        exact h.2.1 hskip
      · intro _
        omega
    · intro _ h
      exact absurd hskip h
  · obtain ⟨b', s', e', w', h, hb, hs, he', hw⟩ := home_tick_not_skipped a hskip
    rw [h]
    simp only
    have hb2 : (b' - a.base).natAbs ≤ 2 := by
      rw [hb]; unfold toInt16 baseDelta; split_ifs <;> omega
    have hs2 : (s' - a.shoulder).natAbs ≤ 1 ∧ (s' > 55 → a.shoulder > 55) := by
      rw [hs]; unfold toInt16 shoulderDelta; split_ifs <;> omega
    have hw2 : (w' - a.wrist).natAbs ≤ 2 := by
      rw [hw]; unfold toInt16 wristDelta; split_ifs <;> omega
    have hns : ¬ (s' > 55 ∧ a.wrist ≠ -40) := fun hc => hskip ⟨hs2.2 hc.1, hc.2⟩
    rw [if_neg hns] at he'
    have hup : (b' ≠ 0 ∨ s' > 20) → e' = toInt16 (a.elbow + 1) := by
      intro hc
      rw [he']; unfold elbowDelta; rw [if_pos hc]
    have hdown : ¬ (b' ≠ 0 ∨ s' > 20) → (e' - a.elbow).natAbs ≤ 1 := by
      intro hc
      rw [he']; unfold elbowDelta; rw [if_neg hc]
      unfold toInt16; split_ifs <;> omega
    refine ⟨hb2, hw2, hs2.1, ?_, ?_⟩
    · constructor
      · rintro hle ⟨h32, -, hc⟩
        have := hup hc
        rw [h32] at this hle
        unfold toInt16 at this
        omega
      · intro hex
        by_cases hc : b' ≠ 0 ∨ s' > 20
        · have h32 : a.elbow ≠ 32767 := fun h32 => hex ⟨h32, hskip, hc⟩
          have := hup hc
          unfold toInt16 at this
          omega
        · exact hdown hc
    · intro h32 _ hc
      have := hup hc
      rw [h32] at this
      rw [this]
      decide

/-- The amended C22 statement at the 16-bit edge: from base 0, shoulder 0,
elbow 32767, wrist 0 the tick gives elbow 32766, within the bound; and at base
10, shoulder 0, elbow 5, wrist 0, where the tick gives base 8, shoulder 1,
elbow 6. -/
theorem home_tick_step_bounds_witness :
    (ArmServo.mk 0 0 32767 0).wellFormed ∧
    home_tick (ArmServo.mk 0 0 32767 0) = ArmServo.mk 0 0 32766 0 ∧
    ((home_tick (ArmServo.mk 0 0 32767 0)).elbow - 32767).natAbs ≤ 1 ∧
    home_tick (ArmServo.mk 10 0 5 0) = ArmServo.mk 8 1 6 0 ∧
    ((home_tick (ArmServo.mk 10 0 5 0)).base - 10).natAbs ≤ 2 ∧
    ((home_tick (ArmServo.mk 10 0 5 0)).wrist - 0).natAbs ≤ 2 ∧
    ((home_tick (ArmServo.mk 10 0 5 0)).shoulder - 0).natAbs ≤ 1 ∧
    ((home_tick (ArmServo.mk 10 0 5 0)).elbow - 5).natAbs ≤ 1 :=
  have hwf : (ArmServo.mk 0 0 32767 0).wellFormed := by
    simp only [ArmServo.wellFormed, isInt16]; decide
  have hwf2 : (ArmServo.mk 10 0 5 0).wellFormed := by
    simp only [ArmServo.wellFormed, isInt16]; decide
  ⟨hwf, by decide,
    (home_tick_step_bounds (ArmServo.mk 0 0 32767 0) hwf).2.2.2.1.2 (by decide),
    by decide,
    (home_tick_step_bounds (ArmServo.mk 10 0 5 0) hwf2).1,
    (home_tick_step_bounds (ArmServo.mk 10 0 5 0) hwf2).2.1,
    (home_tick_step_bounds (ArmServo.mk 10 0 5 0) hwf2).2.2.1,
    (home_tick_step_bounds (ArmServo.mk 10 0 5 0) hwf2).2.2.2.1.2 (by decide)⟩

/-- C26: a homing tick leaves the arm state unchanged if and only if all four
joints are 0. -/
theorem home_tick_fixed_point_iff (a : ArmServo) : home_tick a = a ↔ a = homePose := by
  constructor
  · intro h
    obtain ⟨b, s, e, w⟩ := a
    by_cases hskip : s > 55 ∧ w ≠ -40
    · rw [home_tick_skip (ArmServo.mk b s e w) hskip.1 hskip.2] at h
      simp only [ArmServo.mk.injEq, true_and, toInt16] at h
      exfalso
      obtain ⟨h1, h2⟩ := hskip
      split_ifs at h <;> omega
    · obtain ⟨b', s', e', w', h', hb, hs, he, hw⟩ :=
        home_tick_not_skipped (ArmServo.mk b s e w) hskip
      rw [h'] at h
      simp only [ArmServo.mk.injEq] at h
      obtain ⟨rfl, rfl, rfl, rfl⟩ := h
      simp only at hb hs he hw hskip
      have b0 : b' = 0 := by
        unfold toInt16 baseDelta at hb; split_ifs at hb <;> omega
      subst b0
      have s0 : s' = 0 := by
        unfold toInt16 shoulderDelta at hs; split_ifs at hs <;> omega
      subst s0
      have e0 : e' = 0 := by
        unfold toInt16 elbowDelta at he; split_ifs at he <;> omega
      have w0 : w' = 0 := by
        unfold toInt16 wristDelta at hw; split_ifs at hw <;> omega
      subst e0 w0
      rfl
  · intro h
    subst h
    exact home_tick_homePose

/-- C27: the loop body with the base rule removed computes the same result
as the original for every joint index and every arm state, hence so does the
tick; and on a tick that does not skip the base, the new base is a function
of the old base alone (two units toward 0, one from 1 or -1). -/
theorem base_rule_has_no_effect :
    (∀ (i : Nat) (a : ArmServo), home_joint_without_base_rule i a = home_joint i a) ∧
    (∀ a : ArmServo, home_tick_without_base_rule a = home_tick a) ∧
    (∀ a : ArmServo, ¬ (a.shoulder > 55 ∧ a.wrist ≠ -40) →
      (home_tick a).base = toInt16 (a.base + baseDelta a.base)) := by
  have h1 : ∀ (i : Nat) (a : ArmServo), home_joint_without_base_rule i a = home_joint i a := by
    intro i a
    unfold home_joint_without_base_rule home_joint
    by_cases hi : i = 0
    · subst hi
      simp
    · simp [hi]
  refine ⟨h1, ?_, ?_⟩
  · intro a
    unfold home_tick_without_base_rule home_tick
    rw [h1, h1, h1, h1]
  · intro a hskip
    rw [home_tick_base, home_joint_zero_eq a hskip]

/-- The C27 statement at base 7, once with the shoulder at 30 and once with
the shoulder at 10. -/
theorem base_rule_has_no_effect_witness :
    ¬ ((ArmServo.mk 7 30 0 0).shoulder > 55 ∧ (ArmServo.mk 7 30 0 0).wrist ≠ -40) ∧
    (home_tick (ArmServo.mk 7 30 0 0)).base = toInt16 (7 + baseDelta 7) ∧
    (home_tick (ArmServo.mk 7 10 0 0)).base = toInt16 (7 + baseDelta 7) :=
  ⟨by decide, base_rule_has_no_effect.2.2 (ArmServo.mk 7 30 0 0) (by decide),
    base_rule_has_no_effect.2.2 (ArmServo.mk 7 10 0 0) (by decide)⟩

/-! ## Convergence of homing below the skip threshold -/

/-- The base step lowers the distance of the base from 0 by two, or brings the
base to 0. -/
theorem baseDelta_natAbs (b : Int) :
    ((b + baseDelta b) ≠ 0 → (b + baseDelta b).natAbs + 2 = b.natAbs) ∧
    ((b + baseDelta b) = 0 → b ≠ 0 → 1 ≤ b.natAbs) ∧
    (b = 0 → (b + baseDelta b) = 0) := by
  unfold baseDelta; split_ifs <;> omega

/-- The shoulder step moves the shoulder by at most one; once the base is at 0
it moves it toward 0. -/
theorem shoulderDelta_natAbs (b' s : Int) :
    (s + shoulderDelta b' s).natAbs ≤ s.natAbs + 1 ∧
    (b' = 0 → (s + shoulderDelta b' s).natAbs ≤ s.natAbs) ∧
    (b' = 0 → s ≠ 0 → (s + shoulderDelta b' s).natAbs + 1 = s.natAbs) ∧
    (b' = 0 → (s + shoulderDelta b' s) > 20 → s ≠ 0) := by
  unfold shoulderDelta; split_ifs <;> omega

/-- The elbow step moves the elbow by at most one without wrapping; once the
base is at 0 and the shoulder at most 20 it moves it toward 0. -/
theorem elbowDelta_natAbs (b' s' e : Int) (he : -10000 ≤ e ∧ e ≤ 10000) :
    toInt16 (e + elbowDelta b' s' e) = e + elbowDelta b' s' e ∧
    (e + elbowDelta b' s' e).natAbs ≤ e.natAbs + 1 ∧
    (b' = 0 → s' ≤ 20 → (e + elbowDelta b' s' e).natAbs ≤ e.natAbs) ∧
    (b' = 0 → s' ≤ 20 → e ≠ 0 → (e + elbowDelta b' s' e).natAbs + 1 = e.natAbs) := by
  have h1 : -1 ≤ elbowDelta b' s' e ∧ elbowDelta b' s' e ≤ 1 := by
    unfold elbowDelta; split_ifs <;> omega
  refine ⟨by unfold toInt16; omega, by omega, ?_, ?_⟩
  · intro hb hs; unfold elbowDelta; split_ifs <;> omega
  · intro hb hs; unfold elbowDelta; split_ifs <;> omega

/-- The wrist step moves the wrist by at most two; while the shoulder is at most
50 it moves it toward 0. -/
theorem wristDelta_natAbs (s' w : Int) :
    (w + wristDelta s' w).natAbs ≤ w.natAbs + 2 ∧
    (s' ≤ 50 → (w + wristDelta s' w).natAbs ≤ w.natAbs) ∧
    (s' ≤ 50 → w ≠ 0 → (w + wristDelta s' w).natAbs + 1 ≤ w.natAbs) := by
  unfold wristDelta; split_ifs <;> omega

/-- The weighted distance from the home pose after one step of each joint, in
order, is below the distance before, away from the home pose and with the
shoulder at most 55. -/
theorem homing_step_potential (b s e w : Int)
    (hs : s ≤ 55) (he : -10000 ≤ e ∧ e ≤ 10000)
    (hne : ¬ (b = 0 ∧ s = 0 ∧ e = 0 ∧ w = 0)) :
    4 * (b + baseDelta b).natAbs
      + 4 * (s + shoulderDelta (b + baseDelta b) s).natAbs
      + (toInt16 (e + elbowDelta (b + baseDelta b)
          (s + shoulderDelta (b + baseDelta b) s) e)).natAbs
      + (w + wristDelta (s + shoulderDelta (b + baseDelta b) s) w).natAbs
    < 4 * b.natAbs + 4 * s.natAbs + e.natAbs + w.natAbs := by
  obtain ⟨fb1, fb2, fb3⟩ := baseDelta_natAbs b
  generalize b + baseDelta b = b' at *
  obtain ⟨fs1, fs2, fs3, fs4⟩ := shoulderDelta_natAbs b' s
  have hs' : s + shoulderDelta b' s ≤ 55 := by
    unfold shoulderDelta; split_ifs <;> omega
  generalize s + shoulderDelta b' s = s' at *
  obtain ⟨fe0, fe1, fe2, fe3⟩ := elbowDelta_natAbs b' s' e he
  rw [fe0]
  generalize e + elbowDelta b' s' e = e' at *
  obtain ⟨fw1, fw2, fw3⟩ := wristDelta_natAbs s' w
  generalize w + wristDelta s' w = w' at *
  clear fe0 he
  by_cases hb0 : b' = 0
  · have gs := fs2 hb0
    by_cases hbb : b = 0
    · have hbn : b'.natAbs = 0 := by rw [hb0]; rfl
      have hbn2 : b.natAbs = 0 := by rw [hbb]; rfl
      rw [hbn, hbn2]
      by_cases h20 : s' > 20
      · have := fs3 hb0 (fs4 hb0 h20)
        clear fb1 fb2 fb3 fs2 fs3 fs4 fe2 fe3 fw2 fw3 hne
        omega
      · have h20' : s' ≤ 20 := by omega
        have ge := fe2 hb0 h20'
        have gw := fw2 (by omega)
        by_cases hs0 : s = 0
        · by_cases he0 : e = 0
          · have hw0 : w ≠ 0 := fun hw0 => hne ⟨hbb, hs0, he0, hw0⟩
            have := fw3 (by omega) hw0
            clear fb1 fb2 fb3 fs2 fs3 fs4 fe2 fe3 fw2 fw3 hne
            omega
          · have := fe3 hb0 h20' he0
            clear fb1 fb2 fb3 fs2 fs3 fs4 fe2 fe3 fw2 fw3 hne
            omega
        · have := fs3 hb0 hs0
          clear fb1 fb2 fb3 fs2 fs3 fs4 fe2 fe3 fw2 fw3 hne
          omega
    · have := fb2 hb0 hbb
      have hbn : b'.natAbs = 0 := by rw [hb0]; rfl
      rw [hbn]
      clear fb1 fb2 fb3 fs2 fs3 fs4 fe2 fe3 fw2 fw3 hne
      omega
  · have := fb1 hb0
    clear fb1 fb2 fb3 fs2 fs3 fs4 fe2 fe3 fw2 fw3 hne
    omega

/-- While the shoulder is at most 55 and the potential at most 10000, a
homing tick away from the home pose lowers the potential and keeps the
shoulder at most max(shoulder, 30). -/
theorem homingPotential_decreases (a : ArmServo) (hs : a.shoulder ≤ 55)
    (hp : homingPotential a ≤ 10000) (hne : a ≠ homePose) :
    homingPotential (home_tick a) < homingPotential a ∧
    (home_tick a).shoulder ≤ max a.shoulder 30 := by
  obtain ⟨b, s, e, w⟩ := a
  simp only [homingPotential] at hp
  simp only at hs
  have hne' : ¬ (b = 0 ∧ s = 0 ∧ e = 0 ∧ w = 0) := by
    rintro ⟨rfl, rfl, rfl, rfl⟩
    exact hne rfl
  have hwf : (ArmServo.mk b s e w).wellFormed := by
    simp only [ArmServo.wellFormed, isInt16]
    omega
  have hee : -10000 ≤ e ∧ e ≤ 10000 := by omega
  obtain ⟨b', s', e', w', h, hb, hs', he, hw, hmax⟩ :=
    home_tick_low_shoulder (ArmServo.mk b s e w) hwf hs
  simp only at hb hs' he hw hmax
  rw [h]
  simp only [homingPotential]
  refine ⟨?_, hmax⟩
  have key := homing_step_potential b s e w hs hee hne'
  rw [← hb, ← hs', ← he, ← hw] at key
  exact key

/-- The potential is 0 only at the home pose. -/
theorem homingPotential_eq_zero (a : ArmServo) (h : homingPotential a = 0) :
    a = homePose := by
  obtain ⟨b, s, e, w⟩ := a
  simp only [homingPotential] at h
  have hb : b = 0 := by omega
  have hs : s = 0 := by omega
  have he : e = 0 := by omega
  have hw : w = 0 := by omega
  subst hb hs he hw
  rfl

/-- Homing from a state with shoulder at most 55 and potential at most 10000
has reached the home pose after as many ticks as the potential, and stays. -/
theorem home_reaches_homePose (k : Nat) :
    ∀ a : ArmServo, a.shoulder ≤ 55 → homingPotential a ≤ 10000 →
      homingPotential a ≤ k → ∀ n, k ≤ n → home_tick^[n] a = homePose := by
  induction k with
  | zero =>
    intro a _ _ h0 n _
    have ha : a = homePose := homingPotential_eq_zero a (by omega)
    rw [ha]
    exact Function.iterate_fixed home_tick_homePose n
  | succ k ih =>
    intro a hs hp hk n hn
    by_cases ha : a = homePose
    · rw [ha]
      exact Function.iterate_fixed home_tick_homePose n
    · obtain ⟨hdec, hsh⟩ := homingPotential_decreases a hs hp ha
      obtain ⟨m, rfl⟩ : ∃ m, n = m + 1 := ⟨n - 1, by omega⟩
      rw [Function.iterate_succ_apply]
      exact ih (home_tick a) (by omega) (by omega) (by omega) m (by omega)

/-- Homing from a state with shoulder at most 55 and potential at most 10000
never raises the shoulder above max(initial shoulder, 30), and keeps the
potential at most 10000. -/
theorem home_shoulder_stays_low (a : ArmServo) (hs : a.shoulder ≤ 55)
    (hp : homingPotential a ≤ 10000) (n : Nat) :
    (home_tick^[n] a).shoulder ≤ max a.shoulder 30 ∧
    homingPotential (home_tick^[n] a) ≤ 10000 := by
  induction n with
  | zero => exact ⟨by simp, hp⟩
  | succ n ih =>
    obtain ⟨h1, h2⟩ := ih
    rw [Function.iterate_succ_apply']
    by_cases hx : home_tick^[n] a = homePose
    · rw [hx, home_tick_homePose, ← hx]
      exact ⟨h1, h2⟩
    · obtain ⟨hdec, hsh⟩ := homingPotential_decreases (home_tick^[n] a) (by omega) h2 hx
      exact ⟨by omega, by omega⟩

/-! ## Claim on convergence of homing -/

/-- C23: from every arm state with the shoulder at most 55 and all four joints
within ±1000, repeated homing ticks reach the all-zero home pose after finitely
many ticks (at most the weighted distance 4|base| + 4|shoulder| + |elbow| +
|wrist|) and stay there; along the way the shoulder never rises above
max(initial shoulder, 30), hence never above 55, so the wrist-first skip rule
never engages. -/
theorem home_converges_below_skip_threshold (a : ArmServo)
    (hs : a.shoulder ≤ 55)
    (hb : -1000 ≤ a.base ∧ a.base ≤ 1000)
    (hsh : -1000 ≤ a.shoulder ∧ a.shoulder ≤ 1000)
    (he : -1000 ≤ a.elbow ∧ a.elbow ≤ 1000)
    (hw : -1000 ≤ a.wrist ∧ a.wrist ≤ 1000) :
    (∀ n, homingPotential a ≤ n → home_tick^[n] a = homePose) ∧
    (∀ n, (home_tick^[n] a).shoulder ≤ max a.shoulder 30) ∧
    (∀ n, ¬ ((home_tick^[n] a).shoulder > 55 ∧ (home_tick^[n] a).wrist ≠ -40)) := by
  have hp : homingPotential a ≤ 10000 := by
    unfold homingPotential
    omega
  refine ⟨?_, ?_, ?_⟩
  · intro n hn
    exact home_reaches_homePose (homingPotential a) a hs hp (le_refl _) n hn
  · intro n
    exact (home_shoulder_stays_low a hs hp n).1
  · intro n h
    have := (home_shoulder_stays_low a hs hp n).1
    omega

/-- The C23 statement for the arm at base 10, shoulder 40, elbow -5, wrist 7,
whose weighted distance from the home pose is 212. -/
theorem home_converges_below_skip_threshold_witness :
    (ArmServo.mk 10 40 (-5) 7).shoulder ≤ 55 ∧
    homingPotential (ArmServo.mk 10 40 (-5) 7) = 212 ∧
    (∀ n, homingPotential (ArmServo.mk 10 40 (-5) 7) ≤ n →
      home_tick^[n] (ArmServo.mk 10 40 (-5) 7) = homePose) ∧
    (∀ n, (home_tick^[n] (ArmServo.mk 10 40 (-5) 7)).shoulder ≤
      max (ArmServo.mk 10 40 (-5) 7).shoulder 30) :=
  ⟨by decide, by decide,
    (home_converges_below_skip_threshold (ArmServo.mk 10 40 (-5) 7) (by decide)
      (by decide) (by decide) (by decide) (by decide)).1,
    (home_converges_below_skip_threshold (ArmServo.mk 10 40 (-5) 7) (by decide)
      (by decide) (by decide) (by decide) (by decide)).2.1⟩

/-! ## Operator-input stage: what a tick publishes -/

theorem groupEffect_none (isG : Publication → Bool) (held : Bool) (pub : List Publication)
    (h : held = false) : groupEffect isG held.toNat pub pub :=
  ⟨[], by simp, by simp, by simp [h]⟩

theorem groupEffect_one (isG : Publication → Bool) (held : Bool) (pub : List Publication)
    (p : Publication) (hp : isG p = true) (h : held = true) :
    groupEffect isG held.toNat pub (pub ++ [p]) :=
  ⟨[p], rfl, by simpa using hp, by simp [h]⟩

theorem groupEffect_comp (isG : Publication → Bool) (n1 n2 : Nat)
    (p0 p1 p2 : List Publication) (h1 : groupEffect isG n1 p0 p1)
    (h2 : groupEffect isG n2 p1 p2) : groupEffect isG (n1 + n2) p0 p2 := by
  obtain ⟨l1, rfl, a1, b1⟩ := h1
  obtain ⟨l2, rfl, a2, b2⟩ := h2
  refine ⟨l1 ++ l2, by simp, ?_, ?_⟩
  · intro p hp
    rcases List.mem_append.1 hp with hp | hp
    · exact a1 p hp
    · exact a2 p hp
  · rw [List.length_append, b1, b2]

theorem sameMessageLengths_refl (s : ControllerState) : sameMessageLengths s s :=
  ⟨rfl, rfl, rfl⟩

theorem sameMessageLengths_trans (s1 s2 s3 : ControllerState)
    (h1 : sameMessageLengths s1 s2) (h2 : sameMessageLengths s2 s3) :
    sameMessageLengths s1 s3 :=
  ⟨h2.1.trans h1.1, h2.2.1.trans h1.2.1, h2.2.2.trans h1.2.2⟩

theorem writeAt_lt (data data' : List Int) (i : Nat) (v : Int)
    (h : writeAt data i v = some data') : i < data.length := by
  unfold writeAt at h
  split_ifs at h with hc
  exact hc

/-- What `publish_arm_servo_update` leaves alone, and what it publishes. -/
theorem publish_arm_servo_update_effect (s s' : ControllerState)
    (h : publish_arm_servo_update s = some s') :
    s'.keys = s.keys ∧ s'.drive_motors = s.drive_motors ∧ sameMessageLengths s s' ∧
    ∃ d, s'.published = s.published ++ [Publication.arm_cmd_manual d] := by
  obtain ⟨d, hd, rfl⟩ := publish_arm_servo_update_shape s s' h
  exact ⟨rfl, rfl, ⟨hd, rfl, rfl⟩, d, rfl⟩

/-- What `publish_steer_servo_update` leaves alone, what it publishes, and the
length of the steer message it needs. -/
theorem publish_steer_servo_update_effect (s s' : ControllerState)
    (h : publish_steer_servo_update s = some s') :
    (s'.keys = s.keys ∧ 3 ≤ s.steer_servo_message.length) ∧
    s'.drive_motors = s.drive_motors ∧ sameMessageLengths s s' ∧
    ∃ d, s'.published = s.published ++ [Publication.steer_cmd_manual d] := by
  have h3 : 3 ≤ s.steer_servo_message.length := by
    simp only [publish_steer_servo_update, Option.bind_eq_bind, Option.bind_eq_some,
      Option.some.injEq] at h
    obtain ⟨d0, h0, d1, h1, d2, h2, -⟩ := h
    have := writeAt_lt _ _ _ _ h2
    rw [writeAt_length _ _ _ _ h1, writeAt_length _ _ _ _ h0] at this
    exact this
  obtain ⟨d, hd, rfl⟩ := publish_steer_servo_update_shape s s' h
  exact ⟨⟨rfl, h3⟩, rfl, ⟨rfl, hd, rfl⟩, d, rfl⟩

/-- What `publish_drive_motor_update` leaves alone, and what it publishes. -/
theorem publish_drive_motor_update_effect (s s' : ControllerState)
    (h : publish_drive_motor_update s = some s') :
    s'.keys = s.keys ∧ s'.drive_motors = s.drive_motors ∧ sameMessageLengths s s' ∧
    ∃ d, s'.published = s.published ++ [Publication.drive_cmd_manual d] := by
  obtain ⟨d, hd, rfl⟩ := publish_drive_motor_update_shape s s' h
  exact ⟨rfl, rfl, ⟨rfl, rfl, hd⟩, d, rfl⟩

theorem main_arm_home_effect (s s' : ControllerState) (h : main_arm_home s = some s') :
    s'.keys = s.keys ∧ s'.drive_motors = s.drive_motors ∧ sameMessageLengths s s' ∧
    groupEffect Publication.isArm (s.keys Key.KEY_p).toNat s.published s'.published := by
  unfold main_arm_home at h
  split_ifs at h with hc
  · obtain ⟨hk, hd, hm, d, hp⟩ := publish_arm_servo_update_effect _ _ h
    refine ⟨hk, hd, hm, ?_⟩
    rw [hp]
    exact groupEffect_one _ _ _ _ rfl hc
  · simp only [Option.some.injEq] at h
    subst h
    exact ⟨rfl, rfl, sameMessageLengths_refl _, groupEffect_none _ _ _ (by simpa using hc)⟩

theorem main_arm_base_effect (s s' : ControllerState) (h : main_arm_base s = some s') :
    s'.keys = s.keys ∧ s'.drive_motors = s.drive_motors ∧ sameMessageLengths s s' ∧
    groupEffect Publication.isArm (s.keys Key.KEY_n || s.keys Key.KEY_m).toNat
      s.published s'.published := by
  unfold main_arm_base at h
  split_ifs at h with hc hc2
  · obtain ⟨hk, hd, hm, d, hp⟩ := publish_arm_servo_update_effect _ _ h
    refine ⟨hk, hd, hm, ?_⟩
    rw [hp]
    exact groupEffect_one _ _ _ _ rfl (by simp [hc])
  · obtain ⟨hk, hd, hm, d, hp⟩ := publish_arm_servo_update_effect _ _ h
    refine ⟨hk, hd, hm, ?_⟩
    rw [hp]
    exact groupEffect_one _ _ _ _ rfl (by simp [hc2])
  · simp only [Option.some.injEq] at h
    subst h
    exact ⟨rfl, rfl, sameMessageLengths_refl _, groupEffect_none _ _ _ (by simp [hc, hc2])⟩

theorem main_arm_shoulder_effect (s s' : ControllerState) (h : main_arm_shoulder s = some s') :
    s'.keys = s.keys ∧ s'.drive_motors = s.drive_motors ∧ sameMessageLengths s s' ∧
    groupEffect Publication.isArm (s.keys Key.KEY_j || s.keys Key.KEY_u).toNat
      s.published s'.published := by
  unfold main_arm_shoulder at h
  split_ifs at h with hc hc2
  · obtain ⟨hk, hd, hm, d, hp⟩ := publish_arm_servo_update_effect _ _ h
    refine ⟨hk, hd, hm, ?_⟩
    rw [hp]
    exact groupEffect_one _ _ _ _ rfl (by simp [hc])
  · obtain ⟨hk, hd, hm, d, hp⟩ := publish_arm_servo_update_effect _ _ h
    refine ⟨hk, hd, hm, ?_⟩
    rw [hp]
    exact groupEffect_one _ _ _ _ rfl (by simp [hc2])
  · simp only [Option.some.injEq] at h
    subst h
    exact ⟨rfl, rfl, sameMessageLengths_refl _, groupEffect_none _ _ _ (by simp [hc, hc2])⟩

theorem main_arm_elbow_effect (s s' : ControllerState) (h : main_arm_elbow s = some s') :
    s'.keys = s.keys ∧ s'.drive_motors = s.drive_motors ∧ sameMessageLengths s s' ∧
    groupEffect Publication.isArm (s.keys Key.KEY_i || s.keys Key.KEY_k).toNat
      s.published s'.published := by
  unfold main_arm_elbow at h
  split_ifs at h with hc hc2
  · obtain ⟨hk, hd, hm, d, hp⟩ := publish_arm_servo_update_effect _ _ h
    refine ⟨hk, hd, hm, ?_⟩
    rw [hp]
    exact groupEffect_one _ _ _ _ rfl (by simp [hc])
  · obtain ⟨hk, hd, hm, d, hp⟩ := publish_arm_servo_update_effect _ _ h
    refine ⟨hk, hd, hm, ?_⟩
    rw [hp]
    exact groupEffect_one _ _ _ _ rfl (by simp [hc2])
  · simp only [Option.some.injEq] at h
    subst h
    exact ⟨rfl, rfl, sameMessageLengths_refl _, groupEffect_none _ _ _ (by simp [hc, hc2])⟩

theorem main_arm_wrist_effect (s s' : ControllerState) (h : main_arm_wrist s = some s') :
    s'.keys = s.keys ∧ s'.drive_motors = s.drive_motors ∧ sameMessageLengths s s' ∧
    groupEffect Publication.isArm (s.keys Key.KEY_o || s.keys Key.KEY_l).toNat
      s.published s'.published := by
  unfold main_arm_wrist at h
  split_ifs at h with hc hc2
  · obtain ⟨hk, hd, hm, d, hp⟩ := publish_arm_servo_update_effect _ _ h
    refine ⟨hk, hd, hm, ?_⟩
    rw [hp]
    exact groupEffect_one _ _ _ _ rfl (by simp [hc])
  · obtain ⟨hk, hd, hm, d, hp⟩ := publish_arm_servo_update_effect _ _ h
    refine ⟨hk, hd, hm, ?_⟩
    rw [hp]
    exact groupEffect_one _ _ _ _ rfl (by simp [hc2])
  · simp only [Option.some.injEq] at h
    subst h
    exact ⟨rfl, rfl, sameMessageLengths_refl _, groupEffect_none _ _ _ (by simp [hc, hc2])⟩

theorem main_arm_gripper_effect (s s' : ControllerState) (h : main_arm_gripper s = some s') :
    ((∀ k, k ≠ Key.KEY_b → s'.keys k = s.keys k) ∧ s'.keys Key.KEY_b = false) ∧
    s'.drive_motors = s.drive_motors ∧ sameMessageLengths s s' ∧
    groupEffect Publication.isArm (s.keys Key.KEY_b).toNat s.published s'.published := by
  unfold main_arm_gripper at h
  split_ifs at h with hc
  · simp only [Option.bind_eq_bind, Option.bind_eq_some, Option.some.injEq] at h
    obtain ⟨d0, h0, d1, h1, rfl⟩ := h
    have hl : d1.length = s.arm_servo_message.length := by
      rw [writeAt_length _ _ _ _ h1, writeAt_length _ _ _ _ h0]
    refine ⟨⟨?_, ?_⟩, rfl, ⟨hl, rfl, rfl⟩, groupEffect_one _ _ _ _ rfl hc⟩
    · intro k hk
      simp only [if_neg hk]
    · simp only [if_true]
  · simp only [Option.some.injEq] at h
    subst h
    exact ⟨⟨fun _ _ => rfl, by simpa using hc⟩, rfl, sameMessageLengths_refl _,
      groupEffect_none _ _ _ (by simpa using hc)⟩

theorem main_steering_effect (s s' : ControllerState) (h : main_steering s = some s') :
    (s'.keys = s.keys ∧
      ((s.keys Key.KEY_a || s.keys Key.KEY_d) = true → 3 ≤ s.steer_servo_message.length)) ∧
    s'.drive_motors = s.drive_motors ∧ sameMessageLengths s s' ∧
    groupEffect Publication.isSteer (s.keys Key.KEY_a || s.keys Key.KEY_d).toNat
      s.published s'.published := by
  unfold main_steering at h
  split_ifs at h with hc hc2
  · obtain ⟨⟨hk, h3⟩, hd, hm, d, hp⟩ := publish_steer_servo_update_effect _ _ h
    refine ⟨⟨hk, fun _ => h3⟩, hd, hm, ?_⟩
    rw [hp]
    exact groupEffect_one _ _ _ _ rfl (by simp [hc])
  · obtain ⟨⟨hk, h3⟩, hd, hm, d, hp⟩ := publish_steer_servo_update_effect _ _ h
    refine ⟨⟨hk, fun _ => h3⟩, hd, hm, ?_⟩
    rw [hp]
    exact groupEffect_one _ _ _ _ rfl (by simp [hc2])
  · simp only [Option.some.injEq] at h
    subst h
    exact ⟨⟨rfl, fun hheld => by simp [hc, hc2] at hheld⟩, rfl, sameMessageLengths_refl _,
      groupEffect_none _ _ _ (by simp [hc, hc2])⟩

theorem main_steering_reset_effect (s s' : ControllerState)
    (h : main_steering_reset s = some s') :
    (s'.keys = s.keys ∧ (s.keys Key.KEY_f = true → 3 ≤ s.steer_servo_message.length)) ∧
    s'.drive_motors = s.drive_motors ∧ sameMessageLengths s s' ∧
    groupEffect Publication.isSteer (s.keys Key.KEY_f).toNat s.published s'.published := by
  unfold main_steering_reset at h
  split_ifs at h with hc
  · obtain ⟨⟨hk, h3⟩, hd, hm, d, hp⟩ := publish_steer_servo_update_effect _ _ h
    refine ⟨⟨hk, fun _ => h3⟩, hd, hm, ?_⟩
    rw [hp]
    exact groupEffect_one _ _ _ _ rfl hc
  · simp only [Option.some.injEq] at h
    subst h
    exact ⟨⟨rfl, fun hheld => absurd hheld hc⟩, rfl, sameMessageLengths_refl _,
      groupEffect_none _ _ _ (by simpa using hc)⟩

theorem main_drive_effect (s s' : ControllerState) (h : main_drive s = some s') :
    s'.keys = s.keys ∧ sameMessageLengths s s' ∧
    groupEffect Publication.isDrive (s.keys Key.KEY_w || s.keys Key.KEY_s).toNat
      s.published s'.published ∧
    (driveInvariant s.drive_motors → driveInvariant s'.drive_motors) := by
  unfold main_drive at h
  split_ifs at h with hc hc2
  · obtain ⟨hk, hd, hm, d, hp⟩ := publish_drive_motor_update_effect _ _ h
    refine ⟨hk, hm, ?_, ?_⟩
    · rw [hp]
      exact groupEffect_one _ _ _ _ rfl (by simp [hc])
    · rintro ⟨h1, h2, h3, h4, h5, h6, h7⟩
      rw [hd]
      dsimp only [driveInvariant, toInt16]
      rw [h1, h2, h3, h4]
      have ht : (s.drive_motors.rear + 100 + 32768) % 65536 - 32768 =
          s.drive_motors.rear + 100 := by omega
      rw [ht]
      split_ifs <;> refine ⟨?_, ?_, ?_, ?_, ?_, ?_, ?_⟩ <;> omega
  · obtain ⟨hk, hd, hm, d, hp⟩ := publish_drive_motor_update_effect _ _ h
    refine ⟨hk, hm, ?_, ?_⟩
    · rw [hp]
      exact groupEffect_one _ _ _ _ rfl (by simp [hc2])
    · rintro ⟨h1, h2, h3, h4, h5, h6, h7⟩
      rw [hd]
      dsimp only [driveInvariant, toInt16]
      rw [h1, h2, h3, h4]
      have ht : (s.drive_motors.rear - 100 + 32768) % 65536 - 32768 =
          s.drive_motors.rear - 100 := by omega
      rw [ht]
      split_ifs <;> refine ⟨?_, ?_, ?_, ?_, ?_, ?_, ?_⟩ <;> omega
  · simp only [Option.some.injEq] at h
    subst h
    exact ⟨rfl, sameMessageLengths_refl _, groupEffect_none _ _ _ (by simp [hc, hc2]),
      fun hi => hi⟩

theorem main_drive_stop_effect (s s' : ControllerState) (h : main_drive_stop s = some s') :
    s'.keys = s.keys ∧ sameMessageLengths s s' ∧
    groupEffect Publication.isDrive (s.keys Key.KEY_x).toNat s.published s'.published ∧
    (driveInvariant s.drive_motors → driveInvariant s'.drive_motors) := by
  unfold main_drive_stop at h
  split_ifs at h with hc
  · obtain ⟨hk, hd, hm, d, hp⟩ := publish_drive_motor_update_effect _ _ h
    refine ⟨hk, hm, ?_, ?_⟩
    · rw [hp]
      exact groupEffect_one _ _ _ _ rfl hc
    · intro _
      rw [hd]
      show driveInvariant (DriveMotors.mk 0 0 0 0 0)
      decide
  · simp only [Option.some.injEq] at h
    subst h
    exact ⟨rfl, sameMessageLengths_refl _, groupEffect_none _ _ _ (by simpa using hc),
      fun hi => hi⟩

/-- What one iteration of the loop body publishes: one arm message for each
arm branch whose key test succeeds, then one steer message for each such
steering branch, then one drive message for each such drive branch, the tests
made on the keys as the iteration starts.  The message lengths and the drive
invariant are kept, and a steering branch that runs needs a steer message of
at least three elements. -/
theorem main_loop_body_effect (s s' : ControllerState) (h : main_loop_body s = some s') :
    (∃ la ls ld, s'.published = s.published ++ (la ++ ls ++ ld) ∧
      (∀ p ∈ la, p.isArm = true) ∧ (∀ p ∈ ls, p.isSteer = true) ∧
      (∀ p ∈ ld, p.isDrive = true) ∧
      la.length = armBranchesActive s ∧ ls.length = steerBranchesActive s ∧
      ld.length = driveBranchesActive s) ∧
    ((∀ k, k ≠ Key.KEY_b → s'.keys k = s.keys k) ∧ s'.keys Key.KEY_b = false) ∧
    (sameMessageLengths s s' ∧
      (steerKeyHeld s = true → 3 ≤ s.steer_servo_message.length)) ∧
    (driveInvariant s.drive_motors → driveInvariant s'.drive_motors) := by
  simp only [main_loop_body, Option.bind_eq_bind, Option.bind_eq_some] at h
  obtain ⟨s1, h1, s2, h2, s3, h3, s4, h4, s5, h5, s6, h6, s7, h7, s8, h8, s9, h9, h10⟩ := h
  obtain ⟨k1, d1, m1, g1⟩ := main_arm_home_effect _ _ h1
  obtain ⟨k2, d2, m2, g2⟩ := main_arm_base_effect _ _ h2
  obtain ⟨k3, d3, m3, g3⟩ := main_arm_shoulder_effect _ _ h3
  obtain ⟨k4, d4, m4, g4⟩ := main_arm_elbow_effect _ _ h4
  obtain ⟨k5, d5, m5, g5⟩ := main_arm_wrist_effect _ _ h5
  obtain ⟨⟨k6, b6⟩, d6, m6, g6⟩ := main_arm_gripper_effect _ _ h6
  obtain ⟨⟨k7, t7⟩, d7, m7, g7⟩ := main_steering_effect _ _ h7
  obtain ⟨⟨k8, t8⟩, d8, m8, g8⟩ := main_steering_reset_effect _ _ h8
  obtain ⟨k9, m9, g9, i9⟩ := main_drive_effect _ _ h9
  obtain ⟨k10, m10, g10, i10⟩ := main_drive_stop_effect _ _ h10
  have e2 : s2.keys = s.keys := k2.trans k1
  have e3 : s3.keys = s.keys := k3.trans e2
  have e4 : s4.keys = s.keys := k4.trans e3
  have e5 : s5.keys = s.keys := k5.trans e4
  have e6 : ∀ k, k ≠ Key.KEY_b → s6.keys k = s.keys k := by
    intro k hk
    rw [k6 k hk, e5]
  have e7 : s7.keys = s6.keys := k7
  have e8 : s8.keys = s6.keys := k8.trans e7
  have e9 : s9.keys = s6.keys := k9.trans e8
  have e10 : s'.keys = s6.keys := k10.trans e9
  have l2 := sameMessageLengths_trans _ _ _ m1 m2
  have l3 := sameMessageLengths_trans _ _ _ l2 m3
  have l4 := sameMessageLengths_trans _ _ _ l3 m4
  have l5 := sameMessageLengths_trans _ _ _ l4 m5
  have l6 := sameMessageLengths_trans _ _ _ l5 m6
  have l7 := sameMessageLengths_trans _ _ _ l6 m7
  have l8 := sameMessageLengths_trans _ _ _ l7 m8
  have l9 := sameMessageLengths_trans _ _ _ l8 m9
  have l10 := sameMessageLengths_trans _ _ _ l9 m10
  rw [k1] at g2
  rw [e2] at g3
  rw [e3] at g4
  rw [e4] at g5
  rw [e5] at g6
  rw [e6 _ (by decide), e6 _ (by decide)] at g7 t7
  rw [e7, e6 _ (by decide)] at g8 t8
  rw [e8, e6 _ (by decide), e6 _ (by decide)] at g9
  rw [e9, e6 _ (by decide)] at g10
  rw [l6.2.1] at t7
  rw [l7.2.1] at t8
  have ga2 := groupEffect_comp _ _ _ _ _ _ g1 g2
  have ga3 := groupEffect_comp _ _ _ _ _ _ ga2 g3
  have ga4 := groupEffect_comp _ _ _ _ _ _ ga3 g4
  have ga5 := groupEffect_comp _ _ _ _ _ _ ga4 g5
  have ga := groupEffect_comp _ _ _ _ _ _ ga5 g6
  have gs := groupEffect_comp _ _ _ _ _ _ g7 g8
  have gd := groupEffect_comp _ _ _ _ _ _ g9 g10
  obtain ⟨la, pa, qa, ra⟩ := ga
  obtain ⟨ls, ps, qs, rs⟩ := gs
  obtain ⟨ld, pd, qd, rd⟩ := gd
  refine ⟨⟨la, ls, ld, ?_, qa, qs, qd, ra, rs, rd⟩, ⟨?_, ?_⟩, ⟨l10, ?_⟩, ?_⟩
  · rw [pd, ps, pa]
    simp only [List.append_assoc]
  · intro k hk
    rw [e10, e6 k hk]
  · rw [e10, b6]
  · intro hheld
    simp only [steerKeyHeld, Bool.or_eq_true] at hheld
    rcases hheld with (ha | hd) | hf
    · exact t7 (by simp [ha])
    · exact t7 (by simp [hd])
    · exact t8 hf
  · intro hi
    apply i10
    apply i9
    rw [d8, d7, d6, d5, d4, d3, d2, d1]
    exact hi

/-- With a five-element drive message, `publish_drive_motor_update` is defined. -/
theorem publish_drive_motor_update_defined (s : ControllerState)
    (h : s.drive_motor_message.length = 5) :
    ∃ s', publish_drive_motor_update s = some s' := by
  obtain ⟨keys, vac, arm, msg, st, stm, dm, dmm, pub⟩ := s
  simp only at h
  rcases dmm with _ | ⟨m0, _ | ⟨m1, _ | ⟨m2, _ | ⟨m3, _ | ⟨m4, _ | ⟨m5, rest⟩⟩⟩⟩⟩⟩ <;>
    simp at h
  simp [publish_drive_motor_update, writeAt]

theorem main_drive_defined (s : ControllerState) (h : s.drive_motor_message.length = 5) :
    ∃ s', main_drive s = some s' := by
  unfold main_drive
  split_ifs
  · exact publish_drive_motor_update_defined _ h
  · exact publish_drive_motor_update_defined _ h
  · exact ⟨s, rfl⟩

theorem main_drive_stop_defined (s : ControllerState) (h : s.drive_motor_message.length = 5) :
    ∃ s', main_drive_stop s = some s' := by
  unfold main_drive_stop
  split_ifs
  · exact publish_drive_motor_update_defined _ h
  · exact ⟨s, rfl⟩

theorem main_arm_home_defined (s : ControllerState) (h : s.arm_servo_message.length = 4) :
    ∃ s', main_arm_home s = some s' := by
  unfold main_arm_home
  split_ifs
  · exact ⟨_, publish_arm_servo_update_eq _ h⟩
  · exact ⟨s, rfl⟩

theorem main_arm_base_defined (s : ControllerState) (h : s.arm_servo_message.length = 4) :
    ∃ s', main_arm_base s = some s' := by
  unfold main_arm_base
  split_ifs
  · exact ⟨_, publish_arm_servo_update_eq _ h⟩
  · exact ⟨_, publish_arm_servo_update_eq _ h⟩
  · exact ⟨s, rfl⟩

theorem main_arm_shoulder_defined (s : ControllerState) (h : s.arm_servo_message.length = 4) :
    ∃ s', main_arm_shoulder s = some s' := by
  unfold main_arm_shoulder
  split_ifs
  · exact ⟨_, publish_arm_servo_update_eq _ h⟩
  · exact ⟨_, publish_arm_servo_update_eq _ h⟩
  · exact ⟨s, rfl⟩

theorem main_arm_elbow_defined (s : ControllerState) (h : s.arm_servo_message.length = 4) :
    ∃ s', main_arm_elbow s = some s' := by
  unfold main_arm_elbow
  split_ifs
  · exact ⟨_, publish_arm_servo_update_eq _ h⟩
  · exact ⟨_, publish_arm_servo_update_eq _ h⟩
  · exact ⟨s, rfl⟩

theorem main_arm_wrist_defined (s : ControllerState) (h : s.arm_servo_message.length = 4) :
    ∃ s', main_arm_wrist s = some s' := by
  unfold main_arm_wrist
  split_ifs
  · exact ⟨_, publish_arm_servo_update_eq _ h⟩
  · exact ⟨_, publish_arm_servo_update_eq _ h⟩
  · exact ⟨s, rfl⟩

theorem main_arm_gripper_defined (s : ControllerState) (h : s.arm_servo_message.length = 4) :
    ∃ s', main_arm_gripper s = some s' := by
  by_cases hb : s.keys Key.KEY_b = true
  · obtain ⟨keys, vac, arm, msg, st, stm, dm, dmm, pub⟩ := s
    simp only at h hb
    rcases msg with _ | ⟨m0, _ | ⟨m1, rest⟩⟩
    · simp at h
    · simp at h
    · exact ⟨_, main_arm_gripper_eq _ m0 m1 rest rfl hb⟩
  · exact ⟨s, by simp [main_arm_gripper, hb]⟩

/-- With an arm message of four and a drive message of five elements and no
steering key held, the loop body is defined. -/
theorem main_loop_body_defined_of_lengths (s : ControllerState)
    (ha : s.arm_servo_message.length = 4) (hd : s.drive_motor_message.length = 5)
    (hs : steerKeyHeld s = false) : ∃ s', main_loop_body s = some s' := by
  simp only [steerKeyHeld, Bool.or_eq_false_iff] at hs
  obtain ⟨⟨hka, hkd⟩, hkf⟩ := hs
  obtain ⟨s1, h1⟩ := main_arm_home_defined s ha
  obtain ⟨k1, -, m1, -⟩ := main_arm_home_effect _ _ h1
  obtain ⟨s2, h2⟩ := main_arm_base_defined s1 (m1.1.trans ha)
  obtain ⟨k2, -, m2, -⟩ := main_arm_base_effect _ _ h2
  have l2 := sameMessageLengths_trans _ _ _ m1 m2
  obtain ⟨s3, h3⟩ := main_arm_shoulder_defined s2 (l2.1.trans ha)
  obtain ⟨k3, -, m3, -⟩ := main_arm_shoulder_effect _ _ h3
  have l3 := sameMessageLengths_trans _ _ _ l2 m3
  obtain ⟨s4, h4⟩ := main_arm_elbow_defined s3 (l3.1.trans ha)
  obtain ⟨k4, -, m4, -⟩ := main_arm_elbow_effect _ _ h4
  have l4 := sameMessageLengths_trans _ _ _ l3 m4
  obtain ⟨s5, h5⟩ := main_arm_wrist_defined s4 (l4.1.trans ha)
  obtain ⟨k5, -, m5, -⟩ := main_arm_wrist_effect _ _ h5
  have l5 := sameMessageLengths_trans _ _ _ l4 m5
  obtain ⟨s6, h6⟩ := main_arm_gripper_defined s5 (l5.1.trans ha)
  obtain ⟨⟨k6, -⟩, -, m6, -⟩ := main_arm_gripper_effect _ _ h6
  have l6 := sameMessageLengths_trans _ _ _ l5 m6
  have e5 : s5.keys = s.keys := k5.trans (k4.trans (k3.trans (k2.trans k1)))
  have e6 : ∀ k, k ≠ Key.KEY_b → s6.keys k = s.keys k := by
    intro k hk
    rw [k6 k hk, e5]
  have h7 : main_steering s6 = some s6 := by
    simp [main_steering, e6 Key.KEY_a (by decide), e6 Key.KEY_d (by decide), hka, hkd]
  have h8 : main_steering_reset s6 = some s6 := by
    simp [main_steering_reset, e6 Key.KEY_f (by decide), hkf]
  obtain ⟨s9, h9⟩ := main_drive_defined s6 (l6.2.2.trans hd)
  obtain ⟨-, m9, -, -⟩ := main_drive_effect _ _ h9
  obtain ⟨s10, h10⟩ := main_drive_stop_defined s9 (m9.2.2.trans (l6.2.2.trans hd))
  refine ⟨s10, ?_⟩
  simp only [main_loop_body, Option.bind_eq_bind, h1, h2, h3, h4, h5, h6, h7, h8, h9, h10,
    Option.some_bind]

/-- With only drive keys held and a five-element drive message, the loop body
is defined. -/
theorem main_loop_body_defined (s : ControllerState) (h : driveOnlyState s) :
    ∃ s', main_loop_body s = some s' := by
  obtain ⟨hk, hl⟩ := h
  obtain ⟨s9, h9⟩ := main_drive_defined s hl
  have l9 : s9.drive_motor_message.length = 5 := (main_drive_effect s s9 h9).2.1.2.2.trans hl
  obtain ⟨s10, h10⟩ := main_drive_stop_defined s9 l9
  refine ⟨s10, ?_⟩
  simp only [main_loop_body, main_arm_home, main_arm_base, main_arm_shoulder, main_arm_elbow,
    main_arm_wrist, main_arm_gripper, main_steering, main_steering_reset,
    hk Key.KEY_p rfl, hk Key.KEY_n rfl, hk Key.KEY_m rfl, hk Key.KEY_j rfl, hk Key.KEY_u rfl,
    hk Key.KEY_i rfl, hk Key.KEY_k rfl, hk Key.KEY_o rfl, hk Key.KEY_l rfl, hk Key.KEY_b rfl,
    hk Key.KEY_a rfl, hk Key.KEY_d rfl, hk Key.KEY_f rfl,
    Bool.false_eq_true, if_false, Option.bind_eq_bind, Option.some_bind, h9, h10]

/-- Drive events keep the loop in a state with only drive keys held and a
five-element drive message, and every such run is defined. -/
theorem runEvents_drive_defined (evs : List Event) :
    ∀ s : ControllerState, driveOnlyState s → (∀ e ∈ evs, e.isDriveEvent = true) →
      ∃ s', runEvents evs s = some s' := by
  induction evs with
  | nil => intro s _ _; exact ⟨s, rfl⟩
  | cons e es ih =>
    intro s hs hev
    have he : e.isDriveEvent = true := hev e (List.mem_cons_self _ _)
    have hes : ∀ e' ∈ es, e'.isDriveEvent = true :=
      fun e' h' => hev e' (List.mem_cons_of_mem _ h')
    cases e with
    | keyDown key =>
      simp only [runEvents, step, Option.some_bind]
      refine ih _ ⟨?_, hs.2⟩ hes
      intro k hk
      have hne : k ≠ key := by
        rintro rfl
        simp only [Event.isDriveEvent] at he
        rw [he] at hk
        exact Bool.noConfusion hk
      simp only [keyDown, if_neg hne]
      exact hs.1 k hk
    | keyUp key =>
      simp only [runEvents, step, Option.some_bind]
      refine ih _ ⟨?_, hs.2⟩ hes
      intro k hk
      simp only [keyUp]
      split_ifs
      · rfl
      · exact hs.1 k hk
    | tick =>
      obtain ⟨mid, hmid⟩ := main_loop_body_defined s hs
      simp only [runEvents, step, hmid, Option.some_bind]
      obtain ⟨-, ⟨hk, hb⟩, ⟨hl, -⟩, -⟩ := main_loop_body_effect s mid hmid
      refine ih mid ⟨?_, hl.2.2.trans hs.2⟩ hes
      intro k hkd
      by_cases hkb : k = Key.KEY_b
      · rw [hkb, hb]
      · rw [hk k hkb]
        exact hs.1 k hkd

/-- Every event keeps the drive invariant. -/
theorem runEvents_driveInvariant (evs : List Event) :
    ∀ s s' : ControllerState, driveInvariant s.drive_motors → runEvents evs s = some s' →
      driveInvariant s'.drive_motors := by
  induction evs with
  | nil =>
    intro s s' hinv h
    simp only [runEvents, Option.some.injEq] at h
    subst h
    exact hinv
  | cons e es ih =>
    intro s s' hinv h
    simp only [runEvents, Option.bind_eq_some] at h
    obtain ⟨mid, hmid, hrest⟩ := h
    refine ih mid s' ?_ hrest
    cases e with
    | keyDown key =>
      simp only [step, Option.some.injEq] at hmid
      subst hmid
      exact hinv
    | keyUp key =>
      simp only [step, Option.some.injEq] at hmid
      subst hmid
      exact hinv
    | tick => exact (main_loop_body_effect s mid hmid).2.2.2 hinv

/-- Every event keeps the lengths of the three message arrays. -/
theorem runEvents_messageLengths (evs : List Event) :
    ∀ s s' : ControllerState, messageLengths s → runEvents evs s = some s' →
      messageLengths s' := by
  induction evs with
  | nil =>
    intro s s' hinv h
    simp only [runEvents, Option.some.injEq] at h
    subst h
    exact hinv
  | cons e es ih =>
    intro s s' hinv h
    simp only [runEvents, Option.bind_eq_some] at h
    obtain ⟨mid, hmid, hrest⟩ := h
    refine ih mid s' ?_ hrest
    cases e with
    | keyDown key =>
      simp only [step, Option.some.injEq] at hmid
      subst hmid
      exact hinv
    | keyUp key =>
      simp only [step, Option.some.injEq] at hmid
      subst hmid
      exact hinv
    | tick =>
      obtain ⟨l1, l2, l3⟩ := (main_loop_body_effect s mid hmid).2.2.1.1
      exact ⟨l1.trans hinv.1, l2.trans hinv.2.1, l3.trans hinv.2.2⟩

theorem controllerInit_messageLengths : messageLengths controllerInit :=
  ⟨rfl, rfl, rfl⟩

theorem controllerInit_driveOnlyState : driveOnlyState controllerInit := by
  refine ⟨?_, rfl⟩
  intro k _
  simp [controllerInit, initialize_key_states, initialize_servos, controllerStart]

theorem controllerInit_driveInvariant : driveInvariant controllerInit.drive_motors := by
  decide

/-- A tick with only the stop key held and a five-element drive message: the
five drive values are set to 0 and published. -/
theorem main_loop_body_stop_only (s : ControllerState) (hk : onlyKeyHeld Key.KEY_x s)
    (m0 m1 m2 m3 m4 : Int) (hl : s.drive_motor_message = [m0, m1, m2, m3, m4]) :
    main_loop_body s = some
      { s with
        drive_motors := DriveMotors.mk 0 0 0 0 0,
        drive_motor_message := [0, 0, 0, 0, 0],
        published := s.published ++ [Publication.drive_cmd_manual [0, 0, 0, 0, 0]] } := by
  unfold onlyKeyHeld at hk
  simp [main_loop_body, main_arm_home, hk, main_arm_base, main_arm_shoulder, main_arm_elbow,
    main_arm_wrist, main_arm_gripper, main_steering, main_steering_reset, main_drive,
    main_drive_stop, publish_drive_motor_update, writeAt, hl]

theorem keyDown_onlyKeyHeld (key : Key) (s : ControllerState) (h : noKeyHeld s) :
    onlyKeyHeld key (keyDown key s) := by
  intro k
  simp only [keyDown]
  split_ifs with hc
  · simp [hc]
  · simp [hc, h k]

theorem controllerInit_noKeyHeld : noKeyHeld controllerInit := by
  intro k
  simp [controllerInit, initialize_key_states, initialize_servos, controllerStart]

theorem armBranchesActive_pos_iff (s : ControllerState) :
    armBranchesActive s ≠ 0 ↔ armKeyHeld s = true := by
  unfold armBranchesActive armKeyHeld
  cases s.keys Key.KEY_p <;> cases s.keys Key.KEY_n <;> cases s.keys Key.KEY_m <;>
    cases s.keys Key.KEY_j <;> cases s.keys Key.KEY_u <;> cases s.keys Key.KEY_i <;>
    cases s.keys Key.KEY_k <;> cases s.keys Key.KEY_o <;> cases s.keys Key.KEY_l <;>
    cases s.keys Key.KEY_b <;> decide

theorem driveBranchesActive_pos_iff (s : ControllerState) :
    driveBranchesActive s ≠ 0 ↔ driveKeyHeld s = true := by
  unfold driveBranchesActive driveKeyHeld
  cases s.keys Key.KEY_w <;> cases s.keys Key.KEY_s <;> cases s.keys Key.KEY_x <;> decide

theorem armBranchesActive_le (s : ControllerState) : armBranchesActive s ≤ 6 := by
  unfold armBranchesActive
  have h := fun b : Bool => Bool.toNat_le b
  have h1 := h (s.keys Key.KEY_p)
  have h2 := h (s.keys Key.KEY_n || s.keys Key.KEY_m)
  have h3 := h (s.keys Key.KEY_j || s.keys Key.KEY_u)
  have h4 := h (s.keys Key.KEY_i || s.keys Key.KEY_k)
  have h5 := h (s.keys Key.KEY_o || s.keys Key.KEY_l)
  have h6 := h (s.keys Key.KEY_b)
  omega

theorem driveBranchesActive_le (s : ControllerState) : driveBranchesActive s ≤ 2 := by
  unfold driveBranchesActive
  have h1 := Bool.toNat_le (s.keys Key.KEY_w || s.keys Key.KEY_s)
  have h2 := Bool.toNat_le (s.keys Key.KEY_x)
  omega

/-! ## Claims on what a tick publishes, and on the drive values -/

/-- C21, refuted as stated: from the initial state of the loop, a tick with
the home key p held publishes the arm command [0, 0, 0, 0] although no arm
value changed (joint angles, arm message and vacuum state are as before), and
a tick with the stop key x held publishes the drive command [0, 0, 0, 0, 0]
although no drive value changed. -/
theorem tick_publishes_unchanged_group :
    (∃ s', main_loop_body (keyDown Key.KEY_p controllerInit) = some s' ∧
      s'.published = [Publication.arm_cmd_manual [0, 0, 0, 0]] ∧
      s'.arm_servo = controllerInit.arm_servo ∧
      s'.arm_servo_message = controllerInit.arm_servo_message ∧
      s'.CURRENT_VACUUM_STATE = controllerInit.CURRENT_VACUUM_STATE) ∧
    (∃ s', main_loop_body (keyDown Key.KEY_x controllerInit) = some s' ∧
      s'.published = [Publication.drive_cmd_manual [0, 0, 0, 0, 0]] ∧
      s'.drive_motors = controllerInit.drive_motors ∧
      s'.drive_motor_message = controllerInit.drive_motor_message) := by
  constructor
  · exact ⟨_, main_loop_body_home_only (keyDown Key.KEY_p controllerInit)
      (keyDown_onlyKeyHeld _ _ controllerInit_noKeyHeld) rfl, rfl, rfl, rfl, rfl⟩
  · exact ⟨_, main_loop_body_stop_only (keyDown Key.KEY_x controllerInit)
      (keyDown_onlyKeyHeld _ _ controllerInit_noKeyHeld) 0 0 0 0 0 rfl, rfl, rfl, rfl⟩

/-- C21 as amended: in every state reached from the initial state of the loop
by key notifications and ticks, the next tick is defined exactly when none of
the steering keys a, d, f is held (with one held the tick stores past the end
of the empty steer message).  A defined tick publishes one arm message for
each arm branch whose key is held as the tick starts (home p; base n or m;
shoulder j or u; elbow i or k; wrist o or l; gripper b; at most six), then one
drive message for each such drive branch (w or s; x; at most two), and no
other message; so it publishes an arm (drive) message if and only if an arm
(drive) key is held, whether or not a value changes. -/
theorem tick_publishes_one_message_per_active_branch (evs : List Event)
    (s : ControllerState) (hr : runEvents evs controllerInit = some s) :
    ((∃ s', main_loop_body s = some s') ↔ steerKeyHeld s = false) ∧
    (∀ s', main_loop_body s = some s' →
      ∃ la ld, s'.published = s.published ++ (la ++ ld) ∧
        (∀ p ∈ la, p.isArm = true) ∧ (∀ p ∈ ld, p.isDrive = true) ∧
        (la.length = armBranchesActive s ∧ la.length ≤ 6) ∧
        (ld.length = driveBranchesActive s ∧ ld.length ≤ 2) ∧
        (la ≠ [] ↔ armKeyHeld s = true) ∧ (ld ≠ [] ↔ driveKeyHeld s = true)) := by
  obtain ⟨ha, hst, hd⟩ := runEvents_messageLengths evs controllerInit s
    controllerInit_messageLengths hr
  have hsteer : ∀ s', main_loop_body s = some s' → steerKeyHeld s = false := by
    intro s' h
    by_contra hne
    have h3 := (main_loop_body_effect s s' h).2.2.1.2 (by simpa using hne)
    omega
  refine ⟨⟨?_, main_loop_body_defined_of_lengths s ha hd⟩, ?_⟩
  · rintro ⟨s', h⟩
    exact hsteer s' h
  · intro s' h
    obtain ⟨⟨la, ls, ld, hp, qa, qs, qd, ra, rs, rd⟩, -, -, -⟩ := main_loop_body_effect s s' h
    have hs0 : steerBranchesActive s = 0 := by
      have := hsteer s' h
      simp only [steerKeyHeld, Bool.or_eq_false_iff] at this
      simp [steerBranchesActive, this.1.1, this.1.2, this.2]
    have hnil : ls = [] := List.length_eq_zero.1 (rs.trans hs0)
    subst hnil
    refine ⟨la, ld, by simpa using hp, qa, qd, ⟨ra, ?_⟩, ⟨rd, ?_⟩, ?_, ?_⟩
    · rw [ra]
      exact armBranchesActive_le s
    · rw [rd]
      exact driveBranchesActive_le s
    · rw [← armBranchesActive_pos_iff, ← ra]
      simp [List.length_eq_zero]
    · rw [← driveBranchesActive_pos_iff, ← rd]
      simp [List.length_eq_zero]

/-- The amended C21 statement after the presses of p, w and x: one arm branch
and two drive branches are active, the tick is defined and publishes the arm
message [0, 0, 0, 0] and the drive messages [100, 100, 100, 100, 100] and
[0, 0, 0, 0, 0]; and after the press of a the tick is not defined. -/
theorem tick_publishes_one_message_per_active_branch_witness :
    runEvents [Event.keyDown Key.KEY_p, Event.keyDown Key.KEY_w, Event.keyDown Key.KEY_x]
        controllerInit =
      some (keyDown Key.KEY_x (keyDown Key.KEY_w (keyDown Key.KEY_p controllerInit))) ∧
    steerKeyHeld (keyDown Key.KEY_x (keyDown Key.KEY_w
      (keyDown Key.KEY_p controllerInit))) = false ∧
    armBranchesActive (keyDown Key.KEY_x (keyDown Key.KEY_w
      (keyDown Key.KEY_p controllerInit))) = 1 ∧
    driveBranchesActive (keyDown Key.KEY_x (keyDown Key.KEY_w
      (keyDown Key.KEY_p controllerInit))) = 2 ∧
    (main_loop_body (keyDown Key.KEY_x (keyDown Key.KEY_w
        (keyDown Key.KEY_p controllerInit)))).map (fun s => s.published) =
      some [Publication.arm_cmd_manual [0, 0, 0, 0],
        Publication.drive_cmd_manual [100, 100, 100, 100, 100],
        Publication.drive_cmd_manual [0, 0, 0, 0, 0]] ∧
    (∃ s', main_loop_body (keyDown Key.KEY_x (keyDown Key.KEY_w
        (keyDown Key.KEY_p controllerInit))) = some s') ∧
    (∀ s', main_loop_body (keyDown Key.KEY_x (keyDown Key.KEY_w
        (keyDown Key.KEY_p controllerInit))) = some s' →
      ∃ la ld,
        s'.published = (keyDown Key.KEY_x (keyDown Key.KEY_w
          (keyDown Key.KEY_p controllerInit))).published ++ (la ++ ld) ∧
        (∀ p ∈ la, p.isArm = true) ∧ (∀ p ∈ ld, p.isDrive = true) ∧
        (la.length = armBranchesActive (keyDown Key.KEY_x (keyDown Key.KEY_w
          (keyDown Key.KEY_p controllerInit))) ∧ la.length ≤ 6) ∧
        (ld.length = driveBranchesActive (keyDown Key.KEY_x (keyDown Key.KEY_w
          (keyDown Key.KEY_p controllerInit))) ∧ ld.length ≤ 2) ∧
        (la ≠ [] ↔ armKeyHeld (keyDown Key.KEY_x (keyDown Key.KEY_w
          (keyDown Key.KEY_p controllerInit))) = true) ∧
        (ld ≠ [] ↔ driveKeyHeld (keyDown Key.KEY_x (keyDown Key.KEY_w
          (keyDown Key.KEY_p controllerInit))) = true)) ∧
    steerKeyHeld (keyDown Key.KEY_a controllerInit) = true ∧
    ¬ (∃ s', main_loop_body (keyDown Key.KEY_a controllerInit) = some s') :=
  ⟨rfl, by decide, by decide, by decide, by decide,
    (tick_publishes_one_message_per_active_branch
      [Event.keyDown Key.KEY_p, Event.keyDown Key.KEY_w, Event.keyDown Key.KEY_x] _ rfl).1.2
      (by decide),
    (tick_publishes_one_message_per_active_branch
      [Event.keyDown Key.KEY_p, Event.keyDown Key.KEY_w, Event.keyDown Key.KEY_x] _ rfl).2,
    by decide,
    fun h => Bool.noConfusion
      (((tick_publishes_one_message_per_active_branch [Event.keyDown Key.KEY_a] _ rfl).1.1
        h).symm.trans (by decide : steerKeyHeld (keyDown Key.KEY_a controllerInit) = true))⟩

/-- C24: in every state reached from the initial state of the loop by any
sequence of key notifications and ticks, the five drive motor values are
equal, a multiple of 100 and within [-2000, 2000], although the front-right
update tests the side-right value; and every run made of ticks and of presses
and releases of the drive keys w, s, x is defined, so such states exist. -/
theorem drive_motors_equal_and_bounded :
    (∀ (evs : List Event) (s : ControllerState), runEvents evs controllerInit = some s →
      driveInvariant s.drive_motors) ∧
    (∀ evs : List Event, (∀ e ∈ evs, e.isDriveEvent = true) →
      ∃ s, runEvents evs controllerInit = some s ∧ driveInvariant s.drive_motors) := by
  constructor
  · intro evs s h
    exact runEvents_driveInvariant evs controllerInit s controllerInit_driveInvariant h
  · intro evs hev
    obtain ⟨s, hs⟩ := runEvents_drive_defined evs controllerInit controllerInit_driveOnlyState hev
    exact ⟨s, hs, runEvents_driveInvariant evs controllerInit s controllerInit_driveInvariant hs⟩

/-- The C24 statement for the run: w pressed, two ticks, w released, s pressed,
one tick, after which the five drive values are 100. -/
theorem drive_motors_equal_and_bounded_witness :
    (∀ e ∈ [Event.keyDown Key.KEY_w, Event.tick, Event.tick, Event.keyUp Key.KEY_w,
        Event.keyDown Key.KEY_s, Event.tick], e.isDriveEvent = true) ∧
    (runEvents [Event.keyDown Key.KEY_w, Event.tick, Event.tick, Event.keyUp Key.KEY_w,
        Event.keyDown Key.KEY_s, Event.tick] controllerInit).map (fun s => s.drive_motors) =
      some (DriveMotors.mk 100 100 100 100 100) ∧
    ∃ s, runEvents [Event.keyDown Key.KEY_w, Event.tick, Event.tick, Event.keyUp Key.KEY_w,
        Event.keyDown Key.KEY_s, Event.tick] controllerInit = some s ∧
      driveInvariant s.drive_motors :=
  ⟨by decide, by decide, drive_motors_equal_and_bounded.2 _ (by decide)⟩

/-! ## Claim on the pulses of the keyboard drive speeds -/

/-- On a multiple of 100 within [-2000, 2000] the drive translation is defined,
yields a pulse within [248, 345], and yields 292 only at speed 0. -/
theorem drive_speed_to_pulse_on_keyboard_speed (s : Int) (h100 : s % 100 = 0)
    (hlo : -2000 ≤ s) (hhi : s ≤ 2000) :
    drive_speed_to_pulse s = some (drivePulseInt s) ∧
    248 ≤ drivePulseInt s ∧ drivePulseInt s ≤ 345 ∧ (drivePulseInt s = 292 ↔ s = 0) := by
  have hb : 248 ≤ drivePulseInt s ∧ drivePulseInt s ≤ 345 ∧ (drivePulseInt s = 292 ↔ s = 0) := by
    unfold drivePulseInt
    simp only [tdiv_of_pos _ 2000 (by norm_num)]
    split_ifs <;> refine ⟨?_, ?_, ?_⟩ <;> omega
  refine ⟨?_, hb⟩
  rw [drive_speed_to_pulse_eq s (by unfold isInt32; omega), if_pos ⟨by omega, by omega⟩]

/-- C25: for every multiple of 100 in [-2000, 2000], `drive_speed_to_pulse`
returns a pulse within [248, 345], and the neutral pulse 292 only for speed 0,
both on the speed itself and on the speed negated as
`drive_cmd_manual_callback` negates the rear speed. -/
theorem keyboard_drive_speed_pulse_in_range (s : Int) (h100 : s % 100 = 0)
    (hlo : -2000 ≤ s) (hhi : s ≤ 2000) :
    (∃ p, drive_speed_to_pulse (toInt16 s) = some p ∧
      MAX_REVERSE_SPEED_PWM ≤ p ∧ p ≤ MAX_FORWARD_SPEED_PWM ∧
      (p = NEUTRAL_SPEED_PWM ↔ s = 0)) ∧
    (∃ p, drive_speed_to_pulse (toInt16 (-(toInt16 s))) = some p ∧
      MAX_REVERSE_SPEED_PWM ≤ p ∧ p ≤ MAX_FORWARD_SPEED_PWM ∧
      (p = NEUTRAL_SPEED_PWM ↔ s = 0)) := by
  have e1 : toInt16 s = s := by unfold toInt16; omega
  have e2 : toInt16 (-s) = -s := by unfold toInt16; omega
  rw [e1, e2]
  unfold MAX_REVERSE_SPEED_PWM MAX_FORWARD_SPEED_PWM NEUTRAL_SPEED_PWM
  constructor
  · obtain ⟨h1, h2, h3, h4⟩ := drive_speed_to_pulse_on_keyboard_speed s h100 hlo hhi
    exact ⟨_, h1, h2, h3, h4⟩
  · obtain ⟨h1, h2, h3, h4⟩ :=
      drive_speed_to_pulse_on_keyboard_speed (-s) (by omega) (by omega) (by omega)
    exact ⟨_, h1, h2, h3, h4.trans (by omega)⟩

/-- The C25 statement at speed 100, the first step of the w key: the pulse is
294, and 289 for the negated speed. -/
theorem keyboard_drive_speed_pulse_in_range_witness :
    drive_speed_to_pulse 100 = some 294 ∧ drive_speed_to_pulse (-100) = some 289 ∧
    (∃ p, drive_speed_to_pulse (toInt16 100) = some p ∧
      MAX_REVERSE_SPEED_PWM ≤ p ∧ p ≤ MAX_FORWARD_SPEED_PWM ∧
      (p = NEUTRAL_SPEED_PWM ↔ (100 : Int) = 0)) ∧
    (∃ p, drive_speed_to_pulse (toInt16 (-(toInt16 100))) = some p ∧
      MAX_REVERSE_SPEED_PWM ≤ p ∧ p ≤ MAX_FORWARD_SPEED_PWM ∧
      (p = NEUTRAL_SPEED_PWM ↔ (100 : Int) = 0)) :=
  ⟨(drive_speed_to_pulse_on_keyboard_speed 100 (by decide) (by decide) (by decide)).1.trans
      (by decide),
    (drive_speed_to_pulse_on_keyboard_speed (-100) (by decide) (by decide) (by decide)).1.trans
      (by decide),
    keyboard_drive_speed_pulse_in_range 100 (by decide) (by decide) (by decide)⟩

/-! ## Claim on the layout of the published arm messages -/

/-- C12, evaluated on the code: with the base key held for two ticks and the
vacuum key pressed before the second, the stage publishes on the arm topic the
messages [1, 0, 0, 0], [2, 0, 0, 0] and [4, 1, 0, 0] while the joint angles are
2, 0, 0, 0: each message has 4 elements, not 6, and the last one carries 4 and
the vacuum state in the places of the base and shoulder angles.  Every arm
message published in any run has 4 elements, so the translator's arm callback
has no defined result on any of them: on [4, 1, 0, 0] it has set the base and
shoulder pulses for 4 and 1 degrees (317 and 315) when it reads element 4 past
the end of the message. -/
theorem published_arm_message_has_four_elements :
    (runEvents [Event.keyDown Key.KEY_n, Event.tick, Event.keyDown Key.KEY_b, Event.tick]
        controllerInit).map (fun s => (s.published, s.arm_servo))
      = some ([Publication.arm_cmd_manual [1, 0, 0, 0], Publication.arm_cmd_manual [2, 0, 0, 0],
          Publication.arm_cmd_manual [4, 1, 0, 0]], ArmServo.mk 2 0 0 0) ∧
    (∀ (evs : List Event) (s : ControllerState) (d : List Int),
      runEvents evs controllerInit = some s → Publication.arm_cmd_manual d ∈ s.published →
      d.length = 4 ∧ ∀ st : TranslatorState, arm_cmd_manual_callback d st = none) ∧
    arm_cmd_manual_callback_trace [4, 1, 0, 0]
        (initialize_command_message_array translatorStart)
      = Outcome.undefinedIn (TranslatorState.mk
          [317, 315, 315, 315, 295, 295, 295, 292, 292, 292, 292, 292, 295, 355, 310] false) := by
  refine ⟨by decide, ?_, ?_⟩
  · intro evs s d h hmem
    have hl : d.length = 4 :=
      (armMessagesHaveLength_runEvents 4 evs _ s controllerInit_armMessagesHaveLength h).2 d hmem
    exact ⟨hl, fun st => arm_cmd_manual_callback_short d st (by omega)⟩
  · simp only [arm_cmd_manual_callback_trace, translateInto, Outcome.andThen,
      arm_angle_to_pulse, angle_to_pulse_eq _ _ _ _ _ (toInt16_isInt32 _)]
    decide

end Rover
